import Mathlib

/-! Analytics module of the Smart Monitor xApp.

A shallow embedding of `src/xapp/test-2/src/analytics.c` (types from
`src/xapp-template/include/analytics.h`, `MIN` from `utils.h`).

Modelling conventions.

* `double` is an arbitrary linearly ordered field `α` with exact arithmetic; the
  library function `sqrt` is a parameter `sqrt : α → α` of every function that
  calls it.  Results about square roots instantiate `α := ℝ`, `sqrt := Real.sqrt`.
  The one quotient whose divisor can be zero on an executed path is the confidence
  of the model stage, `error / (error_threshold * 2.0)`; there the dividend is
  positive, IEEE 754 gives `+inf`, and `MIN(+inf, 1.0)` is `1.0`, which the
  embedding writes out as a case of its own.
* Where the rounding of binary64 arithmetic decides a property, the statistics
  routine has a second embedding, `analytics_calculate_stats_double`, over the
  rationals with every arithmetic result rounded to the nearest double
  (`round_double`, `sqrt_double`).
* C arrays are total functions on `Nat`; the slots outside the declared bounds are
  never touched by the guarded code paths.
* `metric_type_t` is the enum's underlying number, so that out-of-range kinds can be
  expressed; `METRIC_COUNT = 9`.
* `int` fields that hold positions and lengths (`head`, `tail`, `count`,
  `anomaly_count`, `recommendation_count`) are `Nat`; `int` parameters and the
  configured windows are `Int`.  `uint64_t` counters are `Nat` with the wrap-around
  `% 2 ^ 64` written out.  Signed overflow of `anomaly_count` and
  `recommendation_count` (undefined in C, after `2 ^ 31 - 1` stored findings) is
  outside the model.
* `time(NULL)` is a parameter `now`.  The formatted `description` of an anomaly is
  not modelled; the fixed texts of a recommendation are.
* Pointers are never null in the model, except the `anomaly` argument of
  `analytics_generate_recommendation`, which is an `Option`.
-/

set_option linter.unusedSectionVars false
set_option linter.unusedVariables false

namespace Analytics

/-! ## Types (analytics.h) -/

abbrev metric_type_t := Nat

def METRIC_THROUGHPUT : metric_type_t := 0
def METRIC_LATENCY : metric_type_t := 1
def METRIC_PACKET_LOSS : metric_type_t := 2
def METRIC_CPU_UTILIZATION : metric_type_t := 3
def METRIC_MEMORY_USAGE : metric_type_t := 4
def METRIC_RSRP : metric_type_t := 5
def METRIC_RSRQ : metric_type_t := 6
def METRIC_SINR : metric_type_t := 7
def METRIC_PRB_USAGE : metric_type_t := 8
def METRIC_COUNT : metric_type_t := 9

inductive anomaly_severity_t where
  | ANOMALY_NONE
  | ANOMALY_WARNING
  | ANOMALY_CRITICAL
  deriving DecidableEq, Repr

/-- The enum's underlying number, used by the comparisons `severity > ANOMALY_NONE`. -/
def anomaly_severity_t.toNat : anomaly_severity_t → Nat
  | .ANOMALY_NONE => 0
  | .ANOMALY_WARNING => 1
  | .ANOMALY_CRITICAL => 2

inductive recommendation_type_t where
  | RECOMMENDATION_NONE
  | RECOMMENDATION_INCREASE_POWER
  | RECOMMENDATION_DECREASE_POWER
  | RECOMMENDATION_HANDOVER
  | RECOMMENDATION_LOAD_BALANCE
  | RECOMMENDATION_RESOURCE_ALLOCATION
  | RECOMMENDATION_PARAMETER_ADJUSTMENT
  deriving DecidableEq, Repr

structure metric_data_t (α : Type) where
  type : metric_type_t
  value : α
  node_id : Nat
  cell_id : Nat
  timestamp : Nat

structure stats_result_t (α : Type) where
  mean : α
  variance : α
  std_dev : α
  min : α
  max : α
  median : α
  z_score : α
  is_outlier : Bool

structure trend_result_t (α : Type) where
  slope : α
  intercept : α
  correlation : α
  is_increasing : Bool
  is_decreasing : Bool
  is_stable : Bool

structure anomaly_result_t (α : Type) where
  metric_type : metric_type_t
  severity : anomaly_severity_t
  threshold_value : α
  actual_value : α
  confidence : α
  detected_at : Nat

structure recommendation_result_t (α : Type) where
  type : recommendation_type_t
  node_id : Nat
  cell_id : Nat
  confidence : α
  expected_improvement : α
  generated_at : Nat
  description : String
  parameters : String

structure threshold_config_t (α : Type) where
  warning_threshold : α
  critical_threshold : α
  min_value : α
  max_value : α
  enabled : Bool

structure analytics_config_t (α : Type) where
  thresholds : Nat → threshold_config_t α
  window_size : Int
  trend_window : Int
  outlier_threshold : α
  correlation_threshold : α
  enable_ml_detection : Bool
  enable_prediction : Bool

structure metric_history_t (α : Type) where
  data : Nat → metric_data_t α
  head : Nat
  tail : Nat
  count : Nat
  last_stats : stats_result_t α
  last_trend : trend_result_t α

structure ml_model_t (α : Type) where
  initialized : Bool
  weights : Nat → α
  bias : α
  learning_rate : α

structure analytics_context_t (α : Type) where
  config : analytics_config_t α
  history : Nat → metric_history_t α
  recent_anomalies : Nat → anomaly_result_t α
  anomaly_count : Nat
  recent_recommendations : Nat → recommendation_result_t α
  recommendation_count : Nat
  ml_model : ml_model_t α
  processed_metrics : Nat
  detected_anomalies : Nat
  generated_recommendations : Nat

section Defs

variable {α : Type} [LinearOrderedField α]

/-- The macro `MIN(a, b) ((a) < (b) ? (a) : (b))` of utils.h. -/
def MIN {β : Type} [LinearOrder β] (a b : β) : β := if a < b then a else b

/-! ## Zero-initialised records (`= {0}`, `memset`) -/

def metric_data_zero : metric_data_t α :=
  { type := 0, value := 0, node_id := 0, cell_id := 0, timestamp := 0 }

def stats_zero : stats_result_t α :=
  { mean := 0, variance := 0, std_dev := 0, min := 0, max := 0, median := 0,
    z_score := 0, is_outlier := false }

def trend_zero : trend_result_t α :=
  { slope := 0, intercept := 0, correlation := 0,
    is_increasing := false, is_decreasing := false, is_stable := false }

def anomaly_zero : anomaly_result_t α :=
  { metric_type := 0, severity := .ANOMALY_NONE, threshold_value := 0,
    actual_value := 0, confidence := 0, detected_at := 0 }

def recommendation_zero : recommendation_result_t α :=
  { type := .RECOMMENDATION_NONE, node_id := 0, cell_id := 0, confidence := 0,
    expected_improvement := 0, generated_at := 0, description := "", parameters := "" }

def history_zero : metric_history_t α :=
  { data := fun _ => metric_data_zero, head := 0, tail := 0, count := 0,
    last_stats := stats_zero, last_trend := trend_zero }

/-! ## Statistics -/

/-- `analytics_calculate_z_score`: zero when `std_dev <= 0`. -/
def analytics_calculate_z_score (value mean std_dev : α) : α :=
  if std_dev ≤ 0 then 0 else (value - mean) / std_dev

/-- `analytics_is_outlier`: `fabs(z_score) > threshold`. -/
def analytics_is_outlier (z_score threshold : α) : Bool :=
  decide (|z_score| > threshold)

/-- The first loop of `analytics_calculate_stats`: `sum += data[i].value`. -/
def stats_sum (data : Nat → metric_data_t α) (n : Nat) : α :=
  (List.range n).foldl (fun sum i => sum + (data i).value) 0

/-- One round of the second loop of `analytics_calculate_stats`, on the state
`(variance_sum, stats.min, stats.max)`. -/
def stats_step (data : Nat → metric_data_t α) (mean : α) (st : α × α × α) (i : Nat) :
    α × α × α :=
  let diff := (data i).value - mean
  let variance_sum := st.1 + diff * diff
  let mn := if (data i).value < st.2.1 then (data i).value else st.2.1
  let mx := if (data i).value > st.2.2 then (data i).value else st.2.2
  (variance_sum, mn, mx)

/-- The second loop of `analytics_calculate_stats`. -/
def stats_loop (data : Nat → metric_data_t α) (mean : α) (n : Nat) : α × α × α :=
  (List.range n).foldl (stats_step data mean) (0, (data 0).value, (data 0).value)

/-- The body of the inner bubble-sort loop: swap the slots `j` and `j + 1` when
they are out of order. -/
def bubble_swap (v : List α) (j : Nat) : List α :=
  if v.getD j 0 > v.getD (j + 1) 0 then
    (v.set j (v.getD (j + 1) 0)).set (j + 1) (v.getD j 0)
  else v

/-- The inner loop `for (j = 0; j < count - i - 1; j++)`. -/
def bubble_pass (count i : Nat) (v : List α) : List α :=
  (List.range (count - i - 1)).foldl bubble_swap v

/-- The outer loop `for (i = 0; i < count - 1; i++)`. -/
def bubble_sort (count : Nat) (v : List α) : List α :=
  (List.range (count - 1)).foldl (fun v i => bubble_pass count i v) v

/-- `analytics_calculate_stats(data, count)`. -/
def analytics_calculate_stats (sqrt : α → α) (data : Nat → metric_data_t α) (count : Int) :
    stats_result_t α :=
  if count ≤ 0 then stats_zero
  else
    let n := count.toNat
    let sum := stats_sum data n
    let mean := sum / (count : α)
    let st := stats_loop data mean n
    let variance := st.1 / (count : α)
    let std_dev := sqrt variance
    let sorted_values := bubble_sort n ((List.range n).map (fun i => (data i).value))
    let median :=
      if count % 2 = 0 then
        (sorted_values.getD (n / 2 - 1) 0 + sorted_values.getD (n / 2) 0) / 2.0
      else sorted_values.getD (n / 2) 0
    let z_score := analytics_calculate_z_score (data (n - 1)).value mean std_dev
    { mean := mean, variance := variance, std_dev := std_dev, min := st.2.1, max := st.2.2,
      median := median, z_score := z_score, is_outlier := analytics_is_outlier z_score 2.0 }

/-! ## Trend -/

/-- One round of the first loop of `analytics_calculate_trend`, on the state
`(sum_x, sum_y, sum_xy, sum_x2)`. -/
def trend_step (data : Nat → metric_data_t α) (st : α × α × α × α) (i : Nat) :
    α × α × α × α :=
  let x : α := (i : α)
  let y := (data i).value
  (st.1 + x, st.2.1 + y, st.2.2.1 + x * y, st.2.2.2 + x * x)

/-- The first loop of `analytics_calculate_trend`. -/
def trend_sums (data : Nat → metric_data_t α) (n : Nat) : α × α × α × α :=
  (List.range n).foldl (trend_step data) (0, 0, 0, 0)

/-- One round of the second loop of `analytics_calculate_trend`, on the state
`(sum_x_dev, sum_y_dev, sum_xy_dev)`. -/
def trend_dev_step (data : Nat → metric_data_t α) (mean_x mean_y : α) (st : α × α × α)
    (i : Nat) : α × α × α :=
  let x_dev := (i : α) - mean_x
  let y_dev := (data i).value - mean_y
  (st.1 + x_dev * x_dev, st.2.1 + y_dev * y_dev, st.2.2 + x_dev * y_dev)

/-- The second loop of `analytics_calculate_trend`. -/
def trend_devs (data : Nat → metric_data_t α) (mean_x mean_y : α) (n : Nat) : α × α × α :=
  (List.range n).foldl (trend_dev_step data mean_x mean_y) (0, 0, 0)

/-- `analytics_calculate_trend(data, count)`. -/
def analytics_calculate_trend (sqrt : α → α) (data : Nat → metric_data_t α) (count : Int) :
    trend_result_t α :=
  if count ≤ 1 then trend_zero
  else
    let m := count.toNat
    let s := trend_sums data m
    let sum_x := s.1
    let sum_y := s.2.1
    let sum_xy := s.2.2.1
    let sum_x2 := s.2.2.2
    let n : α := (count : α)
    let slope := (n * sum_xy - sum_x * sum_y) / (n * sum_x2 - sum_x * sum_x)
    let intercept := (sum_y - slope * sum_x) / n
    let mean_x := sum_x / n
    let mean_y := sum_y / n
    let d := trend_devs data mean_x mean_y m
    let correlation := if d.1 > 0 ∧ d.2.1 > 0 then d.2.2 / sqrt (d.1 * d.2.1) else 0
    let slope_threshold : α := 0.1
    { slope := slope, intercept := intercept, correlation := correlation,
      is_increasing := decide (slope > slope_threshold),
      is_decreasing := decide (slope < -slope_threshold),
      is_stable := decide (|slope| ≤ slope_threshold) }

/-! ## Anomaly detection -/

/-- `analytics_threshold_detection(ctx, metric)`. -/
def analytics_threshold_detection (now : Nat) (ctx : analytics_context_t α)
    (metric : metric_data_t α) : anomaly_result_t α :=
  let anomaly : anomaly_result_t α :=
    { (anomaly_zero : anomaly_result_t α) with
      metric_type := metric.type, actual_value := metric.value, detected_at := now }
  let threshold := ctx.config.thresholds metric.type
  if !threshold.enabled then anomaly
  else if metric.value ≥ threshold.critical_threshold then
    { anomaly with severity := .ANOMALY_CRITICAL,
                   threshold_value := threshold.critical_threshold, confidence := 1.0 }
  else if metric.value ≥ threshold.warning_threshold then
    { anomaly with severity := .ANOMALY_WARNING,
                   threshold_value := threshold.warning_threshold, confidence := 0.8 }
  else if metric.value ≤ threshold.min_value then
    { anomaly with severity := .ANOMALY_WARNING,
                   threshold_value := threshold.min_value, confidence := 0.7 }
  else anomaly

/-- `analytics_statistical_detection(ctx, metric)`. -/
def analytics_statistical_detection (now : Nat) (ctx : analytics_context_t α)
    (metric : metric_data_t α) : anomaly_result_t α :=
  let anomaly : anomaly_result_t α :=
    { (anomaly_zero : anomaly_result_t α) with
      metric_type := metric.type, actual_value := metric.value, detected_at := now }
  let history := ctx.history metric.type
  if history.count < 10 then anomaly
  else
    let stats := history.last_stats
    if stats.is_outlier then
      { anomaly with
        severity := if |stats.z_score| > 3.0 then .ANOMALY_CRITICAL else .ANOMALY_WARNING,
        threshold_value :=
          stats.mean + (if stats.z_score > 0 then 1 else -1) * 2.0 * stats.std_dev,
        confidence := MIN (|stats.z_score| / 3.0) 1.0 }
    else anomaly

/-- One round of the feature loop of `analytics_predict_ml`:
`idx = (head - 1 - i + 1000) % 1000; prediction += weights[i] * data[idx].value`.
The index is computed in `Nat` as `(head + 1000 - 1 - i) % 1000`, the same number for
`head >= 0` and `i < 10`. -/
def predict_step (ctx : analytics_context_t α) (history : metric_history_t α)
    (prediction : α) (i : Nat) : α :=
  let idx := (history.head + 1000 - 1 - i) % 1000
  prediction + ctx.ml_model.weights i * (history.data idx).value

/-- `analytics_predict_ml(ctx, metric)`. -/
def analytics_predict_ml (ctx : analytics_context_t α) (metric : metric_data_t α) : α :=
  if !ctx.ml_model.initialized then metric.value
  else
    let history := ctx.history metric.type
    if history.count < 10 then metric.value
    else
      (List.range (MIN 10 history.count)).foldl (predict_step ctx history) ctx.ml_model.bias

/-- `analytics_ml_detection(ctx, metric)`.  In the branch that fires `error` exceeds
`error_threshold`, so when the divisor `error_threshold * 2.0` is zero the dividend is
positive: the C quotient is `+inf` and `MIN(+inf, 1.0)` is `1.0`. -/
def analytics_ml_detection (now : Nat) (ctx : analytics_context_t α)
    (metric : metric_data_t α) : anomaly_result_t α :=
  let anomaly : anomaly_result_t α :=
    { (anomaly_zero : anomaly_result_t α) with
      metric_type := metric.type, actual_value := metric.value, detected_at := now }
  let prediction := analytics_predict_ml ctx metric
  let error := |metric.value - prediction|
  let history := ctx.history metric.type
  if history.count < 20 then anomaly
  else
    let error_threshold := history.last_stats.std_dev * 2.0
    if error > error_threshold then
      { anomaly with
        severity := if error > error_threshold * 1.5 then .ANOMALY_CRITICAL
                    else .ANOMALY_WARNING,
        threshold_value := prediction,
        confidence := if error_threshold * 2.0 = 0 then 1.0
                      else MIN (error / (error_threshold * 2.0)) 1.0 }
    else anomaly

/-- `analytics_detect_anomaly(ctx, metric)`. -/
def analytics_detect_anomaly (now : Nat) (ctx : analytics_context_t α)
    (metric : metric_data_t α) : anomaly_result_t α :=
  let anomaly : anomaly_result_t α :=
    { (anomaly_zero : anomaly_result_t α) with metric_type := metric.type, detected_at := now }
  let threshold_result := analytics_threshold_detection now ctx metric
  if threshold_result.severity.toNat > anomaly_severity_t.ANOMALY_NONE.toNat then
    threshold_result
  else
    let statistical_result := analytics_statistical_detection now ctx metric
    if statistical_result.severity.toNat > anomaly_severity_t.ANOMALY_NONE.toNat then
      statistical_result
    else if ctx.config.enable_ml_detection then
      let ml_result := analytics_ml_detection now ctx metric
      if ml_result.severity.toNat > anomaly_severity_t.ANOMALY_NONE.toNat then ml_result
      else anomaly
    else anomaly

/-! ## Recommendations -/

/-- `analytics_generate_recommendation(ctx, metric, anomaly)`; `none` is the null
pointer. -/
def analytics_generate_recommendation (now : Nat) (ctx : analytics_context_t α)
    (metric : metric_data_t α) (anomaly : Option (anomaly_result_t α)) :
    recommendation_result_t α :=
  let recommendation : recommendation_result_t α :=
    { (recommendation_zero : recommendation_result_t α) with
      node_id := metric.node_id, cell_id := metric.cell_id, generated_at := now }
  match anomaly with
  | none => recommendation
  | some a =>
    if a.severity = .ANOMALY_NONE then recommendation
    else if metric.type = METRIC_THROUGHPUT then
      if metric.value < (ctx.config.thresholds metric.type).warning_threshold then
        { recommendation with
          type := .RECOMMENDATION_INCREASE_POWER, confidence := 0.8,
          expected_improvement := 20.0,
          description := "Increase transmission power to improve throughput",
          parameters := "power_increase=5dB" }
      else recommendation
    else if metric.type = METRIC_LATENCY then
      if metric.value > (ctx.config.thresholds metric.type).warning_threshold then
        { recommendation with
          type := .RECOMMENDATION_PARAMETER_ADJUSTMENT, confidence := 0.7,
          expected_improvement := 15.0,
          description := "Adjust scheduling parameters to reduce latency",
          parameters := "scheduling_weight=0.8" }
      else recommendation
    else if metric.type = METRIC_PACKET_LOSS then
      if metric.value > (ctx.config.thresholds metric.type).warning_threshold then
        { recommendation with
          type := .RECOMMENDATION_HANDOVER, confidence := 0.6,
          expected_improvement := 30.0,
          description := "Consider handover to reduce packet loss",
          parameters := "handover_threshold=-105dBm" }
      else recommendation
    else if metric.type = METRIC_PRB_USAGE then
      if metric.value > (ctx.config.thresholds metric.type).warning_threshold then
        { recommendation with
          type := .RECOMMENDATION_LOAD_BALANCE, confidence := 0.9,
          expected_improvement := 25.0,
          description := "Implement load balancing to reduce PRB usage",
          parameters := "load_balance_factor=0.7" }
      else recommendation
    else
      { recommendation with
        type := .RECOMMENDATION_PARAMETER_ADJUSTMENT, confidence := 0.5,
        expected_improvement := 10.0,
        description := "General parameter adjustment recommended",
        parameters := "generic_adjustment=true" }

/-! ## Ingestion -/

/-- The ring-buffer store of `analytics_process_metric`:
`data[head] = *metric; head = (head + 1) % 1000;` then `count++` below 1000 and
`tail = (tail + 1) % 1000` otherwise. -/
def history_push (history : metric_history_t α) (metric : metric_data_t α) :
    metric_history_t α :=
  let h1 := { history with data := Function.update history.data history.head metric }
  let h2 := { h1 with head := (h1.head + 1) % 1000 }
  if h2.count < 1000 then { h2 with count := h2.count + 1 }
  else { h2 with tail := (h2.tail + 1) % 1000 }

/-- The refresh of the stored summaries inside `if (history->count >= 10)`. -/
def history_refresh (sqrt : α → α) (trend_window : Int) (history : metric_history_t α) :
    metric_history_t α :=
  let h1 := { history with
    last_stats := analytics_calculate_stats sqrt history.data (history.count : Int) }
  if (h1.count : Int) ≥ trend_window then
    { h1 with last_trend :=
        analytics_calculate_trend sqrt h1.data (MIN (h1.count : Int) trend_window) }
  else h1

/-- The bookkeeping of `analytics_process_metric` after the summaries are fresh:
detect, store the anomaly, generate and store the recommendation. -/
def record_findings (now : Nat) (ctx : analytics_context_t α) (metric : metric_data_t α) :
    analytics_context_t α :=
  let anomaly := analytics_detect_anomaly now ctx metric
  if anomaly.severity.toNat > anomaly_severity_t.ANOMALY_NONE.toNat then
    let c1 := { ctx with
      recent_anomalies := Function.update ctx.recent_anomalies (ctx.anomaly_count % 100) anomaly,
      anomaly_count := ctx.anomaly_count + 1,
      detected_anomalies := (ctx.detected_anomalies + 1) % 2 ^ 64 }
    let recommendation := analytics_generate_recommendation now c1 metric (some anomaly)
    if recommendation.type ≠ .RECOMMENDATION_NONE then
      { c1 with
        recent_recommendations :=
          Function.update c1.recent_recommendations (c1.recommendation_count % 100)
            recommendation,
        recommendation_count := c1.recommendation_count + 1,
        generated_recommendations := (c1.generated_recommendations + 1) % 2 ^ 64 }
    else c1
  else ctx

/-- `analytics_process_metric(ctx, metric)`: the return code and the context after
the call. -/
def analytics_process_metric (sqrt : α → α) (now : Nat) (ctx : analytics_context_t α)
    (metric : metric_data_t α) : Int × analytics_context_t α :=
  if metric.type ≥ METRIC_COUNT then (-1, ctx)
  else
    let c1 := { ctx with processed_metrics := (ctx.processed_metrics + 1) % 2 ^ 64 }
    let pushed := history_push (c1.history metric.type) metric
    if pushed.count ≥ 10 then
      let refreshed := history_refresh sqrt c1.config.trend_window pushed
      let c2 := { c1 with history := Function.update c1.history metric.type refreshed }
      (0, record_findings now c2 metric)
    else
      (0, { c1 with history := Function.update c1.history metric.type pushed })

/-- `analytics_add_metric(ctx, type, value, node_id, cell_id)`. -/
def analytics_add_metric (sqrt : α → α) (now : Nat) (ctx : analytics_context_t α)
    (type : metric_type_t) (value : α) (node_id cell_id : Nat) :
    Int × analytics_context_t α :=
  if type ≥ METRIC_COUNT then (-1, ctx)
  else
    analytics_process_metric sqrt now ctx
      { type := type, value := value, node_id := node_id, cell_id := cell_id,
        timestamp := now }

/-! ## Initialisation -/

/-- What `analytics_load_config` reads for one metric from the JSON file: each key
of the metric's object is present (with a number or a boolean) or not. -/
structure threshold_json (α : Type) where
  warning : Option α
  critical : Option α
  min : Option α
  max : Option α
  enabled : Option Bool

/-- The `thresholds` object of a configuration file: for each metric kind the
object under the kind's name, when there is one. -/
abbrev config_json (α : Type) := Nat → Option (threshold_json α)

/-- The updates `analytics_load_config` makes to one threshold entry. -/
def load_threshold (t : threshold_config_t α) (j : threshold_json α) : threshold_config_t α :=
  { warning_threshold := j.warning.getD t.warning_threshold,
    critical_threshold := j.critical.getD t.critical_threshold,
    min_value := j.min.getD t.min_value,
    max_value := j.max.getD t.max_value,
    enabled := j.enabled.getD t.enabled }

/-- `analytics_load_config(ctx, config_file)` on the context: `file = none` is a file
that cannot be loaded, `some none` a file without a `thresholds` object. -/
def analytics_load_config (ctx : analytics_context_t α)
    (file : Option (Option (config_json α))) : analytics_context_t α :=
  match file with
  | some (some thresholds_obj) =>
    { ctx with config := { ctx.config with
        thresholds := fun i =>
          if i < METRIC_COUNT then
            match thresholds_obj i with
            | some metric_obj => load_threshold (ctx.config.thresholds i) metric_obj
            | none => ctx.config.thresholds i
          else ctx.config.thresholds i } }
  | _ => ctx

/-- The default threshold table written by `analytics_init`: the loop over the
`METRIC_COUNT` kinds, then the three specific entries.  The slots from
`METRIC_COUNT` on are not part of the array and stay zeroed. -/
def default_thresholds : Nat → threshold_config_t α :=
  let t0 : Nat → threshold_config_t α := fun i =>
    if i < METRIC_COUNT then
      { enabled := true, warning_threshold := 80.0, critical_threshold := 95.0,
        min_value := 0.0, max_value := 100.0 }
    else
      { enabled := false, warning_threshold := 0, critical_threshold := 0,
        min_value := 0, max_value := 0 }
  let t1 := Function.update t0 METRIC_THROUGHPUT
    { t0 METRIC_THROUGHPUT with
      min_value := 0.0, max_value := 1000.0,
      warning_threshold := 100.0, critical_threshold := 50.0 }
  let t2 := Function.update t1 METRIC_LATENCY
    { t1 METRIC_LATENCY with
      min_value := 0.0, max_value := 200.0,
      warning_threshold := 50.0, critical_threshold := 100.0 }
  Function.update t2 METRIC_PACKET_LOSS
    { t2 METRIC_PACKET_LOSS with
      min_value := 0.0, max_value := 100.0,
      warning_threshold := 1.0, critical_threshold := 5.0 }

/-- `analytics_init(config_file)`: `weights` are the ten numbers drawn with `rand()`,
`config_file = none` is the null pointer, otherwise what the file holds. -/
def analytics_init (weights : Nat → α) (config_file : Option (Option (Option (config_json α)))) :
    analytics_context_t α :=
  let ctx : analytics_context_t α :=
    { config :=
        { thresholds := default_thresholds, window_size := 100, trend_window := 50,
          outlier_threshold := 2.0, correlation_threshold := 0.7,
          enable_ml_detection := true, enable_prediction := true },
      history := fun _ => history_zero,
      recent_anomalies := fun _ => anomaly_zero,
      anomaly_count := 0,
      recent_recommendations := fun _ => recommendation_zero,
      recommendation_count := 0,
      ml_model :=
        { initialized := false, learning_rate := 0.01, bias := 0.0,
          weights := fun i => if i < 10 then weights i else 0 },
      processed_metrics := 0,
      detected_anomalies := 0,
      generated_recommendations := 0 }
  match config_file with
  | some file => analytics_load_config ctx file
  | none => ctx

/-- `analytics_get_history(ctx, type)`; `none` is the null pointer. -/
def analytics_get_history (ctx : analytics_context_t α) (type : metric_type_t) :
    Option (metric_history_t α) :=
  if type ≥ METRIC_COUNT then none else some (ctx.history type)

/-- `analytics_get_recent_anomalies(ctx, &count)`: the array and the count. -/
def analytics_get_recent_anomalies (ctx : analytics_context_t α) :
    (Nat → anomaly_result_t α) × Nat :=
  (ctx.recent_anomalies, MIN ctx.anomaly_count 100)

/-- `analytics_get_recent_recommendations(ctx, &count)`: the array and the count. -/
def analytics_get_recent_recommendations (ctx : analytics_context_t α) :
    (Nat → recommendation_result_t α) × Nat :=
  (ctx.recent_recommendations, MIN ctx.recommendation_count 100)

/-- The context after the calls `analytics_process_metric(ctx, &m)` for the samples of
`ms` in order; each sample comes with the clock reading of its call. -/
def ingest_all (sqrt : α → α) (ctx : analytics_context_t α)
    (ms : List (Nat × metric_data_t α)) : analytics_context_t α :=
  ms.foldl (fun c m => (analytics_process_metric sqrt m.1 c m.2).2) ctx

/-- The context on which `analytics_process_metric` runs the detector once the
pushed history holds 10 samples: `processed_metrics` incremented, the sample pushed
and the stored summaries refreshed. -/
def detection_context (sqrt : α → α) (ctx : analytics_context_t α) (metric : metric_data_t α) :
    analytics_context_t α :=
  { ctx with
    processed_metrics := (ctx.processed_metrics + 1) % 2 ^ 64,
    history := Function.update ctx.history metric.type
      (history_refresh sqrt ctx.config.trend_window
        (history_push (ctx.history metric.type) metric)) }

/-! ## Sample inputs -/

/-- A fresh context over `ℚ` with all weights zero and no configuration file. -/
def sample_ctx : analytics_context_t ℚ := analytics_init (fun _ => 0) none

/-- A context whose histories all hold 20 samples with stored mean 0, standard
deviation 1, z-score 4 and the outlier flag set, and whose model is marked
initialised with bias 0 and weights 0. -/
def sample_ctx_outlier : analytics_context_t ℚ :=
  { sample_ctx with
    history := fun _ =>
      { (history_zero : metric_history_t ℚ) with
        count := 20, head := 20,
        last_stats := { (stats_zero : stats_result_t ℚ) with
          std_dev := 1, z_score := 4, is_outlier := true } },
    ml_model := { sample_ctx.ml_model with initialized := true } }

/-- A context whose histories all hold 20 samples of value 0 with stored standard
deviation 0, and whose model is marked initialised with bias 0 and weights 0. -/
def sample_ctx_flat : analytics_context_t ℚ :=
  { sample_ctx with
    history := fun _ => { (history_zero : metric_history_t ℚ) with count := 20, head := 20 },
    ml_model := { sample_ctx.ml_model with initialized := true } }

/-- A throughput sample of value `v` from node 1, cell 1. -/
def sample_throughput (v : ℚ) : metric_data_t ℚ :=
  { type := METRIC_THROUGHPUT, value := v, node_id := 1, cell_id := 1, timestamp := 0 }

/-- The stream of `n` throughput samples with values `0, 1, ..., n - 1`, the `i`-th
one ingested at clock reading `i`. -/
def sample_stream (n : Nat) : List (Nat × metric_data_t ℚ) :=
  (List.range n).map (fun i => (i, sample_throughput (i : ℚ)))

/-! ## The recent-anomaly ring -/

/-- The anomaly that `analytics_process_metric(ctx, metric)` stores in the
recent-anomaly ring, when it stores one: the kind is valid, the pushed history holds
10 samples or more and the detector returns a severity above none. -/
def appended_anomaly (sqrt : α → α) (now : Nat) (ctx : analytics_context_t α)
    (metric : metric_data_t α) : Option (anomaly_result_t α) :=
  if metric.type ≥ METRIC_COUNT then none
  else if (history_push (ctx.history metric.type) metric).count ≥ 10 then
    if (analytics_detect_anomaly now (detection_context sqrt ctx metric) metric).severity.toNat
        > anomaly_severity_t.ANOMALY_NONE.toNat then
      some (analytics_detect_anomaly now (detection_context sqrt ctx metric) metric)
    else none
  else none

/-- The anomalies stored in the recent-anomaly ring while the samples of `ms` are
ingested into `ctx`, in arrival order. -/
def anomaly_log (sqrt : α → α) :
    analytics_context_t α → List (Nat × metric_data_t α) → List (anomaly_result_t α)
  | _, [] => []
  | ctx, m :: ms =>
    (appended_anomaly sqrt m.1 ctx m.2).toList
      ++ anomaly_log sqrt (analytics_process_metric sqrt m.1 ctx m.2).2 ms

/-- The recent-anomaly ring against the list `l` of all anomalies stored so far:
`anomaly_count` counts them and the slot `j % 100` holds the `j`-th one for each of
the last 100 positions `j`. -/
def anomaly_ring_inv (ctx : analytics_context_t α) (l : List (anomaly_result_t α)) : Prop :=
  ctx.anomaly_count = l.length
  ∧ ∀ j, l.length - 100 ≤ j → j < l.length → l[j]? = some (ctx.recent_anomalies (j % 100))

/-- The stream of `n` throughput samples with values `200, 201, ...` from node 1,
cell 1, the `i`-th one stamped and ingested at clock reading `i`; under the default
thresholds each is critical. -/
def sample_hot_stream (n : Nat) : List (Nat × metric_data_t α) :=
  (List.range n).map (fun i =>
    (i, { type := METRIC_THROUGHPUT, value := 200 + (i : α), node_id := 1, cell_id := 1,
          timestamp := i }))

/-! ## Inputs and reference window for the stored summaries -/

/-- The stream of `n` throughput samples of value 0 followed by one throughput sample
of value `v`, all from node 1, cell 1, the `i`-th one stamped and ingested at clock
reading `i`. -/
def sample_step_stream (n : Nat) (v : α) : List (Nat × metric_data_t α) :=
  (List.range n).map (fun i =>
    (i, { type := METRIC_THROUGHPUT, value := 0, node_id := 1, cell_id := 1, timestamp := i }))
  ++ [(n, { type := METRIC_THROUGHPUT, value := v, node_id := 1, cell_id := 1,
            timestamp := n })]

/-- Reference definition, after the spec's "trailing window": the `w` most recently
ingested samples of the list `l` of all ingested samples, in arrival order, laid out
as an array. -/
def trailing_window (l : List (metric_data_t α)) (w : Nat) : Nat → metric_data_t α :=
  fun i => l.getD (l.length - w + i) metric_data_zero

/-- A context with empty histories whose linear model is marked initialised, with
bias `1/2` and weights `1, 2, 3, ...`. -/
def sample_ctx_model : analytics_context_t ℚ :=
  { sample_ctx with
    ml_model := { sample_ctx.ml_model with
      initialized := true, weights := fun i => (i : ℚ) + 1, bias := 1 / 2 } }

/-- The samples of kind `k` among the ingested samples `ms`, in arrival order. -/
def samples_of_kind (k : Nat) (ms : List (Nat × metric_data_t α)) : List (metric_data_t α) :=
  (ms.map Prod.snd).filter (fun m => decide (m.type = k))

/-- The stream of `n` samples with values `0, 1, ..., n - 1`, the `i`-th one of kind
`i % 10` (so every tenth one of the unknown kind 9), ingested at clock reading `i`. -/
def sample_mixed_stream (n : Nat) : List (Nat × metric_data_t ℚ) :=
  (List.range n).map (fun i =>
    (i, { type := i % 10, value := (i : ℚ), node_id := 1, cell_id := 1, timestamp := i }))

/-! ## Reference statistics of a window of values -/

/-- The number of binary digits of `n`, by halving; the first argument bounds the
number of rounds and `bit_length n n` is the length of `n`. -/
def bit_length : Nat → Nat → Nat
  | 0, _ => 0
  | fuel + 1, n => if n = 0 then 0 else bit_length fuel (n / 2) + 1

/-- The binary exponent of a rational `q` other than zero: the integer `e` with
`2 ^ e <= |q| < 2 ^ (e + 1)`. -/
def binary_exponent (q : ℚ) : Int :=
  let e0 : Int := (bit_length q.num.natAbs q.num.natAbs : Int) - (bit_length q.den q.den : Int)
  if (2 : ℚ) ^ e0 ≤ |q| then e0 else e0 - 1

/-- The integer nearest to the non-negative rational `s`, a tie going to the even
neighbour. -/
def round_half_even (s : ℚ) : Nat :=
  let f : Nat := s.num.natAbs / s.den
  let r : Nat := s.num.natAbs % s.den
  if 2 * r < s.den then f
  else if 2 * r > s.den then f + 1
  else if f % 2 = 0 then f else f + 1

/-- The result of a binary64 operation whose exact value is `q`: `q` rounded to the
nearest number with a 53-bit significand, a tie going to the even significand (the
default rounding of IEEE 754).  The exponent is not bounded, so this is the double
that C computes whenever `q` is zero or `2 ^ (-1022) <= |q| < 2 ^ 1024`. -/
def round_double (q : ℚ) : ℚ :=
  if q = 0 then 0
  else
    let e := binary_exponent q
    let m := round_half_even (|q| * (2 : ℚ) ^ (52 - e))
    (if q < 0 then -1 else 1) * (m : ℚ) * (2 : ℚ) ^ (e - 52)

/-- The integer part of the square root of `n < 4 ^ b`, found bit by bit from bit
`b - 1` down; `r` is the part found so far. -/
def isqrt_bits (n : Nat) : Nat → Nat → Nat
  | 0, r => r
  | b + 1, r =>
    if (r + 2 ^ b) * (r + 2 ^ b) ≤ n then isqrt_bits n b (r + 2 ^ b) else isqrt_bits n b r

/-- The library function `sqrt` on a double `q >= 0`: the square root rounded to the
nearest number with a 53-bit significand (IEEE 754 requires the correctly rounded
result).  With `h` half the binary exponent of `q`, the root scaled by `2 ^ (52 - h)`
lies in `[2 ^ 52, 2 ^ 53)`; its integer part `m` is found exactly and the root is
above `m + 1/2` exactly when `4 * t > (2 * m + 1) ^ 2` for the scaled square `t`. -/
def sqrt_double (q : ℚ) : ℚ :=
  if q ≤ 0 then 0
  else
    let h : Int := binary_exponent q / 2
    let t : ℚ := q * (4 : ℚ) ^ (52 - h)
    let m : Nat := isqrt_bits (t.num.natAbs / t.den) 53 0
    let m1 : Nat := if 4 * t > (((2 * m + 1 : Nat) : ℚ)) ^ 2 then m + 1 else m
    (m1 : ℚ) * (2 : ℚ) ^ (h - 52)

/-- The first loop of `analytics_calculate_stats` in double arithmetic. -/
def stats_sum_double (data : Nat → metric_data_t ℚ) (n : Nat) : ℚ :=
  (List.range n).foldl (fun sum i => round_double (sum + (data i).value)) 0

/-- One round of the second loop of `analytics_calculate_stats` in double
arithmetic, on the state `(variance_sum, stats.min, stats.max)`. -/
def stats_step_double (data : Nat → metric_data_t ℚ) (mean : ℚ) (st : ℚ × ℚ × ℚ) (i : Nat) :
    ℚ × ℚ × ℚ :=
  let diff := round_double ((data i).value - mean)
  let variance_sum := round_double (st.1 + round_double (diff * diff))
  let mn := if (data i).value < st.2.1 then (data i).value else st.2.1
  let mx := if (data i).value > st.2.2 then (data i).value else st.2.2
  (variance_sum, mn, mx)

/-- The second loop of `analytics_calculate_stats` in double arithmetic. -/
def stats_loop_double (data : Nat → metric_data_t ℚ) (mean : ℚ) (n : Nat) : ℚ × ℚ × ℚ :=
  (List.range n).foldl (stats_step_double data mean) (0, (data 0).value, (data 0).value)

/-- `analytics_calculate_z_score` in double arithmetic. -/
def analytics_calculate_z_score_double (value mean std_dev : ℚ) : ℚ :=
  if std_dev ≤ 0 then 0 else round_double (round_double (value - mean) / std_dev)

/-- `analytics_calculate_stats(data, count)` in double arithmetic: the statements of
`analytics_calculate_stats` with the result of every addition, subtraction,
multiplication and division rounded by `round_double`, and `sqrt_double` for
`sqrt`.  The values of the samples are doubles. -/
def analytics_calculate_stats_double (data : Nat → metric_data_t ℚ) (count : Int) :
    stats_result_t ℚ :=
  if count ≤ 0 then stats_zero
  else
    let n := count.toNat
    let sum := stats_sum_double data n
    let mean := round_double (sum / (count : ℚ))
    let st := stats_loop_double data mean n
    let variance := round_double (st.1 / (count : ℚ))
    let std_dev := sqrt_double variance
    let sorted_values := bubble_sort n ((List.range n).map (fun i => (data i).value))
    let median :=
      if count % 2 = 0 then
        round_double (round_double (sorted_values.getD (n / 2 - 1) 0
          + sorted_values.getD (n / 2) 0) / 2.0)
      else sorted_values.getD (n / 2) 0
    let z_score := analytics_calculate_z_score_double (data (n - 1)).value mean std_dev
    { mean := mean, variance := variance, std_dev := std_dev, min := st.2.1, max := st.2.2,
      median := median, z_score := z_score, is_outlier := analytics_is_outlier z_score 2.0 }


/-- The bubble-sort invariant: the slots from `m` on are in ascending order and
none of them is below a slot before `m`. -/
def bubble_inv (m : Nat) (v : List α) : Prop :=
  (∀ a b, a < m → m ≤ b → b < v.length → v.getD a 0 ≤ v.getD b 0)
  ∧ (∀ a b, m ≤ a → a ≤ b → b < v.length → v.getD a 0 ≤ v.getD b 0)

end Defs

/-! # Verification -/

section Ring

variable {α : Type} [LinearOrderedField α]

/-- The ring invariant of one history against the list `l` of all samples stored
so far: `head` and `tail` are the write and read positions, `count` is capped at
1000, and the slot `i % 1000` holds the `i`-th sample for each of the last `count`
positions `i`. -/
def ring_inv (h : metric_history_t α) (l : List (metric_data_t α)) : Prop :=
  h.head = l.length % 1000 ∧ h.count = min l.length 1000 ∧
  h.tail = (l.length - min l.length 1000) % 1000 ∧
  ∀ i, l.length - 1000 ≤ i → i < l.length → l[i]? = some (h.data (i % 1000))

theorem ring_inv_zero : ring_inv (history_zero : metric_history_t α) [] := by
  refine ⟨rfl, rfl, rfl, ?_⟩
  intro i _ hi
  simp at hi

theorem ring_inv_push (h : metric_history_t α) (l : List (metric_data_t α))
    (m : metric_data_t α) (hinv : ring_inv h l) : ring_inv (history_push h m) (l ++ [m]) := by
  obtain ⟨hh, hc, ht, hd⟩ := hinv
  have hdata : (history_push h m).data = Function.update h.data h.head m := by
    unfold history_push; dsimp only; split <;> rfl
  have hhead : (history_push h m).head = (h.head + 1) % 1000 := by
    unfold history_push; dsimp only; split <;> rfl
  have hcount : (history_push h m).count = if h.count < 1000 then h.count + 1 else h.count := by
    unfold history_push; dsimp only; split <;> rfl
  have htail : (history_push h m).tail = if h.count < 1000 then h.tail else (h.tail + 1) % 1000 := by
    unfold history_push; dsimp only; split <;> rfl
  refine ⟨?_, ?_, ?_, ?_⟩
  · rw [hhead, hh]; simp only [List.length_append, List.length_singleton]; omega
  · rw [hcount, hc]; simp only [List.length_append, List.length_singleton]
    split <;> omega
  · rw [htail, hc, ht]; simp only [List.length_append, List.length_singleton]
    split <;> omega
  · intro i hlo hi
    simp only [List.length_append, List.length_singleton] at hlo hi
    rw [hdata, hh]
    by_cases hil : i = l.length
    · subst hil
      simp
    · have hlt : i < l.length := by omega
      have hne : i % 1000 ≠ l.length % 1000 := by omega
      rw [Function.update_noteq hne, List.getElem?_append_left hlt]
      exact hd i (by omega) hlt

theorem ring_inv_read (h : metric_history_t α) (l : List (metric_data_t α))
    (hinv : ring_inv h l) :
    (List.range h.count).map (fun i => h.data ((h.tail + i) % 1000))
      = l.drop (l.length - 1000) := by
  obtain ⟨_, hc, ht, hd⟩ := hinv
  apply List.ext_getElem?
  intro i
  by_cases hi : i < h.count
  · have h1 : l.length - 1000 + i < l.length := by omega
    rw [List.getElem?_map, List.getElem?_range hi, List.getElem?_drop,
      hd _ (by omega) h1, ht]
    have hidx : ((l.length - min l.length 1000) % 1000 + i) % 1000
        = (l.length - 1000 + i) % 1000 := by omega
    simp only [Option.map_some', hidx]
  · have h1 : l.length ≤ l.length - 1000 + i := by omega
    rw [List.getElem?_eq_none (by simpa using Nat.le_of_not_lt hi),
      List.getElem?_eq_none (by simp; omega)]

theorem ring_inv_congr (h h2 : metric_history_t α) (l : List (metric_data_t α))
    (hd : h2.data = h.data) (hh : h2.head = h.head) (ht : h2.tail = h.tail)
    (hc : h2.count = h.count) (hinv : ring_inv h l) : ring_inv h2 l := by
  unfold ring_inv at *
  rw [hd, hh, ht, hc]
  exact hinv

theorem history_refresh_data (sqrt : α → α) (w : Int) (h : metric_history_t α) :
    (history_refresh sqrt w h).data = h.data := by
  unfold history_refresh; dsimp only; split <;> rfl

theorem history_refresh_head (sqrt : α → α) (w : Int) (h : metric_history_t α) :
    (history_refresh sqrt w h).head = h.head := by
  unfold history_refresh; dsimp only; split <;> rfl

theorem history_refresh_tail (sqrt : α → α) (w : Int) (h : metric_history_t α) :
    (history_refresh sqrt w h).tail = h.tail := by
  unfold history_refresh; dsimp only; split <;> rfl

theorem history_refresh_count (sqrt : α → α) (w : Int) (h : metric_history_t α) :
    (history_refresh sqrt w h).count = h.count := by
  unfold history_refresh; dsimp only; split <;> rfl

theorem record_findings_history (now : Nat) (ctx : analytics_context_t α)
    (m : metric_data_t α) : (record_findings now ctx m).history = ctx.history := by
  unfold record_findings; dsimp only
  split
  · split <;> rfl
  · rfl

theorem record_findings_config (now : Nat) (ctx : analytics_context_t α)
    (m : metric_data_t α) : (record_findings now ctx m).config = ctx.config := by
  unfold record_findings; dsimp only
  split
  · split <;> rfl
  · rfl

theorem record_findings_ml_model (now : Nat) (ctx : analytics_context_t α)
    (m : metric_data_t α) : (record_findings now ctx m).ml_model = ctx.ml_model := by
  unfold record_findings; dsimp only
  split
  · split <;> rfl
  · rfl

/-- The history of the ingested kind after a successful `analytics_process_metric`:
the pushed ring, with the summaries refreshed when it holds 10 samples or more. -/
theorem process_metric_history_self (sqrt : α → α) (now : Nat) (ctx : analytics_context_t α)
    (m : metric_data_t α) (hk : m.type < METRIC_COUNT) :
    (analytics_process_metric sqrt now ctx m).2.history m.type
      = if (history_push (ctx.history m.type) m).count ≥ 10 then
          history_refresh sqrt ctx.config.trend_window (history_push (ctx.history m.type) m)
        else history_push (ctx.history m.type) m := by
  unfold analytics_process_metric
  rw [if_neg (Nat.not_le.mpr hk)]
  dsimp only
  split
  · rw [record_findings_history]; simp
  · simp

theorem process_metric_history_other (sqrt : α → α) (now : Nat) (ctx : analytics_context_t α)
    (m : metric_data_t α) (j : Nat) (hj : j ≠ m.type) :
    (analytics_process_metric sqrt now ctx m).2.history j = ctx.history j := by
  unfold analytics_process_metric
  split
  · rfl
  · dsimp only
    split
    · rw [record_findings_history]; simp [Function.update_noteq hj]
    · simp [Function.update_noteq hj]

theorem process_metric_ring_inv (sqrt : α → α) (now : Nat) (ctx : analytics_context_t α)
    (m : metric_data_t α) (hk : m.type < METRIC_COUNT) (l : List (metric_data_t α))
    (hinv : ring_inv (ctx.history m.type) l) :
    ring_inv ((analytics_process_metric sqrt now ctx m).2.history m.type) (l ++ [m]) := by
  rw [process_metric_history_self sqrt now ctx m hk]
  have hp := ring_inv_push _ l m hinv
  split
  · exact ring_inv_congr _ _ _ (history_refresh_data _ _ _) (history_refresh_head _ _ _)
      (history_refresh_tail _ _ _) (history_refresh_count _ _ _) hp
  · exact hp

theorem analytics_init_history (weights : Nat → α)
    (config_file : Option (Option (Option (config_json α)))) (k : Nat) :
    (analytics_init weights config_file).history k = history_zero := by
  unfold analytics_init analytics_load_config
  dsimp only
  split
  · split <;> rfl
  · rfl

theorem ingest_all_append (sqrt : α → α) (ctx : analytics_context_t α)
    (ms : List (Nat × metric_data_t α)) (m : Nat × metric_data_t α) :
    ingest_all sqrt ctx (ms ++ [m])
      = (analytics_process_metric sqrt m.1 (ingest_all sqrt ctx ms) m.2).2 := by
  unfold ingest_all
  rw [List.foldl_append]
  rfl

/-- After ingesting the samples `ms`, all of the valid kind `k`, into a context whose
history of `k` is empty, the ring of `k` satisfies the invariant for `ms`. -/
theorem ingest_all_ring_inv (sqrt : α → α) (ctx : analytics_context_t α) (k : Nat)
    (hk : k < METRIC_COUNT) (h0 : ring_inv (ctx.history k) [])
    (ms : List (Nat × metric_data_t α)) (hms : ∀ m ∈ ms, m.2.type = k) :
    ring_inv ((ingest_all sqrt ctx ms).history k) (ms.map Prod.snd) := by
  induction ms using List.reverseRecOn with
  | nil => exact h0
  | append_singleton ms m ih =>
    have hm : m.2.type = k := hms m (by simp)
    have ih2 := ih (fun x hx => hms x (by simp [hx]))
    rw [ingest_all_append, List.map_append]
    subst hm
    exact process_metric_ring_inv sqrt m.1 _ m.2 hk _ ih2

end Ring

section Stats

variable {α : Type} [LinearOrderedField α]

theorem stats_sum_succ (data : Nat → metric_data_t α) (n : Nat) :
    stats_sum data (n + 1) = stats_sum data n + (data n).value := by
  unfold stats_sum
  rw [List.range_succ, List.foldl_append]
  rfl

theorem stats_sum_eq (data : Nat → metric_data_t α) (n : Nat) :
    stats_sum data n = ∑ i in Finset.range n, (data i).value := by
  induction n with
  | zero => rfl
  | succ n ih => rw [stats_sum_succ, Finset.sum_range_succ, ih]

theorem stats_loop_succ (data : Nat → metric_data_t α) (mean : α) (n : Nat) :
    stats_loop data mean (n + 1) = stats_step data mean (stats_loop data mean n) n := by
  unfold stats_loop
  rw [List.range_succ, List.foldl_append]
  rfl

theorem stats_loop_variance_sum (data : Nat → metric_data_t α) (mean : α) (n : Nat) :
    (stats_loop data mean n).1 = ∑ i in Finset.range n, ((data i).value - mean) ^ 2 := by
  induction n with
  | zero => rfl
  | succ n ih =>
    rw [stats_loop_succ, Finset.sum_range_succ, ← ih]
    simp only [stats_step]
    ring

theorem stats_loop_min (data : Nat → metric_data_t α) (mean : α) (n : Nat) :
    (∃ i, i < max n 1 ∧ (stats_loop data mean n).2.1 = (data i).value)
    ∧ ∀ i, i < n → (stats_loop data mean n).2.1 ≤ (data i).value := by
  induction n with
  | zero => exact ⟨⟨0, by simp, rfl⟩, fun i hi => absurd hi (Nat.not_lt_zero i)⟩
  | succ n ih =>
    obtain ⟨⟨j, hj, hje⟩, hall⟩ := ih
    rw [stats_loop_succ]
    simp only [stats_step]
    split
    · rename_i hlt
      refine ⟨⟨n, by simp, rfl⟩, fun i hi => ?_⟩
      rcases Nat.lt_succ_iff_lt_or_eq.mp hi with h | h
      · exact le_trans (le_of_lt hlt) (hall i h)
      · rw [h]
    · rename_i hnlt
      refine ⟨⟨j, ?_, hje⟩, fun i hi => ?_⟩
      · have : max n 1 ≤ max (n + 1) 1 := by omega
        omega
      · rcases Nat.lt_succ_iff_lt_or_eq.mp hi with h | h
        · exact hall i h
        · rw [h]; exact not_lt.mp hnlt

theorem stats_loop_max (data : Nat → metric_data_t α) (mean : α) (n : Nat) :
    (∃ i, i < max n 1 ∧ (stats_loop data mean n).2.2 = (data i).value)
    ∧ ∀ i, i < n → (data i).value ≤ (stats_loop data mean n).2.2 := by
  induction n with
  | zero => exact ⟨⟨0, by simp, rfl⟩, fun i hi => absurd hi (Nat.not_lt_zero i)⟩
  | succ n ih =>
    obtain ⟨⟨j, hj, hje⟩, hall⟩ := ih
    rw [stats_loop_succ]
    simp only [stats_step]
    split
    · rename_i hlt
      refine ⟨⟨n, by simp, rfl⟩, fun i hi => ?_⟩
      rcases Nat.lt_succ_iff_lt_or_eq.mp hi with h | h
      · exact le_trans (hall i h) (le_of_lt hlt)
      · rw [h]
    · rename_i hnlt
      refine ⟨⟨j, ?_, hje⟩, fun i hi => ?_⟩
      · have : max n 1 ≤ max (n + 1) 1 := by omega
        omega
      · rcases Nat.lt_succ_iff_lt_or_eq.mp hi with h | h
        · exact hall i h
        · rw [h]; exact not_lt.mp hnlt

/-- The fields of `analytics_calculate_stats` on a window of `n >= 1` samples, in
any ordered field and for any `sqrt`. -/
theorem calculate_stats_fields (sqrt : α → α) (data : Nat → metric_data_t α) (n : Nat)
    (hn : 1 ≤ n) :
    (analytics_calculate_stats sqrt data (n : Int)).mean
        = (∑ i in Finset.range n, (data i).value) / (n : α)
    ∧ (analytics_calculate_stats sqrt data (n : Int)).variance
        = (∑ i in Finset.range n,
            ((data i).value - (analytics_calculate_stats sqrt data (n : Int)).mean) ^ 2) / (n : α)
    ∧ (analytics_calculate_stats sqrt data (n : Int)).std_dev
        = sqrt (analytics_calculate_stats sqrt data (n : Int)).variance
    ∧ (analytics_calculate_stats sqrt data (n : Int)).min
        = (stats_loop data (analytics_calculate_stats sqrt data (n : Int)).mean n).2.1
    ∧ (analytics_calculate_stats sqrt data (n : Int)).max
        = (stats_loop data (analytics_calculate_stats sqrt data (n : Int)).mean n).2.2
    ∧ (analytics_calculate_stats sqrt data (n : Int)).z_score
        = analytics_calculate_z_score (data (n - 1)).value
            (analytics_calculate_stats sqrt data (n : Int)).mean
            (analytics_calculate_stats sqrt data (n : Int)).std_dev
    ∧ (analytics_calculate_stats sqrt data (n : Int)).is_outlier
        = analytics_is_outlier (analytics_calculate_stats sqrt data (n : Int)).z_score 2.0 := by
  have hpos : ¬ ((n : Int) ≤ 0) := by omega
  unfold analytics_calculate_stats
  simp only [if_neg hpos, Int.toNat_ofNat, Int.cast_natCast]
  refine ⟨?_, ?_, ?_, ?_, ?_, ?_, ?_⟩
  all_goals first
    | rfl
    | trivial
    | rw [stats_loop_variance_sum]
    | rw [stats_sum_eq]

end Stats

section Trend

variable {α : Type} [LinearOrderedField α]

theorem trend_sums_succ (data : Nat → metric_data_t α) (n : Nat) :
    trend_sums data (n + 1) = trend_step data (trend_sums data n) n := by
  unfold trend_sums
  rw [List.range_succ, List.foldl_append]
  rfl

theorem trend_sums_eq (data : Nat → metric_data_t α) (n : Nat) :
    trend_sums data n
      = (∑ i in Finset.range n, (i : α), ∑ i in Finset.range n, (data i).value,
         ∑ i in Finset.range n, (i : α) * (data i).value,
         ∑ i in Finset.range n, (i : α) * (i : α)) := by
  induction n with
  | zero => rfl
  | succ n ih =>
    rw [trend_sums_succ, ih]
    simp only [trend_step, Finset.sum_range_succ]

theorem sum_range_cast (n : Nat) :
    (∑ i in Finset.range n, (i : α)) = (n : α) * ((n : α) - 1) / 2 := by
  induction n with
  | zero => simp
  | succ n ih =>
    rw [Finset.sum_range_succ, ih]
    push_cast
    ring

theorem sum_range_cast_sq (n : Nat) :
    (∑ i in Finset.range n, (i : α) * (i : α))
      = ((n : α) - 1) * (n : α) * (2 * (n : α) - 1) / 6 := by
  induction n with
  | zero => simp
  | succ n ih =>
    rw [Finset.sum_range_succ, ih]
    push_cast
    ring

/-- The regression denominator `n * sum_x2 - sum_x * sum_x` in closed form. -/
theorem trend_denominator_eq (n : Nat) :
    (n : α) * (∑ i in Finset.range n, (i : α) * (i : α))
        - (∑ i in Finset.range n, (i : α)) * (∑ i in Finset.range n, (i : α))
      = (n : α) ^ 2 * ((n : α) - 1) * ((n : α) + 1) / 12 := by
  rw [sum_range_cast, sum_range_cast_sq]
  ring

theorem trend_denominator_pos (n : Nat) (hn : 2 ≤ n) :
    0 < (n : α) * (∑ i in Finset.range n, (i : α) * (i : α))
        - (∑ i in Finset.range n, (i : α)) * (∑ i in Finset.range n, (i : α)) := by
  rw [trend_denominator_eq]
  have h2 : (2 : α) ≤ (n : α) := by exact_mod_cast hn
  have h1 : 0 < (n : α) - 1 := by linarith
  have h0 : 0 < (n : α) := by linarith
  positivity

/-- The slope, the intercept and the direction flags of `analytics_calculate_trend`
on a window of `n >= 2` samples, in terms of the four sums. -/
theorem calculate_trend_fields (sqrt : α → α) (data : Nat → metric_data_t α) (n : Nat)
    (hn : 2 ≤ n) :
    (analytics_calculate_trend sqrt data (n : Int)).slope
        = ((n : α) * (∑ i in Finset.range n, (i : α) * (data i).value)
            - (∑ i in Finset.range n, (i : α)) * (∑ i in Finset.range n, (data i).value))
          / ((n : α) * (∑ i in Finset.range n, (i : α) * (i : α))
            - (∑ i in Finset.range n, (i : α)) * (∑ i in Finset.range n, (i : α)))
    ∧ (analytics_calculate_trend sqrt data (n : Int)).intercept
        = ((∑ i in Finset.range n, (data i).value)
            - (analytics_calculate_trend sqrt data (n : Int)).slope
              * (∑ i in Finset.range n, (i : α))) / (n : α)
    ∧ (analytics_calculate_trend sqrt data (n : Int)).is_increasing
        = decide ((analytics_calculate_trend sqrt data (n : Int)).slope > 0.1)
    ∧ (analytics_calculate_trend sqrt data (n : Int)).is_decreasing
        = decide ((analytics_calculate_trend sqrt data (n : Int)).slope < -0.1)
    ∧ (analytics_calculate_trend sqrt data (n : Int)).is_stable
        = decide (|(analytics_calculate_trend sqrt data (n : Int)).slope| ≤ 0.1) := by
  have hpos : ¬ ((n : Int) ≤ 1) := by omega
  unfold analytics_calculate_trend
  simp only [if_neg hpos, Int.toNat_ofNat, Int.cast_natCast, trend_sums_eq]
  refine ⟨?_, ?_, ?_, ?_, ?_⟩
  all_goals first
    | rfl
    | trivial

end Trend

section Detection

variable {α : Type} [LinearOrderedField α]

theorem MIN_eq_min {β : Type} [LinearOrder β] (a b : β) : MIN a b = min a b := by
  unfold MIN
  split
  · rename_i h; exact (min_eq_left (le_of_lt h)).symm
  · rename_i h; exact (min_eq_right (not_lt.mp h)).symm

theorem severity_toNat_pos (s : anomaly_severity_t) :
    s.toNat > anomaly_severity_t.ANOMALY_NONE.toNat ↔ s ≠ .ANOMALY_NONE := by
  cases s <;> simp [anomaly_severity_t.toNat]

theorem predict_ml_uninitialized (ctx : analytics_context_t α) (metric : metric_data_t α)
    (h : ctx.ml_model.initialized = false) : analytics_predict_ml ctx metric = metric.value := by
  simp [analytics_predict_ml, h]

theorem predict_ml_short_history (ctx : analytics_context_t α) (metric : metric_data_t α)
    (h : (ctx.history metric.type).count < 10) :
    analytics_predict_ml ctx metric = metric.value := by
  unfold analytics_predict_ml
  split
  · rfl
  · simp [h]

/-- With the model not initialised and a stored standard deviation that is not
negative, the model stage finds nothing. -/
theorem ml_detection_none_of_uninitialized (now : Nat) (ctx : analytics_context_t α)
    (metric : metric_data_t α) (hinit : ctx.ml_model.initialized = false)
    (hsd : 0 ≤ (ctx.history metric.type).last_stats.std_dev) :
    (analytics_ml_detection now ctx metric).severity = .ANOMALY_NONE := by
  unfold analytics_ml_detection
  dsimp only
  rw [predict_ml_uninitialized ctx metric hinit]
  split
  · rfl
  · have h2 : (0 : α) ≤ (ctx.history metric.type).last_stats.std_dev * 2.0 :=
      mul_nonneg hsd (by norm_num)
    rw [if_neg (by simpa using h2)]
    rfl

theorem calculate_stats_std_dev_nonneg (sqrt : α → α) (hsqrt : ∀ x, 0 ≤ sqrt x)
    (data : Nat → metric_data_t α) (count : Int) :
    0 ≤ (analytics_calculate_stats sqrt data count).std_dev := by
  unfold analytics_calculate_stats
  split
  · exact le_refl _
  · exact hsqrt _

theorem history_push_last_stats (h : metric_history_t α) (m : metric_data_t α) :
    (history_push h m).last_stats = h.last_stats := by
  unfold history_push; dsimp only; split <;> rfl

theorem history_refresh_last_stats (sqrt : α → α) (w : Int) (h : metric_history_t α) :
    (history_refresh sqrt w h).last_stats
      = analytics_calculate_stats sqrt h.data (h.count : Int) := by
  unfold history_refresh; dsimp only; split <;> rfl

theorem process_metric_ml_model (sqrt : α → α) (now : Nat) (ctx : analytics_context_t α)
    (m : metric_data_t α) :
    (analytics_process_metric sqrt now ctx m).2.ml_model = ctx.ml_model := by
  unfold analytics_process_metric
  split
  · rfl
  · dsimp only
    split
    · rw [record_findings_ml_model]
    · rfl

theorem process_metric_config (sqrt : α → α) (now : Nat) (ctx : analytics_context_t α)
    (m : metric_data_t α) :
    (analytics_process_metric sqrt now ctx m).2.config = ctx.config := by
  unfold analytics_process_metric
  split
  · rfl
  · dsimp only
    split
    · rw [record_findings_config]
    · rfl

theorem process_metric_invalid (sqrt : α → α) (now : Nat) (ctx : analytics_context_t α)
    (m : metric_data_t α) (h : m.type ≥ METRIC_COUNT) :
    analytics_process_metric sqrt now ctx m = (-1, ctx) := by
  unfold analytics_process_metric
  rw [if_pos h]

theorem process_metric_std_dev_nonneg (sqrt : α → α) (hsqrt : ∀ x, 0 ≤ sqrt x) (now : Nat)
    (ctx : analytics_context_t α) (m : metric_data_t α)
    (h : ∀ k, 0 ≤ (ctx.history k).last_stats.std_dev) (k : Nat) :
    0 ≤ ((analytics_process_metric sqrt now ctx m).2.history k).last_stats.std_dev := by
  by_cases hv : m.type ≥ METRIC_COUNT
  · rw [process_metric_invalid sqrt now ctx m hv]; exact h k
  · by_cases hk : k = m.type
    · subst hk
      rw [process_metric_history_self sqrt now ctx m (Nat.not_le.mp hv)]
      split
      · rw [history_refresh_last_stats]
        exact calculate_stats_std_dev_nonneg sqrt hsqrt _ _
      · rw [history_push_last_stats]; exact h _
    · rw [process_metric_history_other sqrt now ctx m k hk]; exact h k

theorem analytics_init_ml_model (weights : Nat → α)
    (config_file : Option (Option (Option (config_json α)))) :
    (analytics_init weights config_file).ml_model.initialized = false := by
  unfold analytics_init analytics_load_config
  dsimp only
  split
  · split <;> rfl
  · rfl

/-- In every state reached from `analytics_init` by ingestions the model is not
initialised and no stored standard deviation is negative. -/
theorem ingest_all_ml_inv (sqrt : α → α) (hsqrt : ∀ x, 0 ≤ sqrt x) (weights : Nat → α)
    (config_file : Option (Option (Option (config_json α))))
    (ms : List (Nat × metric_data_t α)) :
    (ingest_all sqrt (analytics_init weights config_file) ms).ml_model.initialized = false
    ∧ ∀ k, 0 ≤ ((ingest_all sqrt (analytics_init weights config_file) ms).history k).last_stats.std_dev := by
  induction ms using List.reverseRecOn with
  | nil =>
    refine ⟨analytics_init_ml_model weights config_file, fun k => ?_⟩
    show 0 ≤ ((analytics_init weights config_file).history k).last_stats.std_dev
    rw [analytics_init_history]
    exact le_refl _
  | append_singleton ms m ih =>
    rw [ingest_all_append]
    refine ⟨?_, fun k => ?_⟩
    · rw [process_metric_ml_model]; exact ih.1
    · exact process_metric_std_dev_nonneg sqrt hsqrt m.1 _ m.2 ih.2 k

theorem generate_recommendation_congr (now : Nat) (c1 c2 : analytics_context_t α)
    (metric : metric_data_t α) (a : Option (anomaly_result_t α)) (h : c1.config = c2.config) :
    analytics_generate_recommendation now c1 metric a
      = analytics_generate_recommendation now c2 metric a := by
  unfold analytics_generate_recommendation
  rw [h]

/-- A successful `analytics_process_metric` whose pushed history holds 10 samples or
more: the bookkeeping runs on `detection_context`. -/
theorem process_metric_detect (sqrt : α → α) (now : Nat) (ctx : analytics_context_t α)
    (m : metric_data_t α) (hk : m.type < METRIC_COUNT)
    (hc : (history_push (ctx.history m.type) m).count ≥ 10) :
    analytics_process_metric sqrt now ctx m
      = (0, record_findings now (detection_context sqrt ctx m) m) := by
  unfold analytics_process_metric
  rw [if_neg (Nat.not_le.mpr hk)]
  dsimp only
  rw [if_pos hc]
  rfl

/-- A successful `analytics_process_metric` whose pushed history holds fewer than 10
samples only counts and stores the sample. -/
theorem process_metric_store (sqrt : α → α) (now : Nat) (ctx : analytics_context_t α)
    (m : metric_data_t α) (hk : m.type < METRIC_COUNT)
    (hc : ¬ (history_push (ctx.history m.type) m).count ≥ 10) :
    analytics_process_metric sqrt now ctx m
      = (0, { ctx with
              processed_metrics := (ctx.processed_metrics + 1) % 2 ^ 64,
              history := Function.update ctx.history m.type
                (history_push (ctx.history m.type) m) }) := by
  unfold analytics_process_metric
  rw [if_neg (Nat.not_le.mpr hk)]
  dsimp only
  rw [if_neg hc]

theorem record_findings_processed (now : Nat) (ctx : analytics_context_t α)
    (m : metric_data_t α) :
    (record_findings now ctx m).processed_metrics = ctx.processed_metrics := by
  unfold record_findings; dsimp only
  split
  · split <;> rfl
  · rfl

theorem process_metric_processed (sqrt : α → α) (now : Nat) (ctx : analytics_context_t α)
    (m : metric_data_t α) (hk : m.type < METRIC_COUNT) :
    (analytics_process_metric sqrt now ctx m).2.processed_metrics
      = (ctx.processed_metrics + 1) % 2 ^ 64 := by
  by_cases hc : (history_push (ctx.history m.type) m).count ≥ 10
  · rw [process_metric_detect sqrt now ctx m hk hc, record_findings_processed]
    rfl
  · rw [process_metric_store sqrt now ctx m hk hc]

theorem analytics_init_processed (weights : Nat → α)
    (config_file : Option (Option (Option (config_json α)))) :
    (analytics_init weights config_file).processed_metrics = 0 := by
  unfold analytics_init analytics_load_config
  dsimp only
  split
  · split <;> rfl
  · rfl

/-- After ingesting `ms`, all of valid kinds, into a fresh context the counter of
processed metrics is the number of samples modulo `2 ^ 64`. -/
theorem ingest_all_processed (sqrt : α → α) (weights : Nat → α)
    (config_file : Option (Option (Option (config_json α))))
    (ms : List (Nat × metric_data_t α)) (hms : ∀ m ∈ ms, m.2.type < METRIC_COUNT) :
    (ingest_all sqrt (analytics_init weights config_file) ms).processed_metrics
      = ms.length % 2 ^ 64 := by
  induction ms using List.reverseRecOn with
  | nil => exact analytics_init_processed weights config_file
  | append_singleton ms m ih =>
    rw [ingest_all_append, process_metric_processed _ _ _ _ (hms m (by simp)),
      ih (fun x hx => hms x (by simp [hx]))]
    simp only [List.length_append, List.length_singleton]
    omega

/-- The counters and ring insertion counts after `record_findings`, by the outcome
of the detector and of the recommendation generator. -/
theorem record_findings_counters (now : Nat) (ctx : analytics_context_t α)
    (m : metric_data_t α) :
    ((analytics_detect_anomaly now ctx m).severity ≠ .ANOMALY_NONE →
        (record_findings now ctx m).detected_anomalies = (ctx.detected_anomalies + 1) % 2 ^ 64
        ∧ (record_findings now ctx m).anomaly_count = ctx.anomaly_count + 1)
    ∧ ((analytics_detect_anomaly now ctx m).severity = .ANOMALY_NONE →
        (record_findings now ctx m).detected_anomalies = ctx.detected_anomalies
        ∧ (record_findings now ctx m).anomaly_count = ctx.anomaly_count
        ∧ (record_findings now ctx m).generated_recommendations = ctx.generated_recommendations
        ∧ (record_findings now ctx m).recommendation_count = ctx.recommendation_count)
    ∧ ((analytics_detect_anomaly now ctx m).severity ≠ .ANOMALY_NONE →
        (analytics_generate_recommendation now ctx m
          (some (analytics_detect_anomaly now ctx m))).type ≠ .RECOMMENDATION_NONE →
        (record_findings now ctx m).generated_recommendations
            = (ctx.generated_recommendations + 1) % 2 ^ 64
        ∧ (record_findings now ctx m).recommendation_count = ctx.recommendation_count + 1)
    ∧ ((analytics_detect_anomaly now ctx m).severity ≠ .ANOMALY_NONE →
        (analytics_generate_recommendation now ctx m
          (some (analytics_detect_anomaly now ctx m))).type = .RECOMMENDATION_NONE →
        (record_findings now ctx m).generated_recommendations = ctx.generated_recommendations
        ∧ (record_findings now ctx m).recommendation_count = ctx.recommendation_count) := by
  have hcongr : ∀ (ra : Nat → anomaly_result_t α) (ac da : Nat),
      analytics_generate_recommendation now
          { ctx with recent_anomalies := ra, anomaly_count := ac, detected_anomalies := da }
          m (some (analytics_detect_anomaly now ctx m))
        = analytics_generate_recommendation now ctx m
            (some (analytics_detect_anomaly now ctx m)) :=
    fun ra ac da => generate_recommendation_congr now _ ctx m _ rfl
  refine ⟨?_, ?_, ?_, ?_⟩
  · intro hs
    have hs2 := (severity_toNat_pos _).mpr hs
    unfold record_findings
    dsimp only
    rw [if_pos hs2]
    split <;> exact ⟨rfl, rfl⟩
  · intro hs
    have hs2 : ¬ (analytics_detect_anomaly now ctx m).severity.toNat
        > anomaly_severity_t.ANOMALY_NONE.toNat := by
      rw [severity_toNat_pos]; exact not_not.mpr hs
    unfold record_findings
    dsimp only
    rw [if_neg hs2]
    exact ⟨rfl, rfl, rfl, rfl⟩
  · intro hs hr
    have hs2 := (severity_toNat_pos _).mpr hs
    unfold record_findings
    dsimp only
    rw [if_pos hs2, hcongr, if_pos hr]
    exact ⟨rfl, rfl⟩
  · intro hs hr
    have hs2 := (severity_toNat_pos _).mpr hs
    unfold record_findings
    dsimp only
    rw [if_pos hs2, hcongr, if_neg (not_not.mpr hr)]
    exact ⟨rfl, rfl⟩

theorem sample_thresholds_throughput :
    sample_ctx.config.thresholds METRIC_THROUGHPUT
      = { warning_threshold := 100.0, critical_threshold := 50.0, min_value := 0.0,
          max_value := 1000.0, enabled := true } := by
  simp [sample_ctx, analytics_init, default_thresholds, METRIC_THROUGHPUT, METRIC_LATENCY,
    METRIC_PACKET_LOSS, METRIC_COUNT]

theorem sample_threshold_critical :
    (analytics_threshold_detection 0 sample_ctx (sample_throughput 200)).severity
      = .ANOMALY_CRITICAL := by
  have h : (sample_throughput 200).type = METRIC_THROUGHPUT := rfl
  simp only [analytics_threshold_detection, h, sample_thresholds_throughput]
  have hv : (sample_throughput 200).value = 200 := rfl
  rw [hv]
  norm_num

theorem sample_predict (v : ℚ) :
    analytics_predict_ml sample_ctx_outlier (sample_throughput v) = 0 := by
  simp [analytics_predict_ml, sample_ctx_outlier, sample_ctx, analytics_init, MIN,
    predict_step, history_zero, List.range_succ, List.range_zero]
  norm_num

theorem sample_predict_flat (v : ℚ) :
    analytics_predict_ml sample_ctx_flat (sample_throughput v) = 0 := by
  simp [analytics_predict_ml, sample_ctx_flat, sample_ctx, analytics_init, MIN,
    predict_step, history_zero, List.range_succ, List.range_zero]
  norm_num

theorem process_metric_valid_code (sqrt : α → α) (now : Nat) (ctx : analytics_context_t α)
    (m : metric_data_t α) (hk : m.type < METRIC_COUNT) :
    (analytics_process_metric sqrt now ctx m).1 = 0 := by
  by_cases hc : (history_push (ctx.history m.type) m).count ≥ 10
  · rw [process_metric_detect sqrt now ctx m hk hc]
  · rw [process_metric_store sqrt now ctx m hk hc]

theorem succ_mod_ne_self (p : Nat) : (p + 1) % 2 ^ 64 ≠ p := by
  omega

/-- The history of every kind after `analytics_process_metric` does not depend on the
configured `outlier_threshold`. -/
theorem process_metric_history_outlier_threshold (sqrt : α → α) (now : Nat)
    (ctx : analytics_context_t α) (m : metric_data_t α) (t : α) (k : Nat) :
    (analytics_process_metric sqrt now
        { ctx with config := { ctx.config with outlier_threshold := t } } m).2.history k
      = (analytics_process_metric sqrt now ctx m).2.history k := by
  by_cases hv : m.type ≥ METRIC_COUNT
  · rw [process_metric_invalid _ _ _ _ hv, process_metric_invalid _ _ _ _ hv]
  · by_cases hk : k = m.type
    · subst hk
      rw [process_metric_history_self _ _ _ _ (Nat.not_le.mp hv),
        process_metric_history_self _ _ _ _ (Nat.not_le.mp hv)]
    · rw [process_metric_history_other _ _ _ _ _ hk,
        process_metric_history_other _ _ _ _ _ hk]

end Detection

section Bubble

variable {α : Type} [LinearOrderedField α]

theorem bubble_swap_length (v : List α) (j : Nat) : (bubble_swap v j).length = v.length := by
  unfold bubble_swap
  split <;> simp

theorem bubble_swap_getD (v : List α) (j k : Nat) (hj : j + 1 < v.length) :
    (bubble_swap v j).getD k 0
      = if v.getD j 0 > v.getD (j + 1) 0 then
          (if k = j then v.getD (j + 1) 0 else if k = j + 1 then v.getD j 0 else v.getD k 0)
        else v.getD k 0 := by
  unfold bubble_swap
  split
  · simp only [List.getD_eq_getElem?_getD, List.getElem?_set, List.length_set]
    by_cases h1 : k = j
    · subst h1
      have : ¬ (k + 1 = k) := by omega
      simp [this, Nat.lt_of_succ_lt hj]
    · by_cases h2 : k = j + 1
      · subst h2
        simp [hj]
      · have h3 : ¬ (j + 1 = k) := fun h => h2 h.symm
        have h4 : ¬ (j = k) := fun h => h1 h.symm
        simp [h1, h2, h3, h4]
  · rfl

theorem swap_adjacent_perm (v : List α) (j : Nat) (hj : j + 1 < v.length) :
    ((v.set j (v.getD (j + 1) 0)).set (j + 1) (v.getD j 0)).Perm v := by
  induction v generalizing j with
  | nil => simp at hj
  | cons x t ih =>
    cases j with
    | zero =>
      cases t with
      | nil => simp at hj
      | cons y r =>
        simp only [List.set_cons_zero, List.set_cons_succ, List.getD_cons_succ,
          List.getD_cons_zero]
        exact List.Perm.swap x y r
    | succ j =>
      simp only [List.set_cons_succ, List.getD_cons_succ]
      exact List.Perm.cons x (ih j (by simpa using hj))

theorem bubble_swap_perm (v : List α) (j : Nat) (hj : j + 1 < v.length) :
    (bubble_swap v j).Perm v := by
  unfold bubble_swap
  split
  · exact swap_adjacent_perm v j hj
  · exact List.Perm.refl v

theorem bubble_swap_inv (v : List α) (j m : Nat) (hj : j + 1 < m) (hm : m ≤ v.length)
    (h : bubble_inv m v) : bubble_inv m (bubble_swap v j) := by
  have hjl : j + 1 < v.length := by omega
  obtain ⟨h1, h2⟩ := h
  refine ⟨?_, ?_⟩
  · intro a b ha hb hbl
    rw [bubble_swap_length] at hbl
    rw [bubble_swap_getD v j a hjl, bubble_swap_getD v j b hjl]
    split
    · have hbj : ¬ b = j := by omega
      have hbj1 : ¬ b = j + 1 := by omega
      rw [if_neg hbj, if_neg hbj1]
      split
      · exact h1 _ _ (by omega) hb hbl
      · split
        · exact h1 _ _ (by omega) hb hbl
        · exact h1 _ _ ha hb hbl
    · exact h1 _ _ ha hb hbl
  · intro a b ha hab hbl
    rw [bubble_swap_length] at hbl
    rw [bubble_swap_getD v j a hjl, bubble_swap_getD v j b hjl]
    split
    · rw [if_neg (by omega), if_neg (by omega), if_neg (by omega), if_neg (by omega)]
      exact h2 _ _ ha hab hbl
    · exact h2 _ _ ha hab hbl

/-- After `t` rounds of the inner loop the largest of the slots `0 .. t` is in slot
`t`; the list is a permutation of the one before, and the invariant for `m` stays. -/
theorem bubble_rounds (v : List α) (m t : Nat) (ht : t + 1 ≤ m) (hm : m ≤ v.length)
    (h : bubble_inv m v) :
    ((List.range t).foldl bubble_swap v).length = v.length
    ∧ ((List.range t).foldl bubble_swap v).Perm v
    ∧ bubble_inv m ((List.range t).foldl bubble_swap v)
    ∧ ∀ k, k ≤ t → ((List.range t).foldl bubble_swap v).getD k 0
        ≤ ((List.range t).foldl bubble_swap v).getD t 0 := by
  induction t with
  | zero =>
    refine ⟨rfl, List.Perm.refl _, h, ?_⟩
    intro k hk
    have : k = 0 := by omega
    subst this
    exact le_refl _
  | succ t ih =>
    obtain ⟨hl, hp, hi, hmax⟩ := ih (by omega)
    rw [List.range_succ, List.foldl_append]
    simp only [List.foldl_cons, List.foldl_nil]
    have hjl : t + 1 < ((List.range t).foldl bubble_swap v).length := by rw [hl]; omega
    refine ⟨by rw [bubble_swap_length, hl], (bubble_swap_perm _ t hjl).trans hp,
      bubble_swap_inv _ t m (by omega) (by rw [hl]; exact hm) hi, ?_⟩
    intro k hk
    rw [bubble_swap_getD _ t k hjl, bubble_swap_getD _ t (t + 1) hjl]
    by_cases hgt : ((List.range t).foldl bubble_swap v).getD t 0
        > ((List.range t).foldl bubble_swap v).getD (t + 1) 0
    · rw [if_pos hgt, if_pos hgt]
      have e1 : ¬ (t + 1 = t) := by omega
      rw [if_neg e1, if_pos rfl]
      by_cases hkt : k = t
      · rw [if_pos hkt]; exact le_of_lt hgt
      · rw [if_neg hkt]
        by_cases hkt1 : k = t + 1
        · rw [if_pos hkt1]
        · rw [if_neg hkt1]; exact hmax k (by omega)
    · rw [if_neg hgt, if_neg hgt]
      rcases Nat.lt_or_ge k (t + 1) with hk2 | hk2
      · exact le_trans (hmax k (by omega)) (not_lt.mp hgt)
      · have : k = t + 1 := by omega
        subst this
        exact le_refl _

/-- One pass of the outer loop moves the invariant one slot down. -/
theorem bubble_pass_inv (v : List α) (i : Nat) (hi : i < v.length)
    (h : bubble_inv (v.length - i) v) :
    (bubble_pass v.length i v).length = v.length
    ∧ (bubble_pass v.length i v).Perm v
    ∧ bubble_inv (v.length - (i + 1)) (bubble_pass v.length i v) := by
  unfold bubble_pass
  obtain ⟨hl, hp, ⟨h1, h2⟩, hmax⟩ :=
    bubble_rounds v (v.length - i) (v.length - i - 1) (by omega) (by omega) h
  refine ⟨hl, hp, ?_, ?_⟩
  · intro a b ha hb hbl
    rw [hl] at hbl
    rcases Nat.lt_or_ge b (v.length - i) with hb2 | hb2
    · have : b = v.length - i - 1 := by omega
      subst this
      exact hmax a (by omega)
    · exact h1 a b (by omega) hb2 (by rw [hl]; exact hbl)
  · intro a b ha hab hbl
    rw [hl] at hbl
    rcases Nat.lt_or_ge a (v.length - i) with ha2 | ha2
    · rcases Nat.lt_or_ge b (v.length - i) with hb2 | hb2
      · have e1 : a = b := by omega
        subst e1
        exact le_refl _
      · exact h1 a b ha2 hb2 (by rw [hl]; exact hbl)
    · exact h2 a b ha2 hab (by rw [hl]; exact hbl)

theorem bubble_passes (v : List α) (s : Nat) (hs : s + 1 ≤ v.length) :
    ((List.range s).foldl (fun w i => bubble_pass v.length i w) v).length = v.length
    ∧ ((List.range s).foldl (fun w i => bubble_pass v.length i w) v).Perm v
    ∧ bubble_inv (v.length - s)
        ((List.range s).foldl (fun w i => bubble_pass v.length i w) v) := by
  induction s with
  | zero =>
    refine ⟨rfl, List.Perm.refl _, ?_, ?_⟩
    · intro a b _ hb hbl
      simp only [List.range_zero, List.foldl_nil] at hbl
      omega
    · intro a b ha hab hbl
      simp only [List.range_zero, List.foldl_nil] at hbl
      omega
  | succ s ih =>
    obtain ⟨hl, hp, hi⟩ := ih (by omega)
    rw [List.range_succ, List.foldl_append]
    simp only [List.foldl_cons, List.foldl_nil]
    have h := bubble_pass_inv ((List.range s).foldl (fun w i => bubble_pass v.length i w) v) s
      (by rw [hl]; omega) (by rw [hl]; exact hi)
    rw [hl] at h
    exact ⟨h.1, h.2.1.trans hp, h.2.2⟩

/-- The in-place bubble sort of `analytics_calculate_stats` returns an ascending
permutation of its input. -/
theorem bubble_sort_sorted_perm (v : List α) :
    (bubble_sort v.length v).length = v.length
    ∧ (bubble_sort v.length v).Perm v
    ∧ (bubble_sort v.length v).Sorted (· ≤ ·) := by
  unfold bubble_sort
  rcases Nat.eq_zero_or_pos v.length with h0 | hpos
  · have hv : v = [] := List.length_eq_zero.mp h0
    subst hv
    simp
  · obtain ⟨hl, hp, h1, h2⟩ := bubble_passes v (v.length - 1) (by omega)
    refine ⟨hl, hp, ?_⟩
    rw [List.Sorted, List.pairwise_iff_getElem]
    intro i j hi hj hij
    rw [← List.getD_eq_getElem _ 0 hi, ← List.getD_eq_getElem _ 0 hj]
    rcases Nat.lt_or_ge i (v.length - (v.length - 1)) with hlt | hge
    · exact h1 i j hlt (by omega) hj
    · exact h2 i j hge (by omega) hj

end Bubble

section AnomalyRing

variable {α : Type} [LinearOrderedField α]

theorem record_findings_anomaly_ring (now : Nat) (ctx : analytics_context_t α)
    (m : metric_data_t α) :
    ((analytics_detect_anomaly now ctx m).severity.toNat
          > anomaly_severity_t.ANOMALY_NONE.toNat →
        (record_findings now ctx m).recent_anomalies
            = Function.update ctx.recent_anomalies (ctx.anomaly_count % 100)
                (analytics_detect_anomaly now ctx m)
        ∧ (record_findings now ctx m).anomaly_count = ctx.anomaly_count + 1)
    ∧ (¬ (analytics_detect_anomaly now ctx m).severity.toNat
          > anomaly_severity_t.ANOMALY_NONE.toNat →
        (record_findings now ctx m).recent_anomalies = ctx.recent_anomalies
        ∧ (record_findings now ctx m).anomaly_count = ctx.anomaly_count) := by
  refine ⟨?_, ?_⟩
  · intro hs
    unfold record_findings
    dsimp only
    rw [if_pos hs]
    split <;> exact ⟨rfl, rfl⟩
  · intro hs
    unfold record_findings
    dsimp only
    rw [if_neg hs]
    exact ⟨rfl, rfl⟩

/-- What one `analytics_process_metric` does to the recent-anomaly ring. -/
theorem process_metric_anomaly_ring (sqrt : α → α) (now : Nat) (ctx : analytics_context_t α)
    (m : metric_data_t α) :
    (∀ a, appended_anomaly sqrt now ctx m = some a →
        (analytics_process_metric sqrt now ctx m).2.recent_anomalies
            = Function.update ctx.recent_anomalies (ctx.anomaly_count % 100) a
        ∧ (analytics_process_metric sqrt now ctx m).2.anomaly_count = ctx.anomaly_count + 1)
    ∧ (appended_anomaly sqrt now ctx m = none →
        (analytics_process_metric sqrt now ctx m).2.recent_anomalies = ctx.recent_anomalies
        ∧ (analytics_process_metric sqrt now ctx m).2.anomaly_count = ctx.anomaly_count) := by
  by_cases hv : m.type ≥ METRIC_COUNT
  · rw [process_metric_invalid sqrt now ctx m hv]
    refine ⟨?_, fun _ => ⟨rfl, rfl⟩⟩
    intro a ha
    simp [appended_anomaly, hv] at ha
  · have hk : m.type < METRIC_COUNT := Nat.not_le.mp hv
    by_cases hc : (history_push (ctx.history m.type) m).count ≥ 10
    · rw [process_metric_detect sqrt now ctx m hk hc]
      obtain ⟨hfire, hquiet⟩ :=
        record_findings_anomaly_ring now (detection_context sqrt ctx m) m
      by_cases hs : (analytics_detect_anomaly now (detection_context sqrt ctx m) m).severity.toNat
          > anomaly_severity_t.ANOMALY_NONE.toNat
      · refine ⟨?_, ?_⟩
        · intro a ha
          simp only [appended_anomaly, if_neg hv, if_pos hc, if_pos hs, Option.some.injEq] at ha
          subst ha
          exact hfire hs
        · intro ha
          simp [appended_anomaly, hv, hc, hs] at ha
      · refine ⟨?_, ?_⟩
        · intro a ha
          simp [appended_anomaly, hv, hc, hs] at ha
        · intro _
          exact hquiet hs
    · rw [process_metric_store sqrt now ctx m hk hc]
      refine ⟨?_, fun _ => ⟨rfl, rfl⟩⟩
      intro a ha
      simp [appended_anomaly, hv, hc] at ha

theorem anomaly_ring_inv_append (ctx c2 : analytics_context_t α)
    (l : List (anomaly_result_t α)) (a : anomaly_result_t α)
    (hr : c2.recent_anomalies = Function.update ctx.recent_anomalies (ctx.anomaly_count % 100) a)
    (hc : c2.anomaly_count = ctx.anomaly_count + 1) (h : anomaly_ring_inv ctx l) :
    anomaly_ring_inv c2 (l ++ [a]) := by
  obtain ⟨hcount, hslots⟩ := h
  refine ⟨?_, ?_⟩
  · rw [hc, hcount]; simp
  · intro j hlo hj
    simp only [List.length_append, List.length_singleton] at hlo hj
    rw [hr, hcount]
    by_cases hjl : j = l.length
    · subst hjl
      simp
    · have hlt : j < l.length := by omega
      have hne : j % 100 ≠ l.length % 100 := by omega
      rw [Function.update_noteq hne, List.getElem?_append_left hlt]
      exact hslots j (by omega) hlt

theorem ingest_all_cons (sqrt : α → α) (ctx : analytics_context_t α)
    (m : Nat × metric_data_t α) (ms : List (Nat × metric_data_t α)) :
    ingest_all sqrt ctx (m :: ms)
      = ingest_all sqrt (analytics_process_metric sqrt m.1 ctx m.2).2 ms := rfl

/-- Ingesting `ms` appends `anomaly_log` to the recent-anomaly ring. -/
theorem ingest_all_anomaly_ring (sqrt : α → α) (ms : List (Nat × metric_data_t α))
    (ctx : analytics_context_t α) (l : List (anomaly_result_t α))
    (h : anomaly_ring_inv ctx l) :
    anomaly_ring_inv (ingest_all sqrt ctx ms) (l ++ anomaly_log sqrt ctx ms) := by
  induction ms generalizing ctx l with
  | nil => simpa [ingest_all, anomaly_log] using h
  | cons m ms ih =>
    rw [ingest_all_cons, anomaly_log]
    obtain ⟨hsome, hnone⟩ := process_metric_anomaly_ring sqrt m.1 ctx m.2
    cases hap : appended_anomaly sqrt m.1 ctx m.2 with
    | none =>
      obtain ⟨hr, hc⟩ := hnone hap
      have h2 : anomaly_ring_inv (analytics_process_metric sqrt m.1 ctx m.2).2 l := by
        unfold anomaly_ring_inv at h ⊢
        rw [hr, hc]; exact h
      simpa using ih _ l h2
    | some a =>
      obtain ⟨hr, hc⟩ := hsome a hap
      have h2 := anomaly_ring_inv_append ctx _ l a hr hc h
      have := ih _ (l ++ [a]) h2
      simpa using this

theorem analytics_init_anomaly_ring (weights : Nat → α)
    (config_file : Option (Option (Option (config_json α)))) :
    anomaly_ring_inv (analytics_init weights config_file) [] := by
  refine ⟨?_, ?_⟩
  · unfold analytics_init analytics_load_config
    dsimp only
    split
    · split <;> rfl
    · rfl
  · intro j _ hj
    simp at hj

theorem history_push_count (h : metric_history_t α) (m : metric_data_t α) :
    (history_push h m).count = if h.count < 1000 then h.count + 1 else h.count := by
  unfold history_push; dsimp only; split <;> rfl

theorem process_metric_count (sqrt : α → α) (now : Nat) (ctx : analytics_context_t α)
    (m : metric_data_t α) (hk : m.type < METRIC_COUNT) :
    ((analytics_process_metric sqrt now ctx m).2.history m.type).count
      = (history_push (ctx.history m.type) m).count := by
  rw [process_metric_history_self sqrt now ctx m hk]
  split
  · rw [history_refresh_count]
  · rfl

theorem threshold_detection_critical (now : Nat) (ctx : analytics_context_t α)
    (m : metric_data_t α) (hen : (ctx.config.thresholds m.type).enabled = true)
    (hv : m.value ≥ (ctx.config.thresholds m.type).critical_threshold) :
    analytics_threshold_detection now ctx m
      = { metric_type := m.type, severity := .ANOMALY_CRITICAL,
          threshold_value := (ctx.config.thresholds m.type).critical_threshold,
          actual_value := m.value, confidence := 1.0, detected_at := now } := by
  simp [analytics_threshold_detection, hen, hv, anomaly_zero]

theorem detect_anomaly_of_threshold (now : Nat) (ctx : analytics_context_t α)
    (m : metric_data_t α)
    (h : (analytics_threshold_detection now ctx m).severity.toNat
        > anomaly_severity_t.ANOMALY_NONE.toNat) :
    analytics_detect_anomaly now ctx m = analytics_threshold_detection now ctx m := by
  unfold analytics_detect_anomaly
  dsimp only
  rw [if_pos h]

/-- The anomaly stored for a sample at or above its kind's critical threshold. -/
theorem appended_anomaly_critical (sqrt : α → α) (now : Nat) (ctx : analytics_context_t α)
    (m : metric_data_t α) (hk : m.type < METRIC_COUNT)
    (hen : (ctx.config.thresholds m.type).enabled = true)
    (hv : m.value ≥ (ctx.config.thresholds m.type).critical_threshold) :
    appended_anomaly sqrt now ctx m
      = if (history_push (ctx.history m.type) m).count ≥ 10 then
          some { metric_type := m.type, severity := .ANOMALY_CRITICAL,
                 threshold_value := (ctx.config.thresholds m.type).critical_threshold,
                 actual_value := m.value, confidence := 1.0, detected_at := now }
        else none := by
  have hthr := threshold_detection_critical now (detection_context sqrt ctx m) m hen hv
  have hsev : (analytics_threshold_detection now (detection_context sqrt ctx m) m).severity.toNat
      > anomaly_severity_t.ANOMALY_NONE.toNat := by
    rw [hthr]; simp [anomaly_severity_t.toNat]
  have hdet := detect_anomaly_of_threshold now (detection_context sqrt ctx m) m hsev
  unfold appended_anomaly
  rw [if_neg (Nat.not_le.mpr hk), hdet, if_pos hsev, hthr]
  rfl

/-- The anomalies stored while ingesting samples of one kind that are all at or above
the critical threshold: every sample from the one that brings the history to 10. -/
theorem anomaly_log_critical (sqrt : α → α) (k : Nat) (hk : k < METRIC_COUNT)
    (ms : List (Nat × metric_data_t α)) (ctx : analytics_context_t α) (c : Nat)
    (hen : (ctx.config.thresholds k).enabled = true)
    (hms : ∀ x ∈ ms, x.2.type = k ∧ x.2.value ≥ (ctx.config.thresholds k).critical_threshold)
    (hc : (ctx.history k).count = c) (hlen : c + ms.length ≤ 1000) :
    anomaly_log sqrt ctx ms
      = (ms.drop (9 - c)).map (fun x =>
          { metric_type := k, severity := .ANOMALY_CRITICAL,
            threshold_value := (ctx.config.thresholds k).critical_threshold,
            actual_value := x.2.value, confidence := 1.0, detected_at := x.1 }) := by
  induction ms generalizing ctx c with
  | nil => simp [anomaly_log]
  | cons m ms ih =>
    obtain ⟨hmk, hmv⟩ := hms m (by simp)
    have hmk2 : m.2.type < METRIC_COUNT := by rw [hmk]; exact hk
    simp only [List.length_cons] at hlen
    have hcfg := process_metric_config sqrt m.1 ctx m.2
    have hcount : ((analytics_process_metric sqrt m.1 ctx m.2).2.history k).count = c + 1 := by
      have := process_metric_count sqrt m.1 ctx m.2 hmk2
      rw [hmk] at this
      rw [this, history_push_count, hc, if_pos (by omega)]
    have ih2 := ih (analytics_process_metric sqrt m.1 ctx m.2).2 (c + 1)
      (by rw [hcfg]; exact hen)
      (fun x hx => by rw [hcfg]; exact hms x (by simp [hx])) hcount (by omega)
    rw [hcfg] at ih2
    have hpc : (history_push (ctx.history m.2.type) m.2).count = c + 1 := by
      rw [history_push_count, hmk, hc, if_pos (by omega)]
    rw [anomaly_log, ih2, appended_anomaly_critical sqrt m.1 ctx m.2 hmk2
      (by rw [hmk]; exact hen) (by rw [hmk]; exact hmv), hpc]
    by_cases h9 : c + 1 ≥ 10
    · rw [if_pos h9]
      have e1 : 9 - c = 0 := by omega
      have e2 : 9 - (c + 1) = 0 := by omega
      rw [e1, e2, hmk]
      simp
    · rw [if_neg h9]
      have e1 : 9 - c = (9 - (c + 1)) + 1 := by omega
      rw [e1]
      simp

theorem get_recent_anomalies_fst (ctx : analytics_context_t α) :
    (analytics_get_recent_anomalies ctx).1 = ctx.recent_anomalies := rfl

theorem get_recent_anomalies_snd (ctx : analytics_context_t α) :
    (analytics_get_recent_anomalies ctx).2 = min ctx.anomaly_count 100 := by
  simp only [analytics_get_recent_anomalies, MIN_eq_min]

theorem init_thresholds_throughput (weights : Nat → α) :
    (analytics_init weights none).config.thresholds METRIC_THROUGHPUT
      = { warning_threshold := 100.0, critical_threshold := 50.0, min_value := 0.0,
          max_value := 1000.0, enabled := true } := by
  simp [analytics_init, default_thresholds, METRIC_THROUGHPUT, METRIC_LATENCY,
    METRIC_PACKET_LOSS, METRIC_COUNT]

theorem init_trend_window (weights : Nat → α)
    (config_file : Option (Option (Option (config_json α)))) :
    (analytics_init weights config_file).config.trend_window = 50 := by
  unfold analytics_init analytics_load_config
  dsimp only
  split
  · split <;> rfl
  · rfl

theorem sample_hot_stream_log (sqrt : α → α) (weights : Nat → α) :
    anomaly_log sqrt (analytics_init weights none) (sample_hot_stream 110)
      = ((sample_hot_stream 110 : List (Nat × metric_data_t α)).drop 9).map (fun x =>
          { metric_type := METRIC_THROUGHPUT, severity := .ANOMALY_CRITICAL,
            threshold_value := 50.0, actual_value := x.2.value, confidence := 1.0,
            detected_at := x.1 }) := by
  have h := anomaly_log_critical sqrt METRIC_THROUGHPUT (by decide) (sample_hot_stream 110)
    (analytics_init weights none) 0 (by rw [init_thresholds_throughput])
    (by
      intro x hx
      simp only [sample_hot_stream, List.mem_map, List.mem_range] at hx
      obtain ⟨i, _, rfl⟩ := hx
      refine ⟨rfl, ?_⟩
      rw [init_thresholds_throughput]
      have : (0 : α) ≤ (i : α) := Nat.cast_nonneg i
      norm_num
      linarith)
    (by rw [analytics_init_history]; rfl) (by simp [sample_hot_stream])
  rw [h, init_thresholds_throughput]

theorem sample_hot_stream_log_get (sqrt : α → α) (weights : Nat → α) (j : Nat) (hj : j < 101) :
    (anomaly_log sqrt (analytics_init weights none) (sample_hot_stream 110))[j]?
      = some { metric_type := METRIC_THROUGHPUT, severity := .ANOMALY_CRITICAL,
               threshold_value := 50.0, actual_value := 200 + ((9 + j : Nat) : α),
               confidence := 1.0, detected_at := 9 + j } := by
  rw [sample_hot_stream_log]
  have h : 9 + j < 110 := by omega
  simp [sample_hot_stream, List.getElem?_drop, List.getElem?_range h, h]

end AnomalyRing

section Summaries

variable {α : Type} [LinearOrderedField α]

theorem history_refresh_last_trend (sqrt : α → α) (w : Int) (h : metric_history_t α)
    (hw : (h.count : Int) ≥ w) :
    (history_refresh sqrt w h).last_trend
      = analytics_calculate_trend sqrt h.data (MIN (h.count : Int) w) := by
  unfold history_refresh; dsimp only; rw [if_pos hw]

/-- After a successful ingestion that leaves 10 samples or more, the stored statistics
are `analytics_calculate_stats` of the ring's slots `0 .. count - 1`. -/
theorem process_metric_last_stats (sqrt : α → α) (now : Nat) (ctx : analytics_context_t α)
    (m : metric_data_t α) (hk : m.type < METRIC_COUNT)
    (hc : ((analytics_process_metric sqrt now ctx m).2.history m.type).count ≥ 10) :
    ((analytics_process_metric sqrt now ctx m).2.history m.type).last_stats
      = analytics_calculate_stats sqrt
          ((analytics_process_metric sqrt now ctx m).2.history m.type).data
          (((analytics_process_metric sqrt now ctx m).2.history m.type).count : Int) := by
  rw [process_metric_count sqrt now ctx m hk] at hc
  rw [process_metric_history_self sqrt now ctx m hk, if_pos hc, history_refresh_last_stats,
    history_refresh_data, history_refresh_count]

/-- After a successful ingestion that leaves 10 samples or more and at least the
configured trend window, the stored trend is `analytics_calculate_trend` of the ring's
slots `0 .. MIN(count, trend_window) - 1`. -/
theorem process_metric_last_trend (sqrt : α → α) (now : Nat) (ctx : analytics_context_t α)
    (m : metric_data_t α) (hk : m.type < METRIC_COUNT)
    (hc : ((analytics_process_metric sqrt now ctx m).2.history m.type).count ≥ 10)
    (hw : (((analytics_process_metric sqrt now ctx m).2.history m.type).count : Int)
        ≥ ctx.config.trend_window) :
    ((analytics_process_metric sqrt now ctx m).2.history m.type).last_trend
      = analytics_calculate_trend sqrt
          ((analytics_process_metric sqrt now ctx m).2.history m.type).data
          (MIN (((analytics_process_metric sqrt now ctx m).2.history m.type).count : Int)
            ctx.config.trend_window) := by
  rw [process_metric_count sqrt now ctx m hk] at hc hw
  rw [process_metric_history_self sqrt now ctx m hk, if_pos hc,
    history_refresh_last_trend sqrt _ _ hw, history_refresh_data, history_refresh_count]

theorem ingest_all_config (sqrt : α → α) (ms : List (Nat × metric_data_t α))
    (ctx : analytics_context_t α) : (ingest_all sqrt ctx ms).config = ctx.config := by
  induction ms generalizing ctx with
  | nil => rfl
  | cons m ms ih => rw [ingest_all_cons, ih, process_metric_config]

/-- The trend of a window whose values are all 0 has slope 0 and is stable. -/
theorem calculate_trend_zero_window (sqrt : α → α) (data : Nat → metric_data_t α) (n : Nat)
    (hn : 2 ≤ n) (h0 : ∀ i, i < n → (data i).value = 0) :
    (analytics_calculate_trend sqrt data (n : Int)).slope = 0
    ∧ (analytics_calculate_trend sqrt data (n : Int)).is_increasing = false
    ∧ (analytics_calculate_trend sqrt data (n : Int)).is_stable = true := by
  obtain ⟨hs, _, hinc, _, hst⟩ := calculate_trend_fields sqrt data n hn
  have hy : (∑ i in Finset.range n, (data i).value) = 0 :=
    Finset.sum_eq_zero (fun i hi => h0 i (Finset.mem_range.mp hi))
  have hxy : (∑ i in Finset.range n, (i : α) * (data i).value) = 0 :=
    Finset.sum_eq_zero (fun i hi => by rw [h0 i (Finset.mem_range.mp hi), mul_zero])
  have hslope : (analytics_calculate_trend sqrt data (n : Int)).slope = 0 := by
    rw [hs, hy, hxy]; simp
  refine ⟨hslope, ?_, ?_⟩
  · rw [hinc, hslope]; simp
    norm_num
  · rw [hst, hslope]; simp
    norm_num

theorem sample_step_stream_kind (n : Nat) (v : α) :
    ∀ x ∈ sample_step_stream n v, x.2.type = METRIC_THROUGHPUT := by
  intro x hx
  simp only [sample_step_stream, List.mem_append, List.mem_map, List.mem_range,
    List.mem_singleton] at hx
  rcases hx with ⟨i, _, rfl⟩ | rfl <;> rfl

theorem sample_step_stream_length (n : Nat) (v : α) :
    (sample_step_stream n v).length = n + 1 := by
  simp [sample_step_stream]

theorem sample_step_stream_get (n : Nat) (v : α) (j : Nat) (hj : j ≤ n) :
    ((sample_step_stream n v).map Prod.snd)[j]?
      = some { type := METRIC_THROUGHPUT, value := if j = n then v else 0, node_id := 1,
               cell_id := 1, timestamp := j } := by
  rcases Nat.lt_or_ge j n with h | h
  · have hne : ¬ j = n := by omega
    simp [sample_step_stream, List.getElem?_append_left, h, hne, List.getElem?_range h]
  · have he : j = n := by omega
    subst he
    simp [sample_step_stream, List.getElem?_append_right]

/-- The history of throughput after `sample_step_stream n v` is ingested into a fresh
context: the ring invariant, and the stored summaries as computed from the ring's
first slots. -/
theorem sample_step_stream_history (sqrt : α → α) (weights : Nat → α) (n : Nat) (v : α)
    (hn : 9 ≤ n) :
    ring_inv ((ingest_all sqrt (analytics_init weights none)
        (sample_step_stream n v)).history METRIC_THROUGHPUT)
      ((sample_step_stream n v).map Prod.snd)
    ∧ ((ingest_all sqrt (analytics_init weights none)
        (sample_step_stream n v)).history METRIC_THROUGHPUT).last_stats
      = analytics_calculate_stats sqrt
          ((ingest_all sqrt (analytics_init weights none)
            (sample_step_stream n v)).history METRIC_THROUGHPUT).data
          (((ingest_all sqrt (analytics_init weights none)
            (sample_step_stream n v)).history METRIC_THROUGHPUT).count : Int)
    ∧ (49 ≤ n →
        ((ingest_all sqrt (analytics_init weights none)
          (sample_step_stream n v)).history METRIC_THROUGHPUT).last_trend
        = analytics_calculate_trend sqrt
            ((ingest_all sqrt (analytics_init weights none)
              (sample_step_stream n v)).history METRIC_THROUGHPUT).data 50) := by
  have hinv := ingest_all_ring_inv sqrt (analytics_init weights none) METRIC_THROUGHPUT
    (by decide) (by rw [analytics_init_history]; exact ring_inv_zero)
    (sample_step_stream n v) (sample_step_stream_kind n v)
  have hcount := hinv.2.1
  rw [List.length_map, sample_step_stream_length] at hcount
  have hsplit : sample_step_stream n v
      = (List.range n).map (fun i =>
          (i, ({ type := METRIC_THROUGHPUT, value := 0, node_id := 1, cell_id := 1,
                 timestamp := i } : metric_data_t α)))
        ++ [(n, { type := METRIC_THROUGHPUT, value := v, node_id := 1, cell_id := 1,
                  timestamp := n })] := rfl
  have hk : (⟨METRIC_THROUGHPUT, v, 1, 1, n⟩ : metric_data_t α).type < METRIC_COUNT := by
    show METRIC_THROUGHPUT < METRIC_COUNT
    decide
  refine ⟨hinv, ?_, ?_⟩
  · rw [hsplit, ingest_all_append] at hcount ⊢
    exact process_metric_last_stats sqrt _ _ _ hk (by rw [hcount]; omega)
  · intro h49
    rw [hsplit, ingest_all_append] at hcount ⊢
    have htw : (ingest_all sqrt (analytics_init weights none)
        ((List.range n).map (fun i =>
          (i, ({ type := METRIC_THROUGHPUT, value := 0, node_id := 1, cell_id := 1,
                 timestamp := i } : metric_data_t α))))).config.trend_window = 50 := by
      rw [ingest_all_config, init_trend_window]
    have h := process_metric_last_trend sqrt n _ _ hk (by rw [hcount]; omega)
      (by rw [hcount, htw]; omega)
    rw [h, hcount, htw]
    have : MIN ((min (n + 1) 1000 : Nat) : Int) 50 = 50 := by
      rw [MIN_eq_min]; omega
    rw [this]

/-- The values in the ring after `sample_step_stream 1000 v`: the sample ingested last
sits in slot 0, the slots `1 .. 999` hold the samples of value 0. -/
theorem sample_step_wrap_data (sqrt : α → α) (weights : Nat → α) (v : α) (i : Nat)
    (hi : i < 1000) :
    (((ingest_all sqrt (analytics_init weights none)
        (sample_step_stream 1000 v)).history METRIC_THROUGHPUT).data i).value
      = if i = 0 then v else 0 := by
  obtain ⟨⟨_, _, _, hd⟩, _, _⟩ := sample_step_stream_history sqrt weights 1000 v (by omega)
  rw [List.length_map, sample_step_stream_length] at hd
  by_cases h0 : i = 0
  · subst h0
    have h := hd 1000 (by omega) (by omega)
    rw [sample_step_stream_get 1000 v 1000 (le_refl _)] at h
    have e : 1000 % 1000 = 0 := rfl
    rw [e] at h
    rw [← Option.some.inj h]
    simp
  · have h := hd i (by omega) (by omega)
    rw [sample_step_stream_get 1000 v i (by omega), Nat.mod_eq_of_lt hi] at h
    rw [← Option.some.inj h]
    have hne : ¬ i = 1000 := by omega
    simp [h0, hne]

/-- The values in the ring after `sample_step_stream 50 v`: the slots `0 .. 49` hold
the samples of value 0. -/
theorem sample_step_short_data (sqrt : α → α) (weights : Nat → α) (v : α) (i : Nat)
    (hi : i < 50) :
    (((ingest_all sqrt (analytics_init weights none)
        (sample_step_stream 50 v)).history METRIC_THROUGHPUT).data i).value = 0 := by
  obtain ⟨⟨_, _, _, hd⟩, _, _⟩ := sample_step_stream_history sqrt weights 50 v (by omega)
  rw [List.length_map, sample_step_stream_length] at hd
  have h := hd i (by omega) (by omega)
  rw [sample_step_stream_get 50 v i (by omega), Nat.mod_eq_of_lt (by omega)] at h
  rw [← Option.some.inj h]
  have hne : ¬ i = 50 := by omega
  simp [hne]

theorem sample_step_trailing_value (v : α) (i : Nat) (hi : i < 50) :
    (trailing_window ((sample_step_stream 50 v).map Prod.snd) 50 i).value
      = if i = 49 then v else 0 := by
  unfold trailing_window
  rw [List.length_map, sample_step_stream_length]
  have e : 50 + 1 - 50 + i = 1 + i := by omega
  rw [e, List.getD_eq_getElem?_getD, sample_step_stream_get 50 v (1 + i) (by omega)]
  by_cases h : i = 49
  · subst h; simp
  · have hne : ¬ 1 + i = 50 := by omega
    simp [h, hne]

/-- After ingesting samples of one valid kind into a fresh context, the last of them
leaving 10 or more in the history: the ring invariant, and the stored statistics as
computed from the ring's slots `0 .. count - 1`. -/
theorem ingest_all_last_stats (sqrt : α → α) (weights : Nat → α)
    (config_file : Option (Option (Option (config_json α)))) (k : Nat)
    (hk : k < METRIC_COUNT) (ms : List (Nat × metric_data_t α)) (m : Nat × metric_data_t α)
    (hms : ∀ x ∈ ms, x.2.type = k) (hm : m.2.type = k) (h10 : 9 ≤ ms.length) :
    ring_inv ((ingest_all sqrt (analytics_init weights config_file) (ms ++ [m])).history k)
      ((ms ++ [m]).map Prod.snd)
    ∧ ((ingest_all sqrt (analytics_init weights config_file) (ms ++ [m])).history k).last_stats
      = analytics_calculate_stats sqrt
          ((ingest_all sqrt (analytics_init weights config_file) (ms ++ [m])).history k).data
          (((ingest_all sqrt (analytics_init weights config_file) (ms ++ [m])).history
            k).count : Int) := by
  have hall : ∀ x ∈ ms ++ [m], x.2.type = k := by
    intro x hx
    rcases List.mem_append.mp hx with h | h
    · exact hms x h
    · rw [List.mem_singleton.mp h]; exact hm
  have hinv := ingest_all_ring_inv sqrt (analytics_init weights config_file) k hk
    (by rw [analytics_init_history]; exact ring_inv_zero) (ms ++ [m]) hall
  have hcount := hinv.2.1
  rw [List.length_map, List.length_append, List.length_singleton] at hcount
  refine ⟨hinv, ?_⟩
  rw [ingest_all_append] at hcount ⊢
  subst hm
  exact process_metric_last_stats sqrt _ _ _ hk (by rw [hcount]; omega)

/-- While the ring has not wrapped (at most 1000 ingestions of the kind) the stored
z-score is the one of the sample just ingested. -/
theorem stored_z_score_before_wrap (sqrt : α → α) (weights : Nat → α)
    (config_file : Option (Option (Option (config_json α)))) (k : Nat)
    (hk : k < METRIC_COUNT) (ms : List (Nat × metric_data_t α)) (m : Nat × metric_data_t α)
    (hms : ∀ x ∈ ms, x.2.type = k) (hm : m.2.type = k) (h10 : 9 ≤ ms.length)
    (hlen : ms.length + 1 ≤ 1000) :
    ((ingest_all sqrt (analytics_init weights config_file) (ms ++ [m])).history
        k).last_stats.z_score
      = analytics_calculate_z_score m.2.value
          ((ingest_all sqrt (analytics_init weights config_file) (ms ++ [m])).history
            k).last_stats.mean
          ((ingest_all sqrt (analytics_init weights config_file) (ms ++ [m])).history
            k).last_stats.std_dev := by
  obtain ⟨⟨_, hc, _, hd⟩, hstats⟩ :=
    ingest_all_last_stats sqrt weights config_file k hk ms m hms hm h10
  rw [List.length_map, List.length_append, List.length_singleton] at hc hd
  have hc2 : ((ingest_all sqrt (analytics_init weights config_file) (ms ++ [m])).history
      k).count = ms.length + 1 := by rw [hc]; omega
  rw [hc2] at hstats
  obtain ⟨_, _, _, _, _, hz, _⟩ := calculate_stats_fields sqrt
    ((ingest_all sqrt (analytics_init weights config_file) (ms ++ [m])).history k).data
    (ms.length + 1) (by omega)
  rw [← hstats] at hz
  have hlast := hd ms.length (by omega) (by omega)
  rw [Nat.mod_eq_of_lt (by omega), List.map_append, List.getElem?_append_right (by simp)] at hlast
  simp only [List.length_map, Nat.sub_self, List.map_cons, List.map_nil,
    List.getElem?_cons_zero, Option.some.injEq] at hlast
  rw [hz, Nat.add_sub_cancel, ← hlast]

end Summaries

section Defaults

variable {α : Type} [LinearOrderedField α]

/-- Every kind's threshold entry is enabled in a context created without a
configuration file. -/
theorem init_thresholds_enabled (weights : Nat → α) (k : Nat) (hk : k < METRIC_COUNT) :
    ((analytics_init weights none).config.thresholds k).enabled = true := by
  have h9 : k < 9 := hk
  interval_cases k <;>
    simp [analytics_init, default_thresholds, METRIC_THROUGHPUT, METRIC_LATENCY,
      METRIC_PACKET_LOSS, METRIC_COUNT, Function.update]

theorem threshold_detection_actual_value (now : Nat) (ctx : analytics_context_t α)
    (m : metric_data_t α) : (analytics_threshold_detection now ctx m).actual_value = m.value := by
  unfold analytics_threshold_detection
  dsimp only
  split_ifs <;> rfl

theorem threshold_detection_confidence_range (now : Nat) (ctx : analytics_context_t α)
    (m : metric_data_t α) :
    0 ≤ (analytics_threshold_detection now ctx m).confidence
    ∧ (analytics_threshold_detection now ctx m).confidence ≤ 1 := by
  unfold analytics_threshold_detection
  dsimp only
  split_ifs <;> simp [anomaly_zero] <;> norm_num

theorem statistical_detection_confidence_range (now : Nat) (ctx : analytics_context_t α)
    (m : metric_data_t α) :
    0 ≤ (analytics_statistical_detection now ctx m).confidence
    ∧ (analytics_statistical_detection now ctx m).confidence ≤ 1 := by
  have hmin : ∀ z : α, 0 ≤ MIN (|z| / 3.0) 1.0 ∧ MIN (|z| / 3.0) 1.0 ≤ (1 : α) := by
    intro z
    rw [MIN_eq_min]
    refine ⟨le_min (div_nonneg (abs_nonneg _) (by norm_num)) (by norm_num), ?_⟩
    exact le_trans (min_le_right _ _) (by norm_num)
  unfold analytics_statistical_detection
  dsimp only
  split
  · simp [anomaly_zero]
  · split
    · exact hmin _
    · simp [anomaly_zero]

/-- The cascade's result is the result of a stage that fired or the none record. -/
theorem detect_anomaly_cases (now : Nat) (ctx : analytics_context_t α) (m : metric_data_t α) :
    analytics_detect_anomaly now ctx m = analytics_threshold_detection now ctx m
    ∨ analytics_detect_anomaly now ctx m = analytics_statistical_detection now ctx m
    ∨ (analytics_detect_anomaly now ctx m = analytics_ml_detection now ctx m
        ∧ (analytics_ml_detection now ctx m).severity ≠ .ANOMALY_NONE)
    ∨ analytics_detect_anomaly now ctx m
        = { metric_type := m.type, severity := .ANOMALY_NONE, threshold_value := 0,
            actual_value := 0, confidence := 0, detected_at := now } := by
  unfold analytics_detect_anomaly
  dsimp only
  split_ifs with h1 h2 h3 h4
  · left; rfl
  · right; left; rfl
  · right; right; left
    exact ⟨rfl, (severity_toNat_pos _).mp h4⟩
  · right; right; right; rfl
  · right; right; right; rfl

end Defaults

section Prediction

variable {α : Type} [LinearOrderedField α]

theorem samples_of_kind_append (k : Nat) (ms : List (Nat × metric_data_t α))
    (m : Nat × metric_data_t α) :
    samples_of_kind k (ms ++ [m])
      = samples_of_kind k ms ++ (if m.2.type = k then [m.2] else []) := by
  unfold samples_of_kind
  rw [List.map_append, List.filter_append]
  congr 1
  by_cases h : m.2.type = k <;> simp [h]

/-- After ingesting any samples `ms`, of whatever kinds, into a context whose ring of
the valid kind `k` is empty, that ring satisfies the invariant for the samples of
kind `k` among `ms`. -/
theorem ingest_all_ring_inv_kind (sqrt : α → α) (ctx : analytics_context_t α) (k : Nat)
    (hk : k < METRIC_COUNT) (h0 : ring_inv (ctx.history k) [])
    (ms : List (Nat × metric_data_t α)) :
    ring_inv ((ingest_all sqrt ctx ms).history k) (samples_of_kind k ms) := by
  induction ms using List.reverseRecOn with
  | nil => exact h0
  | append_singleton ms m ih =>
    rw [ingest_all_append, samples_of_kind_append]
    by_cases hm : m.2.type = k
    · rw [if_pos hm]
      subst hm
      exact process_metric_ring_inv sqrt m.1 _ m.2 hk _ ih
    · rw [if_neg hm, List.append_nil,
        process_metric_history_other sqrt m.1 _ m.2 k (fun h => hm h.symm)]
      exact ih

theorem ingest_all_ml_model (sqrt : α → α) (ms : List (Nat × metric_data_t α))
    (ctx : analytics_context_t α) : (ingest_all sqrt ctx ms).ml_model = ctx.ml_model := by
  induction ms generalizing ctx with
  | nil => rfl
  | cons m ms ih => rw [ingest_all_cons, ih, process_metric_ml_model]

/-- The prediction loop accumulates the weighted slot values onto the bias. -/
theorem predict_fold_eq (ctx : analytics_context_t α) (h : metric_history_t α) (b : α)
    (n : Nat) :
    (List.range n).foldl (predict_step ctx h) b
      = b + ∑ i in Finset.range n,
          ctx.ml_model.weights i * (h.data ((h.head + 1000 - 1 - i) % 1000)).value := by
  induction n with
  | zero => simp
  | succ n ih =>
    rw [List.range_succ, List.foldl_append, ih, Finset.sum_range_succ]
    simp only [List.foldl_cons, List.foldl_nil, predict_step]
    ring

/-- On a ring that holds the samples `l`, ten of them or more, the prediction is the
bias plus the weighted sum of the ten most recent values of `l`, most recent first. -/
theorem predict_ml_of_ring_inv (ctx : analytics_context_t α) (metric : metric_data_t α)
    (l : List (metric_data_t α)) (hinv : ring_inv (ctx.history metric.type) l)
    (hinit : ctx.ml_model.initialized = true) (hc : (ctx.history metric.type).count ≥ 10) :
    analytics_predict_ml ctx metric
      = ctx.ml_model.bias + ∑ i in Finset.range 10,
          ctx.ml_model.weights i * (l.getD (l.length - 1 - i) metric_data_zero).value := by
  obtain ⟨hh, hcount, _, hd⟩ := hinv
  have hN : 10 ≤ l.length := by omega
  have hmin : MIN 10 (ctx.history metric.type).count = 10 := by
    rw [MIN_eq_min]; exact min_eq_left hc
  unfold analytics_predict_ml
  rw [hinit]
  simp only [Bool.not_true, Bool.false_eq_true, if_false]
  rw [if_neg (by omega), hmin, predict_fold_eq]
  congr 1
  apply Finset.sum_congr rfl
  intro i hi
  have hi10 : i < 10 := Finset.mem_range.mp hi
  have hget := hd (l.length - 1 - i) (by omega) (by omega)
  have hidx : ((ctx.history metric.type).head + 1000 - 1 - i) % 1000
      = (l.length - 1 - i) % 1000 := by
    rw [hh]; omega
  rw [hidx, List.getD_eq_getElem?_getD, hget]
  rfl

end Prediction

section ZScoreBound

variable {α : Type} [LinearOrderedField α]

/-- The squared deviation of the last of `m + 1` reals from their mean is at most `m`
times the mean of all the squared deviations. -/
theorem last_deviation_sq_le (x : Nat → ℝ) (m : Nat) (mu : ℝ)
    (hmu : mu = (∑ i in Finset.range (m + 1), x i) / ((m + 1 : Nat) : ℝ)) :
    (x m - mu) ^ 2
      ≤ (m : ℝ) * ((∑ i in Finset.range (m + 1), (x i - mu) ^ 2) / ((m + 1 : Nat) : ℝ)) := by
  have hm1 : (0 : ℝ) < ((m + 1 : Nat) : ℝ) := by exact_mod_cast Nat.succ_pos m
  have hsum0 : ∑ i in Finset.range (m + 1), (x i - mu) = 0 := by
    rw [Finset.sum_sub_distrib, Finset.sum_const, Finset.card_range, nsmul_eq_mul, hmu]
    field_simp
  rw [Finset.sum_range_succ] at hsum0
  have hd : x m - mu = - ∑ i in Finset.range m, (x i - mu) := by linarith
  have hcs : (∑ i in Finset.range m, (x i - mu)) ^ 2
      ≤ (m : ℝ) * ∑ i in Finset.range m, (x i - mu) ^ 2 := by
    have h := sq_sum_le_card_mul_sum_sq (s := Finset.range m) (f := fun i => x i - mu)
    simpa using h
  have hsq : (x m - mu) ^ 2 ≤ (m : ℝ) * ∑ i in Finset.range m, (x i - mu) ^ 2 := by
    rw [hd, neg_sq]; exact hcs
  rw [Finset.sum_range_succ, mul_div_assoc', le_div_iff₀ hm1]
  push_cast
  nlinarith [hsq]

/-- Samuelson's bound on the z-score that `analytics_calculate_stats` returns for the
last sample of a window of `n >= 1` reals. -/
theorem calculate_stats_z_score_sq_le (data : Nat → metric_data_t ℝ) (n : Nat) (hn : 1 ≤ n) :
    (analytics_calculate_stats Real.sqrt data (n : Int)).z_score ^ 2 ≤ (n : ℝ) - 1 := by
  obtain ⟨hmean, hvar, hstd, _, _, hz, _⟩ := calculate_stats_fields Real.sqrt data n hn
  obtain ⟨m, rfl⟩ : ∃ m, n = m + 1 := ⟨n - 1, by omega⟩
  have hm : ((m + 1 : Nat) : ℝ) - 1 = (m : ℝ) := by push_cast; ring
  rw [hm, hz]
  unfold analytics_calculate_z_score
  split
  · simp
  · rename_i hs
    have hspos : 0 < (analytics_calculate_stats Real.sqrt data ((m + 1 : Nat) : Int)).std_dev :=
      not_le.mp hs
    rw [hstd] at hspos
    have hvpos : 0 < (analytics_calculate_stats Real.sqrt data ((m + 1 : Nat) : Int)).variance :=
      Real.sqrt_pos.mp hspos
    have hbound := last_deviation_sq_le (fun i => (data i).value) m
      (analytics_calculate_stats Real.sqrt data ((m + 1 : Nat) : Int)).mean hmean
    rw [← hvar] at hbound
    rw [div_pow, hstd, Real.sq_sqrt (le_of_lt hvpos), Nat.add_sub_cancel, div_le_iff₀ hvpos]
    exact hbound

end ZScoreBound

section Correlation

variable {α : Type} [LinearOrderedField α]

theorem trend_devs_succ (data : Nat → metric_data_t α) (mean_x mean_y : α) (n : Nat) :
    trend_devs data mean_x mean_y (n + 1)
      = trend_dev_step data mean_x mean_y (trend_devs data mean_x mean_y n) n := by
  unfold trend_devs
  rw [List.range_succ, List.foldl_append]
  rfl

/-- The second loop of `analytics_calculate_trend` as three sums of deviations. -/
theorem trend_devs_eq (data : Nat → metric_data_t α) (mean_x mean_y : α) (n : Nat) :
    trend_devs data mean_x mean_y n
      = (∑ i in Finset.range n, ((i : α) - mean_x) ^ 2,
         ∑ i in Finset.range n, ((data i).value - mean_y) ^ 2,
         ∑ i in Finset.range n, ((i : α) - mean_x) * ((data i).value - mean_y)) := by
  induction n with
  | zero => rfl
  | succ n ih =>
    rw [trend_devs_succ, ih]
    simp only [trend_dev_step, Finset.sum_range_succ, sq]

/-- The correlation field of `analytics_calculate_trend` on a window of `n >= 2`
samples, in terms of the sums of deviations from the two means. -/
theorem calculate_trend_correlation (sqrt : α → α) (data : Nat → metric_data_t α) (n : Nat)
    (hn : 2 ≤ n) :
    (analytics_calculate_trend sqrt data (n : Int)).correlation
      = if (∑ i in Finset.range n,
              ((i : α) - (∑ i in Finset.range n, (i : α)) / (n : α)) ^ 2) > 0
            ∧ (∑ i in Finset.range n,
              ((data i).value - (∑ i in Finset.range n, (data i).value) / (n : α)) ^ 2) > 0
        then (∑ i in Finset.range n,
                ((i : α) - (∑ i in Finset.range n, (i : α)) / (n : α))
                  * ((data i).value - (∑ i in Finset.range n, (data i).value) / (n : α)))
              / sqrt ((∑ i in Finset.range n,
                    ((i : α) - (∑ i in Finset.range n, (i : α)) / (n : α)) ^ 2)
                  * (∑ i in Finset.range n,
                    ((data i).value - (∑ i in Finset.range n, (data i).value) / (n : α)) ^ 2))
        else 0 := by
  have hpos : ¬ ((n : Int) ≤ 1) := by omega
  unfold analytics_calculate_trend
  simp only [if_neg hpos, Int.toNat_ofNat, Int.cast_natCast, trend_sums_eq, trend_devs_eq]

/-- A quotient by the real square root of a product that dominates the square of the
numerator lies between -1 and 1. -/
theorem abs_div_sqrt_le_one (a b : ℝ) (hb : 0 < b) (h : a ^ 2 ≤ b) :
    |a / Real.sqrt b| ≤ 1 := by
  have hs : 0 < Real.sqrt b := Real.sqrt_pos.mpr hb
  rw [abs_div, abs_of_pos hs, div_le_one hs]
  exact Real.abs_le_sqrt h

/-- The trend of a window whose values all equal `c`: the spread of the values is 0
and the regression numerator vanishes. -/
theorem calculate_trend_constant_window (sqrt : α → α) (data : Nat → metric_data_t α)
    (n : Nat) (hn : 2 ≤ n) (c : α) (hc : ∀ i, i < n → (data i).value = c) :
    (analytics_calculate_trend sqrt data (n : Int)).correlation = 0
    ∧ (analytics_calculate_trend sqrt data (n : Int)).slope = 0
    ∧ (analytics_calculate_trend sqrt data (n : Int)).is_stable = true := by
  have hn0 : (n : α) ≠ 0 := by
    have : (0 : α) < (n : α) := by exact_mod_cast (by omega : 0 < n)
    exact ne_of_gt this
  have hsum : (∑ i in Finset.range n, (data i).value) = (n : α) * c := by
    rw [Finset.sum_congr rfl (fun i hi => hc i (Finset.mem_range.mp hi))]
    simp
  have hsumxy : (∑ i in Finset.range n, (i : α) * (data i).value)
      = (∑ i in Finset.range n, (i : α)) * c := by
    rw [Finset.sum_mul]
    exact Finset.sum_congr rfl (fun i hi => by rw [hc i (Finset.mem_range.mp hi)])
  obtain ⟨hs, _, _, _, hst⟩ := calculate_trend_fields sqrt data n hn
  have hslope : (analytics_calculate_trend sqrt data (n : Int)).slope = 0 := by
    rw [hs, hsum, hsumxy]
    have : (n : α) * ((∑ i in Finset.range n, (i : α)) * c)
        - (∑ i in Finset.range n, (i : α)) * ((n : α) * c) = 0 := by ring
    rw [this, zero_div]
  refine ⟨?_, hslope, ?_⟩
  · rw [calculate_trend_correlation sqrt data n hn, hsum]
    have hy : (∑ i in Finset.range n, ((data i).value - (n : α) * c / (n : α)) ^ 2) = 0 := by
      apply Finset.sum_eq_zero
      intro i hi
      rw [hc i (Finset.mem_range.mp hi), mul_div_cancel_left₀ c hn0]
      simp
    rw [hy]
    simp
  · rw [hst, hslope]
    simp
    norm_num

end Correlation

section WindowOrder

variable {α : Type} [LinearOrderedField α]

end WindowOrder

section DoubleArithmetic

end DoubleArithmetic

section Claims

variable {α : Type} [LinearOrderedField α]

/-- C1: after any sequence `ms` of ingestions of one valid kind `k` into a freshly
initialised context, the history of `k` has `count = min N 1000` for `N` the number
of ingestions, and reading `count` slots from index `tail`, advancing modulo 1000,
yields the last `min N 1000` ingested samples in arrival order; for `N = 1001` that
is every sample but the first. -/
theorem history_ring_fifo (sqrt : α → α) (weights : Nat → α)
    (config_file : Option (Option (Option (config_json α)))) (k : Nat)
    (hk : k < METRIC_COUNT) (ms : List (Nat × metric_data_t α))
    (hms : ∀ m ∈ ms, m.2.type = k) :
    ((ingest_all sqrt (analytics_init weights config_file) ms).history k).count
        = min ms.length 1000
    ∧ (List.range ((ingest_all sqrt (analytics_init weights config_file) ms).history k).count).map
        (fun i => ((ingest_all sqrt (analytics_init weights config_file) ms).history k).data
          ((((ingest_all sqrt (analytics_init weights config_file) ms).history k).tail + i)
            % 1000))
        = (ms.map Prod.snd).drop (ms.length - min ms.length 1000)
    ∧ (ms.length = 1001 →
        (List.range ((ingest_all sqrt (analytics_init weights config_file) ms).history k).count).map
          (fun i => ((ingest_all sqrt (analytics_init weights config_file) ms).history k).data
            ((((ingest_all sqrt (analytics_init weights config_file) ms).history k).tail + i)
              % 1000))
          = (ms.map Prod.snd).tail) := by
  have hinv := ingest_all_ring_inv sqrt (analytics_init weights config_file) k hk
    (by rw [analytics_init_history]; exact ring_inv_zero) ms hms
  have hread := ring_inv_read _ _ hinv
  have hlen : ms.length - min ms.length 1000 = ms.length - 1000 := by omega
  refine ⟨by simpa using hinv.2.1, ?_, ?_⟩
  · rw [hread, hlen]; simp
  · intro h1001
    rw [hread]
    simp [h1001]

theorem history_ring_fifo_witness :
    METRIC_THROUGHPUT < METRIC_COUNT
    ∧ (∀ m ∈ sample_stream 1001, m.2.type = METRIC_THROUGHPUT)
    ∧ ((ingest_all (fun x : ℚ => |x|) (analytics_init (fun _ => 0) none)
          (sample_stream 1001)).history METRIC_THROUGHPUT).count = 1000
    ∧ (List.range ((ingest_all (fun x : ℚ => |x|) (analytics_init (fun _ => 0) none)
          (sample_stream 1001)).history METRIC_THROUGHPUT).count).map
        (fun i => ((ingest_all (fun x : ℚ => |x|) (analytics_init (fun _ => 0) none)
            (sample_stream 1001)).history METRIC_THROUGHPUT).data
          ((((ingest_all (fun x : ℚ => |x|) (analytics_init (fun _ => 0) none)
            (sample_stream 1001)).history METRIC_THROUGHPUT).tail + i) % 1000))
        = ((sample_stream 1001).map Prod.snd).tail :=
  have hk : METRIC_THROUGHPUT < METRIC_COUNT := by decide
  have hms : ∀ m ∈ sample_stream 1001, m.2.type = METRIC_THROUGHPUT := by
    intro m hm
    simp only [sample_stream, List.mem_map] at hm
    obtain ⟨i, _, rfl⟩ := hm
    rfl
  have hlen : (sample_stream 1001).length = 1001 := by simp [sample_stream]
  have h := history_ring_fifo (fun x : ℚ => |x|) (fun _ => 0) none METRIC_THROUGHPUT hk
    (sample_stream 1001) hms
  ⟨hk, hms, by rw [h.1, hlen]; rfl, h.2.2 hlen⟩

/-- C2: on a window of `n >= 1` real samples `analytics_calculate_stats` returns
`mean = (sum of values) / n`, `variance = (sum of squared deviations from the
mean) / n`, `std_dev = sqrt variance`, `min` the least and `max` the greatest value of
the window; for the values 1..10 that is mean 5.5, min 1, max 10 and a standard
deviation within 0.1 of 2.87. -/
theorem calculate_stats_window (data : Nat → metric_data_t ℝ) (n : Nat) (hn : 1 ≤ n) :
    (analytics_calculate_stats Real.sqrt data (n : Int)).mean
        = (∑ i in Finset.range n, (data i).value) / (n : ℝ)
    ∧ (analytics_calculate_stats Real.sqrt data (n : Int)).variance
        = (∑ i in Finset.range n,
            ((data i).value - (∑ j in Finset.range n, (data j).value) / (n : ℝ)) ^ 2) / (n : ℝ)
    ∧ (analytics_calculate_stats Real.sqrt data (n : Int)).std_dev
        = Real.sqrt (analytics_calculate_stats Real.sqrt data (n : Int)).variance
    ∧ (∃ i, i < n ∧ (analytics_calculate_stats Real.sqrt data (n : Int)).min = (data i).value)
    ∧ (∀ i, i < n → (analytics_calculate_stats Real.sqrt data (n : Int)).min ≤ (data i).value)
    ∧ (∃ i, i < n ∧ (analytics_calculate_stats Real.sqrt data (n : Int)).max = (data i).value)
    ∧ (∀ i, i < n → (data i).value ≤ (analytics_calculate_stats Real.sqrt data (n : Int)).max)
    ∧ (n = 10 → (∀ i, i < 10 → (data i).value = (i : ℝ) + 1) →
        (analytics_calculate_stats Real.sqrt data (n : Int)).mean = 5.5
        ∧ (analytics_calculate_stats Real.sqrt data (n : Int)).min = 1.0
        ∧ (analytics_calculate_stats Real.sqrt data (n : Int)).max = 10.0
        ∧ |(analytics_calculate_stats Real.sqrt data (n : Int)).std_dev - 2.87| < 0.1) := by
  obtain ⟨hmean, hvar, hsd, hmin, hmax, _, _⟩ := calculate_stats_fields Real.sqrt data n hn
  have hn1 : max n 1 = n := by omega
  have hmn := stats_loop_min data (analytics_calculate_stats Real.sqrt data (n : Int)).mean n
  have hmx := stats_loop_max data (analytics_calculate_stats Real.sqrt data (n : Int)).mean n
  rw [hn1, ← hmin] at hmn
  rw [hn1, ← hmax] at hmx
  have hvar2 := hvar
  rw [hmean] at hvar2
  refine ⟨hmean, hvar2, hsd, hmn.1, hmn.2, hmx.1, hmx.2, ?_⟩
  intro h10 hval
  subst h10
  have hsum : (∑ i in Finset.range 10, (data i).value) = 55 := by
    rw [Finset.sum_congr rfl (fun i hi => hval i (Finset.mem_range.mp hi))]
    simp [Finset.sum_range_succ]
    norm_num
  have hm : (analytics_calculate_stats Real.sqrt data ((10 : Nat) : Int)).mean = 5.5 := by
    rw [hmean, hsum]; norm_num
  have hv : (analytics_calculate_stats Real.sqrt data ((10 : Nat) : Int)).variance = 8.25 := by
    rw [hvar2, hsum]
    rw [Finset.sum_congr rfl (fun i hi => by rw [hval i (Finset.mem_range.mp hi)])]
    simp [Finset.sum_range_succ]
    norm_num
  refine ⟨hm, ?_, ?_, ?_⟩
  · obtain ⟨i, hi, hie⟩ := hmn.1
    apply le_antisymm
    · have := hmn.2 0 (by norm_num)
      rw [hval 0 (by norm_num)] at this
      norm_num at this ⊢
      exact this
    · rw [hie, hval i hi]
      have : (0 : ℝ) ≤ (i : ℝ) := Nat.cast_nonneg i
      norm_num
  · obtain ⟨i, hi, hie⟩ := hmx.1
    apply le_antisymm
    · rw [hie, hval i hi]
      have : (i : ℝ) ≤ 9 := by exact_mod_cast Nat.le_of_lt_succ hi
      norm_num
      linarith
    · have := hmx.2 9 (by norm_num)
      rw [hval 9 (by norm_num)] at this
      norm_num at this ⊢
      exact this
  · rw [hsd, hv, abs_lt]
    constructor
    · have : (2.77 : ℝ) < Real.sqrt 8.25 := by
        rw [Real.lt_sqrt (by norm_num)]; norm_num
      linarith
    · have : Real.sqrt 8.25 < (2.97 : ℝ) := by
        rw [Real.sqrt_lt' (by norm_num)]; norm_num
      linarith

theorem calculate_stats_window_witness :
    (1 ≤ 10)
    ∧ (analytics_calculate_stats Real.sqrt
        (fun i => (⟨0, (i : ℝ) + 1, 0, 0, 0⟩ : metric_data_t ℝ)) ((10 : Nat) : Int)).mean = 5.5 :=
  ⟨by decide,
    ((calculate_stats_window (fun i => (⟨0, (i : ℝ) + 1, 0, 0, 0⟩ : metric_data_t ℝ)) 10
      (by decide)).2.2.2.2.2.2.2 rfl (fun _ _ => rfl)).1⟩

/-- C3: on a window of `n >= 2` samples whose `i`-th value is `a * i + b`,
`analytics_calculate_trend` returns slope `a` and intercept `b`, so `is_increasing`
holds exactly when `a > 0.1` and `is_decreasing` exactly when `a < -0.1`; for
`value = 2 * i` over 10 points the slope exceeds 1, `is_increasing` is true and
`is_decreasing` is false. -/
theorem calculate_trend_linear (sqrt : α → α) (data : Nat → metric_data_t α) (n : Nat)
    (a b : α) (hn : 2 ≤ n) (hlin : ∀ i, i < n → (data i).value = a * (i : α) + b) :
    (analytics_calculate_trend sqrt data (n : Int)).slope = a
    ∧ (analytics_calculate_trend sqrt data (n : Int)).intercept = b
    ∧ ((analytics_calculate_trend sqrt data (n : Int)).is_increasing = true ↔ a > 0.1)
    ∧ ((analytics_calculate_trend sqrt data (n : Int)).is_decreasing = true ↔ a < -0.1)
    ∧ (n = 10 → a = 2.0 → b = 0 →
        (analytics_calculate_trend sqrt data (n : Int)).slope > 1.0
        ∧ (analytics_calculate_trend sqrt data (n : Int)).is_increasing = true
        ∧ (analytics_calculate_trend sqrt data (n : Int)).is_decreasing = false) := by
  obtain ⟨hs, hi, hinc, hdec, _⟩ := calculate_trend_fields sqrt data n hn
  have hD := trend_denominator_pos (α := α) n hn
  have hn0 : (n : α) ≠ 0 := by
    have : (2 : α) ≤ (n : α) := by exact_mod_cast hn
    intro h0; rw [h0] at this; linarith
  have hy : (∑ i in Finset.range n, (data i).value)
      = a * (∑ i in Finset.range n, (i : α)) + (n : α) * b := by
    rw [Finset.sum_congr rfl (fun i hi => hlin i (Finset.mem_range.mp hi)),
      Finset.sum_add_distrib, ← Finset.mul_sum]
    simp
  have hxy : (∑ i in Finset.range n, (i : α) * (data i).value)
      = a * (∑ i in Finset.range n, (i : α) * (i : α)) + b * (∑ i in Finset.range n, (i : α)) := by
    rw [Finset.sum_congr rfl
      (fun i hi => by rw [hlin i (Finset.mem_range.mp hi)]), Finset.mul_sum, Finset.mul_sum,
      ← Finset.sum_add_distrib]
    apply Finset.sum_congr rfl
    intro i _
    ring
  have hslope : (analytics_calculate_trend sqrt data (n : Int)).slope = a := by
    rw [hs, hy, hxy, div_eq_iff (ne_of_gt hD)]
    ring
  have hint : (analytics_calculate_trend sqrt data (n : Int)).intercept = b := by
    rw [hi, hslope, hy, div_eq_iff hn0]
    ring
  have hinc2 : (analytics_calculate_trend sqrt data (n : Int)).is_increasing = true ↔ a > 0.1 := by
    rw [hinc, hslope]; simp
  have hdec2 : (analytics_calculate_trend sqrt data (n : Int)).is_decreasing = true ↔ a < -0.1 := by
    rw [hdec, hslope]; simp
  refine ⟨hslope, hint, hinc2, hdec2, ?_⟩
  intro _ ha _
  refine ⟨?_, ?_, ?_⟩
  · rw [hslope, ha]; norm_num
  · rw [hinc2, ha]; norm_num
  · have : ¬ ((analytics_calculate_trend sqrt data (n : Int)).is_decreasing = true) := by
      rw [hdec2, ha]; norm_num
    simpa using this

theorem calculate_trend_linear_witness :
    (2 ≤ 10)
    ∧ (∀ i, i < 10 →
        ((fun j => (⟨0, 2.0 * (j : ℚ) + 0, 0, 0, 0⟩ : metric_data_t ℚ)) i).value
          = 2.0 * (i : ℚ) + 0)
    ∧ (analytics_calculate_trend (fun x : ℚ => x)
        (fun j => (⟨0, 2.0 * (j : ℚ) + 0, 0, 0, 0⟩ : metric_data_t ℚ)) ((10 : Nat) : Int)).slope
        = 2.0 :=
  ⟨by decide, fun _ _ => rfl,
    (calculate_trend_linear (fun x : ℚ => x)
      (fun j => (⟨0, 2.0 * (j : ℚ) + 0, 0, 0, 0⟩ : metric_data_t ℚ)) 10 2.0 0 (by decide)
      (fun _ _ => rfl)).1⟩

/-- C4: for a sample of a valid kind with threshold entry `th`,
`analytics_threshold_detection` returns severity none when `th` is disabled;
otherwise critical, confidence 1.0, reference `th.critical_threshold` when
`value >= th.critical_threshold`; otherwise warning, 0.8, `th.warning_threshold` when
`value >= th.warning_threshold`; otherwise warning, 0.7, `th.min_value` when
`value <= th.min_value`; otherwise severity none.  `actual_value` is always the
sample's value. -/
theorem threshold_detection_rules (now : Nat) (ctx : analytics_context_t α)
    (metric : metric_data_t α) (hk : metric.type < METRIC_COUNT) :
    ((ctx.config.thresholds metric.type).enabled = false →
        (analytics_threshold_detection now ctx metric).severity = .ANOMALY_NONE)
    ∧ ((ctx.config.thresholds metric.type).enabled = true →
        metric.value ≥ (ctx.config.thresholds metric.type).critical_threshold →
        (analytics_threshold_detection now ctx metric).severity = .ANOMALY_CRITICAL
        ∧ (analytics_threshold_detection now ctx metric).confidence = 1.0
        ∧ (analytics_threshold_detection now ctx metric).threshold_value
            = (ctx.config.thresholds metric.type).critical_threshold)
    ∧ ((ctx.config.thresholds metric.type).enabled = true →
        ¬ metric.value ≥ (ctx.config.thresholds metric.type).critical_threshold →
        metric.value ≥ (ctx.config.thresholds metric.type).warning_threshold →
        (analytics_threshold_detection now ctx metric).severity = .ANOMALY_WARNING
        ∧ (analytics_threshold_detection now ctx metric).confidence = 0.8
        ∧ (analytics_threshold_detection now ctx metric).threshold_value
            = (ctx.config.thresholds metric.type).warning_threshold)
    ∧ ((ctx.config.thresholds metric.type).enabled = true →
        ¬ metric.value ≥ (ctx.config.thresholds metric.type).critical_threshold →
        ¬ metric.value ≥ (ctx.config.thresholds metric.type).warning_threshold →
        metric.value ≤ (ctx.config.thresholds metric.type).min_value →
        (analytics_threshold_detection now ctx metric).severity = .ANOMALY_WARNING
        ∧ (analytics_threshold_detection now ctx metric).confidence = 0.7
        ∧ (analytics_threshold_detection now ctx metric).threshold_value
            = (ctx.config.thresholds metric.type).min_value)
    ∧ ((ctx.config.thresholds metric.type).enabled = true →
        ¬ metric.value ≥ (ctx.config.thresholds metric.type).critical_threshold →
        ¬ metric.value ≥ (ctx.config.thresholds metric.type).warning_threshold →
        ¬ metric.value ≤ (ctx.config.thresholds metric.type).min_value →
        (analytics_threshold_detection now ctx metric).severity = .ANOMALY_NONE)
    ∧ (analytics_threshold_detection now ctx metric).actual_value = metric.value := by
  refine ⟨?_, ?_, ?_, ?_, ?_, ?_⟩
  · intro he
    simp [analytics_threshold_detection, he, anomaly_zero]
  · intro he hc
    simp [analytics_threshold_detection, he, hc]
  · intro he hc hw
    simp [analytics_threshold_detection, he, hc, hw]
  · intro he hc hw hm
    simp [analytics_threshold_detection, he, hc, hw, hm]
  · intro he hc hw hm
    simp [analytics_threshold_detection, he, hc, hw, hm, anomaly_zero]
  · unfold analytics_threshold_detection
    dsimp only
    split_ifs <;> rfl

theorem threshold_detection_rules_witness :
    (sample_throughput 200).type < METRIC_COUNT
    ∧ (sample_ctx.config.thresholds (sample_throughput 200).type).enabled = true
    ∧ (sample_throughput 200).value
        ≥ (sample_ctx.config.thresholds (sample_throughput 200).type).critical_threshold
    ∧ (analytics_threshold_detection 0 sample_ctx (sample_throughput 200)).severity
        = .ANOMALY_CRITICAL
    ∧ (analytics_threshold_detection 0 sample_ctx (sample_throughput 200)).confidence = 1.0 :=
  have he : (sample_ctx.config.thresholds (sample_throughput 200).type).enabled = true := rfl
  have hc : (sample_throughput 200).value
      ≥ (sample_ctx.config.thresholds (sample_throughput 200).type).critical_threshold := by
    simp [sample_ctx, sample_throughput, analytics_init, default_thresholds, METRIC_THROUGHPUT,
      METRIC_LATENCY, METRIC_PACKET_LOSS]
    norm_num
  have h := (threshold_detection_rules 0 sample_ctx (sample_throughput 200) (by decide)).2.1 he hc
  ⟨by decide, he, hc, h.1, h.2.1⟩

/-- C5: `analytics_statistical_detection` returns severity none when the kind's
history holds fewer than 10 samples or the stored outlier flag is clear; with 10 or
more samples and the flag set it returns critical when `|z_score| > 3.0` and warning
otherwise, with confidence `min (|z_score| / 3.0) 1.0`. -/
theorem statistical_detection_rules (now : Nat) (ctx : analytics_context_t α)
    (metric : metric_data_t α) :
    ((ctx.history metric.type).count < 10 →
        (analytics_statistical_detection now ctx metric).severity = .ANOMALY_NONE)
    ∧ ((ctx.history metric.type).last_stats.is_outlier = false →
        (analytics_statistical_detection now ctx metric).severity = .ANOMALY_NONE)
    ∧ ((ctx.history metric.type).count ≥ 10 →
        (ctx.history metric.type).last_stats.is_outlier = true →
        (|(ctx.history metric.type).last_stats.z_score| > 3.0 →
          (analytics_statistical_detection now ctx metric).severity = .ANOMALY_CRITICAL)
        ∧ (¬ |(ctx.history metric.type).last_stats.z_score| > 3.0 →
          (analytics_statistical_detection now ctx metric).severity = .ANOMALY_WARNING)
        ∧ (analytics_statistical_detection now ctx metric).confidence
            = min (|(ctx.history metric.type).last_stats.z_score| / 3.0) 1.0) := by
  refine ⟨?_, ?_, ?_⟩
  · intro hc
    simp [analytics_statistical_detection, hc, anomaly_zero]
  · intro ho
    unfold analytics_statistical_detection
    dsimp only
    split
    · rfl
    · simp [ho, anomaly_zero]
  · intro hc ho
    have hc2 : ¬ (ctx.history metric.type).count < 10 := Nat.not_lt.mpr hc
    refine ⟨?_, ?_, ?_⟩
    · intro hz
      simp [analytics_statistical_detection, hc2, ho, hz]
    · intro hz
      simp only [analytics_statistical_detection, if_neg hc2, ho, if_true, if_neg hz]
    · simp only [analytics_statistical_detection, if_neg hc2, ho, if_true, MIN_eq_min]

theorem statistical_detection_rules_witness :
    (sample_ctx_outlier.history (sample_throughput 60).type).count ≥ 10
    ∧ (sample_ctx_outlier.history (sample_throughput 60).type).last_stats.is_outlier = true
    ∧ |(sample_ctx_outlier.history (sample_throughput 60).type).last_stats.z_score| > 3.0
    ∧ (analytics_statistical_detection 0 sample_ctx_outlier (sample_throughput 60)).severity
        = .ANOMALY_CRITICAL :=
  have hc : (sample_ctx_outlier.history (sample_throughput 60).type).count ≥ 10 := by decide
  have ho : (sample_ctx_outlier.history (sample_throughput 60).type).last_stats.is_outlier
      = true := rfl
  have hz : |(sample_ctx_outlier.history (sample_throughput 60).type).last_stats.z_score|
      > 3.0 := by
    simp [sample_ctx_outlier, history_zero, stats_zero]
    norm_num
  ⟨hc, ho, hz,
    ((statistical_detection_rules 0 sample_ctx_outlier (sample_throughput 60)).2.2 hc ho).1 hz⟩

/-- C6: `analytics_detect_anomaly` returns the threshold stage's result when its
severity is not none; otherwise the statistical stage's result when its severity is
not none; otherwise, when `enable_ml_detection` is set, the model stage's result when
its severity is not none; otherwise the none result carrying the sample's kind.  With
`enable_ml_detection` clear the result is settled without the model stage. -/
theorem detect_anomaly_cascade (now : Nat) (ctx : analytics_context_t α)
    (metric : metric_data_t α) :
    ((analytics_threshold_detection now ctx metric).severity ≠ .ANOMALY_NONE →
        analytics_detect_anomaly now ctx metric = analytics_threshold_detection now ctx metric)
    ∧ ((analytics_threshold_detection now ctx metric).severity = .ANOMALY_NONE →
        (analytics_statistical_detection now ctx metric).severity ≠ .ANOMALY_NONE →
        analytics_detect_anomaly now ctx metric
          = analytics_statistical_detection now ctx metric)
    ∧ ((analytics_threshold_detection now ctx metric).severity = .ANOMALY_NONE →
        (analytics_statistical_detection now ctx metric).severity = .ANOMALY_NONE →
        ctx.config.enable_ml_detection = true →
        (analytics_ml_detection now ctx metric).severity ≠ .ANOMALY_NONE →
        analytics_detect_anomaly now ctx metric = analytics_ml_detection now ctx metric)
    ∧ ((analytics_threshold_detection now ctx metric).severity = .ANOMALY_NONE →
        (analytics_statistical_detection now ctx metric).severity = .ANOMALY_NONE →
        ctx.config.enable_ml_detection = true →
        (analytics_ml_detection now ctx metric).severity = .ANOMALY_NONE →
        analytics_detect_anomaly now ctx metric
          = { metric_type := metric.type, severity := .ANOMALY_NONE, threshold_value := 0,
              actual_value := 0, confidence := 0, detected_at := now })
    ∧ ((analytics_threshold_detection now ctx metric).severity = .ANOMALY_NONE →
        (analytics_statistical_detection now ctx metric).severity = .ANOMALY_NONE →
        ctx.config.enable_ml_detection = false →
        analytics_detect_anomaly now ctx metric
          = { metric_type := metric.type, severity := .ANOMALY_NONE, threshold_value := 0,
              actual_value := 0, confidence := 0, detected_at := now }) := by
  refine ⟨?_, ?_, ?_, ?_, ?_⟩
  · intro ht
    unfold analytics_detect_anomaly
    dsimp only
    rw [if_pos ((severity_toNat_pos _).mpr ht)]
  · intro ht hs
    unfold analytics_detect_anomaly
    dsimp only
    rw [if_neg (by rw [severity_toNat_pos]; exact not_not.mpr ht),
      if_pos ((severity_toNat_pos _).mpr hs)]
  · intro ht hs he hm
    unfold analytics_detect_anomaly
    dsimp only
    rw [if_neg (by rw [severity_toNat_pos]; exact not_not.mpr ht),
      if_neg (by rw [severity_toNat_pos]; exact not_not.mpr hs), if_pos he,
      if_pos ((severity_toNat_pos _).mpr hm)]
  · intro ht hs he hm
    unfold analytics_detect_anomaly
    dsimp only
    rw [if_neg (by rw [severity_toNat_pos]; exact not_not.mpr ht),
      if_neg (by rw [severity_toNat_pos]; exact not_not.mpr hs), if_pos he,
      if_neg (by rw [severity_toNat_pos]; exact not_not.mpr hm)]
    rfl
  · intro ht hs he
    unfold analytics_detect_anomaly
    dsimp only
    rw [if_neg (by rw [severity_toNat_pos]; exact not_not.mpr ht),
      if_neg (by rw [severity_toNat_pos]; exact not_not.mpr hs),
      if_neg (by rw [he]; exact Bool.false_ne_true)]
    rfl

theorem detect_anomaly_cascade_witness :
    (analytics_threshold_detection 0 sample_ctx (sample_throughput 200)).severity
        ≠ .ANOMALY_NONE
    ∧ analytics_detect_anomaly 0 sample_ctx (sample_throughput 200)
        = analytics_threshold_detection 0 sample_ctx (sample_throughput 200) :=
  have hs : (analytics_threshold_detection 0 sample_ctx (sample_throughput 200)).severity
      ≠ .ANOMALY_NONE := by
    rw [sample_threshold_critical]
    decide
  ⟨hs, (detect_anomaly_cascade 0 sample_ctx (sample_throughput 200)).1 hs⟩

/-- C7: with the residual `e = |value - analytics_predict_ml|` and the bound
`T = 2 * stored std_dev`, `analytics_ml_detection` returns severity none when the
kind's history holds fewer than 20 samples or `e <= T`; warning when the count is at
least 20 and `T < e <= 1.5 * T`; critical when the count is at least 20 and
`e > 1.5 * T`; and when it fires the reference value is the prediction and the
confidence is `min (e / (2 * T)) 1`, where for `T = 0` the quotient of the positive
`e` by zero is `+inf` and the minimum is `1`. -/
theorem ml_detection_rules (now : Nat) (ctx : analytics_context_t α)
    (metric : metric_data_t α) (e T : α)
    (he : e = |metric.value - analytics_predict_ml ctx metric|)
    (hT : T = 2 * (ctx.history metric.type).last_stats.std_dev) :
    ((ctx.history metric.type).count < 20 →
        (analytics_ml_detection now ctx metric).severity = .ANOMALY_NONE)
    ∧ (e ≤ T → (analytics_ml_detection now ctx metric).severity = .ANOMALY_NONE)
    ∧ ((ctx.history metric.type).count ≥ 20 → T < e → e ≤ 1.5 * T →
        (analytics_ml_detection now ctx metric).severity = .ANOMALY_WARNING)
    ∧ ((ctx.history metric.type).count ≥ 20 → e > 1.5 * T →
        (analytics_ml_detection now ctx metric).severity = .ANOMALY_CRITICAL)
    ∧ ((ctx.history metric.type).count ≥ 20 → T < e →
        (analytics_ml_detection now ctx metric).severity ≠ .ANOMALY_NONE
        ∧ (analytics_ml_detection now ctx metric).threshold_value
            = analytics_predict_ml ctx metric
        ∧ (T ≠ 0 → (analytics_ml_detection now ctx metric).confidence
            = min (e / (2 * T)) 1.0)
        ∧ (T = 0 → (analytics_ml_detection now ctx metric).confidence = 1.0)) := by
  have hT2 : (ctx.history metric.type).last_stats.std_dev * 2.0 = T := by
    rw [hT]; norm_num; ring
  have h15 : T * 1.5 = 1.5 * T := mul_comm _ _
  have h2 : T * 2.0 = 2 * T := by norm_num; ring
  refine ⟨?_, ?_, ?_, ?_, ?_⟩
  · intro hc
    simp [analytics_ml_detection, hc, anomaly_zero]
  · intro hle
    unfold analytics_ml_detection
    dsimp only
    split
    · rfl
    · rw [hT2, ← he, if_neg (not_lt.mpr hle)]
      rfl
  · intro hc hlo hhi
    simp only [analytics_ml_detection, if_neg (Nat.not_lt.mpr hc), gt_iff_lt, hT2, ← he,
      if_pos hlo, h15, if_neg (not_lt.mpr hhi)]
  · intro hc hhi
    have hlo : T < e := by
      have habs : 0 ≤ e := by rw [he]; exact abs_nonneg _
      rcases le_or_lt 0 T with h0 | h0
      · have : T ≤ 1.5 * T := by
          have : (1 : α) ≤ 1.5 := by norm_num
          nlinarith
        exact lt_of_le_of_lt this hhi
      · exact lt_of_lt_of_le h0 habs
    simp only [analytics_ml_detection, if_neg (Nat.not_lt.mpr hc), gt_iff_lt, hT2, ← he,
      if_pos hlo, h15, if_pos (gt_iff_lt.mp hhi)]
  · intro hc hlo
    refine ⟨?_, ?_, ?_⟩
    · simp only [analytics_ml_detection, if_neg (Nat.not_lt.mpr hc), gt_iff_lt, hT2, ← he,
        if_pos hlo]
      split <;> simp
    · simp only [analytics_ml_detection, if_neg (Nat.not_lt.mpr hc), gt_iff_lt, hT2, ← he,
        if_pos hlo]
    · have hconf : (analytics_ml_detection now ctx metric).confidence
          = if T * 2.0 = 0 then 1.0 else MIN (e / (T * 2.0)) 1.0 := by
        simp only [analytics_ml_detection, if_neg (Nat.not_lt.mpr hc), gt_iff_lt, hT2, ← he,
          if_pos hlo]
      have h20 : T * 2.0 = 0 ↔ T = 0 := by
        rw [h2]; constructor
        · intro h; linarith
        · intro h; rw [h]; ring
      refine ⟨?_, ?_⟩
      · intro hne
        rw [hconf, if_neg (fun h => hne (h20.mp h)), MIN_eq_min, h2]
      · intro h0
        rw [hconf, if_pos (h20.mpr h0)]

theorem ml_detection_rules_witness :
    (sample_ctx_outlier.history (sample_throughput 10).type).count ≥ 20
    ∧ |(sample_throughput 10).value - analytics_predict_ml sample_ctx_outlier (sample_throughput 10)|
        > 1.5 * (2 * (sample_ctx_outlier.history (sample_throughput 10).type).last_stats.std_dev)
    ∧ (analytics_ml_detection 0 sample_ctx_outlier (sample_throughput 10)).severity
        = .ANOMALY_CRITICAL
    ∧ 2 * (sample_ctx_flat.history (sample_throughput 10).type).last_stats.std_dev = 0
    ∧ (analytics_ml_detection 0 sample_ctx_flat (sample_throughput 10)).confidence = 1.0 :=
  have hc : (sample_ctx_outlier.history (sample_throughput 10).type).count ≥ 20 := by decide
  have he : |(sample_throughput 10).value
        - analytics_predict_ml sample_ctx_outlier (sample_throughput 10)|
      > 1.5 * (2 * (sample_ctx_outlier.history (sample_throughput 10).type).last_stats.std_dev) := by
    rw [sample_predict]
    simp [sample_ctx_outlier, sample_throughput, history_zero, stats_zero]
    norm_num
  have hc0 : (sample_ctx_flat.history (sample_throughput 10).type).count ≥ 20 := by decide
  have hT0 : 2 * (sample_ctx_flat.history (sample_throughput 10).type).last_stats.std_dev = 0 := by
    simp [sample_ctx_flat, history_zero, stats_zero]
  have he0 : 2 * (sample_ctx_flat.history (sample_throughput 10).type).last_stats.std_dev
      < |(sample_throughput 10).value
        - analytics_predict_ml sample_ctx_flat (sample_throughput 10)| := by
    rw [hT0, sample_predict_flat]
    simp [sample_throughput]
  ⟨hc, he,
    (ml_detection_rules 0 sample_ctx_outlier (sample_throughput 10) _ _ rfl rfl).2.2.2.1 hc he,
    hT0,
    ((ml_detection_rules 0 sample_ctx_flat (sample_throughput 10) _ _ rfl rfl).2.2.2.2
      hc0 he0).2.2.2 hT0⟩

/-- C8: `analytics_predict_ml` returns the sample's own value when the model is not
initialised or the kind's history holds fewer than 10 samples; in every state reached
from `analytics_init` by ingestions the model is not initialised and no stored
standard deviation is negative, `analytics_ml_detection` returns severity none for
every sample, and the cascade never returns a finding of the model stage. -/
theorem ml_stage_never_fires (sqrt : α → α) (hsqrt : ∀ x, 0 ≤ sqrt x)
    (ctx : analytics_context_t α) (weights : Nat → α)
    (config_file : Option (Option (Option (config_json α))))
    (ms : List (Nat × metric_data_t α)) (now : Nat) (metric : metric_data_t α) :
    (ctx.ml_model.initialized = false ∨ (ctx.history metric.type).count < 10 →
        analytics_predict_ml ctx metric = metric.value)
    ∧ (ingest_all sqrt (analytics_init weights config_file) ms).ml_model.initialized = false
    ∧ (∀ k, 0 ≤ ((ingest_all sqrt (analytics_init weights config_file) ms).history
          k).last_stats.std_dev)
    ∧ (analytics_ml_detection now (ingest_all sqrt (analytics_init weights config_file) ms)
          metric).severity = .ANOMALY_NONE
    ∧ ((analytics_threshold_detection now
            (ingest_all sqrt (analytics_init weights config_file) ms) metric).severity
          = .ANOMALY_NONE →
        (analytics_statistical_detection now
            (ingest_all sqrt (analytics_init weights config_file) ms) metric).severity
          = .ANOMALY_NONE →
        (analytics_detect_anomaly now
            (ingest_all sqrt (analytics_init weights config_file) ms) metric).severity
          = .ANOMALY_NONE) := by
  obtain ⟨hinit, hsd⟩ := ingest_all_ml_inv sqrt hsqrt weights config_file ms
  have hml := ml_detection_none_of_uninitialized now
    (ingest_all sqrt (analytics_init weights config_file) ms) metric hinit (hsd _)
  refine ⟨?_, hinit, hsd, hml, ?_⟩
  · rintro (h | h)
    · exact predict_ml_uninitialized ctx metric h
    · exact predict_ml_short_history ctx metric h
  · intro ht hs
    unfold analytics_detect_anomaly
    dsimp only
    rw [if_neg (by rw [severity_toNat_pos]; exact not_not.mpr ht),
      if_neg (by rw [severity_toNat_pos]; exact not_not.mpr hs)]
    split
    · rw [if_neg (by rw [severity_toNat_pos]; exact not_not.mpr hml)]
      rfl
    · rfl

theorem ml_stage_never_fires_witness :
    (∀ x : ℚ, 0 ≤ |x|)
    ∧ (analytics_ml_detection 0
        (ingest_all (fun x : ℚ => |x|) (analytics_init (fun _ => 0) none)
          [(0, sample_throughput 60), (1, sample_throughput 70)])
        (sample_throughput 500)).severity = .ANOMALY_NONE :=
  ⟨fun x => abs_nonneg x,
    (ml_stage_never_fires (fun x : ℚ => |x|) (fun x => abs_nonneg x) sample_ctx (fun _ => 0) none
      [(0, sample_throughput 60), (1, sample_throughput 70)] 0 (sample_throughput 500)).2.2.2.1⟩

/-- C9: `analytics_generate_recommendation` returns type none with confidence 0 and
expected improvement 0 when the anomaly's severity is none; otherwise, with `w` the
kind's warning threshold: throughput with `value < w` gives increase-power, 0.8, 20.0;
latency with `value > w` gives parameter-adjustment, 0.7, 15.0; packet loss with
`value > w` gives handover, 0.6, 30.0; PRB usage with `value > w` gives load-balance,
0.9, 25.0; each of the four gives type none when its comparison fails; every other
kind gives parameter-adjustment, 0.5, 10.0.  The result always carries the sample's
node id and cell id. -/
theorem generate_recommendation_rules (now : Nat) (ctx : analytics_context_t α)
    (metric : metric_data_t α) (a : anomaly_result_t α)
    (anomaly : Option (anomaly_result_t α)) :
    (a.severity = .ANOMALY_NONE →
        (analytics_generate_recommendation now ctx metric (some a)).type = .RECOMMENDATION_NONE
        ∧ (analytics_generate_recommendation now ctx metric (some a)).confidence = 0
        ∧ (analytics_generate_recommendation now ctx metric (some a)).expected_improvement = 0)
    ∧ (a.severity ≠ .ANOMALY_NONE → metric.type = METRIC_THROUGHPUT →
        (metric.value < (ctx.config.thresholds metric.type).warning_threshold →
          (analytics_generate_recommendation now ctx metric (some a)).type
              = .RECOMMENDATION_INCREASE_POWER
          ∧ (analytics_generate_recommendation now ctx metric (some a)).confidence = 0.8
          ∧ (analytics_generate_recommendation now ctx metric (some a)).expected_improvement
              = 20.0)
        ∧ (¬ metric.value < (ctx.config.thresholds metric.type).warning_threshold →
          (analytics_generate_recommendation now ctx metric (some a)).type
              = .RECOMMENDATION_NONE))
    ∧ (a.severity ≠ .ANOMALY_NONE → metric.type = METRIC_LATENCY →
        (metric.value > (ctx.config.thresholds metric.type).warning_threshold →
          (analytics_generate_recommendation now ctx metric (some a)).type
              = .RECOMMENDATION_PARAMETER_ADJUSTMENT
          ∧ (analytics_generate_recommendation now ctx metric (some a)).confidence = 0.7
          ∧ (analytics_generate_recommendation now ctx metric (some a)).expected_improvement
              = 15.0)
        ∧ (¬ metric.value > (ctx.config.thresholds metric.type).warning_threshold →
          (analytics_generate_recommendation now ctx metric (some a)).type
              = .RECOMMENDATION_NONE))
    ∧ (a.severity ≠ .ANOMALY_NONE → metric.type = METRIC_PACKET_LOSS →
        (metric.value > (ctx.config.thresholds metric.type).warning_threshold →
          (analytics_generate_recommendation now ctx metric (some a)).type
              = .RECOMMENDATION_HANDOVER
          ∧ (analytics_generate_recommendation now ctx metric (some a)).confidence = 0.6
          ∧ (analytics_generate_recommendation now ctx metric (some a)).expected_improvement
              = 30.0)
        ∧ (¬ metric.value > (ctx.config.thresholds metric.type).warning_threshold →
          (analytics_generate_recommendation now ctx metric (some a)).type
              = .RECOMMENDATION_NONE))
    ∧ (a.severity ≠ .ANOMALY_NONE → metric.type = METRIC_PRB_USAGE →
        (metric.value > (ctx.config.thresholds metric.type).warning_threshold →
          (analytics_generate_recommendation now ctx metric (some a)).type
              = .RECOMMENDATION_LOAD_BALANCE
          ∧ (analytics_generate_recommendation now ctx metric (some a)).confidence = 0.9
          ∧ (analytics_generate_recommendation now ctx metric (some a)).expected_improvement
              = 25.0)
        ∧ (¬ metric.value > (ctx.config.thresholds metric.type).warning_threshold →
          (analytics_generate_recommendation now ctx metric (some a)).type
              = .RECOMMENDATION_NONE))
    ∧ (a.severity ≠ .ANOMALY_NONE → metric.type ≠ METRIC_THROUGHPUT →
        metric.type ≠ METRIC_LATENCY → metric.type ≠ METRIC_PACKET_LOSS →
        metric.type ≠ METRIC_PRB_USAGE →
        (analytics_generate_recommendation now ctx metric (some a)).type
            = .RECOMMENDATION_PARAMETER_ADJUSTMENT
        ∧ (analytics_generate_recommendation now ctx metric (some a)).confidence = 0.5
        ∧ (analytics_generate_recommendation now ctx metric (some a)).expected_improvement
            = 10.0)
    ∧ (analytics_generate_recommendation now ctx metric anomaly).node_id = metric.node_id
    ∧ (analytics_generate_recommendation now ctx metric anomaly).cell_id = metric.cell_id := by
  have h01 : METRIC_THROUGHPUT ≠ METRIC_LATENCY := by decide
  have h02 : METRIC_THROUGHPUT ≠ METRIC_PACKET_LOSS := by decide
  have h08 : METRIC_THROUGHPUT ≠ METRIC_PRB_USAGE := by decide
  have h10 : METRIC_LATENCY ≠ METRIC_THROUGHPUT := by decide
  have h12 : METRIC_LATENCY ≠ METRIC_PACKET_LOSS := by decide
  have h20 : METRIC_PACKET_LOSS ≠ METRIC_THROUGHPUT := by decide
  have h21 : METRIC_PACKET_LOSS ≠ METRIC_LATENCY := by decide
  have h80 : METRIC_PRB_USAGE ≠ METRIC_THROUGHPUT := by decide
  have h81 : METRIC_PRB_USAGE ≠ METRIC_LATENCY := by decide
  have h82 : METRIC_PRB_USAGE ≠ METRIC_PACKET_LOSS := by decide
  refine ⟨?_, ?_, ?_, ?_, ?_, ?_, ?_, ?_⟩
  · intro hs
    simp [analytics_generate_recommendation, hs, recommendation_zero]
  · intro hs hk
    refine ⟨fun hc => ?_, fun hc => ?_⟩
    · rw [hk] at hc
      simp [analytics_generate_recommendation, hs, hk, hc]
    · rw [hk] at hc
      simp [analytics_generate_recommendation, hs, hk, hc, recommendation_zero]
  · intro hs hk
    refine ⟨fun hc => ?_, fun hc => ?_⟩
    · rw [hk] at hc
      simp [analytics_generate_recommendation, hs, hk, hc, h10]
    · rw [hk] at hc
      simp [analytics_generate_recommendation, hs, hk, hc, h10, recommendation_zero]
  · intro hs hk
    refine ⟨fun hc => ?_, fun hc => ?_⟩
    · rw [hk] at hc
      simp [analytics_generate_recommendation, hs, hk, hc, h20, h21]
    · rw [hk] at hc
      simp [analytics_generate_recommendation, hs, hk, hc, h20, h21, recommendation_zero]
  · intro hs hk
    refine ⟨fun hc => ?_, fun hc => ?_⟩
    · rw [hk] at hc
      simp [analytics_generate_recommendation, hs, hk, hc, h80, h81, h82]
    · rw [hk] at hc
      simp [analytics_generate_recommendation, hs, hk, hc, h80, h81, h82, recommendation_zero]
  · intro hs h0 h1 h2 h8
    simp [analytics_generate_recommendation, hs, h0, h1, h2, h8]
  · unfold analytics_generate_recommendation
    dsimp only
    split
    · rfl
    · split_ifs <;> rfl
  · unfold analytics_generate_recommendation
    dsimp only
    split
    · rfl
    · split_ifs <;> rfl

theorem generate_recommendation_rules_witness :
    (⟨METRIC_THROUGHPUT, .ANOMALY_WARNING, 0, 10, 0.7, 0⟩ : anomaly_result_t ℚ).severity
        ≠ .ANOMALY_NONE
    ∧ (sample_throughput 10).type = METRIC_THROUGHPUT
    ∧ (sample_throughput 10).value
        < (sample_ctx.config.thresholds (sample_throughput 10).type).warning_threshold
    ∧ (analytics_generate_recommendation 0 sample_ctx (sample_throughput 10)
        (some ⟨METRIC_THROUGHPUT, .ANOMALY_WARNING, 0, 10, 0.7, 0⟩)).type
        = .RECOMMENDATION_INCREASE_POWER
    ∧ (analytics_generate_recommendation 0 sample_ctx (sample_throughput 10)
        (some ⟨METRIC_THROUGHPUT, .ANOMALY_WARNING, 0, 10, 0.7, 0⟩)).confidence = 0.8 :=
  have hs : (⟨METRIC_THROUGHPUT, .ANOMALY_WARNING, 0, 10, 0.7, 0⟩ : anomaly_result_t ℚ).severity
      ≠ .ANOMALY_NONE := by decide
  have hv : (sample_throughput 10).value
      < (sample_ctx.config.thresholds (sample_throughput 10).type).warning_threshold := by
    have h : (sample_throughput 10).type = METRIC_THROUGHPUT := rfl
    rw [h, sample_thresholds_throughput]
    simp [sample_throughput]
    norm_num
  have h := ((generate_recommendation_rules 0 sample_ctx (sample_throughput 10)
    ⟨METRIC_THROUGHPUT, .ANOMALY_WARNING, 0, 10, 0.7, 0⟩ none).2.1 hs rfl).1 hv
  ⟨hs, rfl, hv, h.1, h.2.1⟩

/-- C10: a successful ingestion increases `processed_metrics` by exactly 1; it
increases `detected_anomalies` and the anomaly ring's insertion count by exactly 1
when, after the push, the kind's history holds at least 10 samples and
`analytics_detect_anomaly` returns a severity other than none, and leaves them
unchanged otherwise; it increases `generated_recommendations` and the recommendation
ring's insertion count by exactly 1 when additionally the generated recommendation's
type is not none, and leaves them unchanged otherwise.  The three `uint64_t` counters
are incremented modulo `2 ^ 64`, which is the plain increment below `2 ^ 64 - 1`;
there no counter decreases, and `n < 2 ^ 64` ingestions into a fresh context give
`processed_metrics = n`. -/
theorem process_metric_counters (sqrt : α → α) (now : Nat) (ctx : analytics_context_t α)
    (metric : metric_data_t α) (hk : metric.type < METRIC_COUNT)
    (weights : Nat → α) (config_file : Option (Option (Option (config_json α))))
    (ms : List (Nat × metric_data_t α)) (hms : ∀ m ∈ ms, m.2.type < METRIC_COUNT) :
    (analytics_process_metric sqrt now ctx metric).1 = 0
    ∧ (analytics_process_metric sqrt now ctx metric).2.processed_metrics
        = (ctx.processed_metrics + 1) % 2 ^ 64
    ∧ (ctx.processed_metrics < 2 ^ 64 - 1 →
        (analytics_process_metric sqrt now ctx metric).2.processed_metrics
          = ctx.processed_metrics + 1)
    ∧ ((history_push (ctx.history metric.type) metric).count ≥ 10
        ∧ (analytics_detect_anomaly now (detection_context sqrt ctx metric) metric).severity
            ≠ .ANOMALY_NONE →
        (analytics_process_metric sqrt now ctx metric).2.detected_anomalies
            = (ctx.detected_anomalies + 1) % 2 ^ 64
        ∧ (ctx.detected_anomalies < 2 ^ 64 - 1 →
            (analytics_process_metric sqrt now ctx metric).2.detected_anomalies
              = ctx.detected_anomalies + 1)
        ∧ (analytics_process_metric sqrt now ctx metric).2.anomaly_count
            = ctx.anomaly_count + 1)
    ∧ (¬ ((history_push (ctx.history metric.type) metric).count ≥ 10
        ∧ (analytics_detect_anomaly now (detection_context sqrt ctx metric) metric).severity
            ≠ .ANOMALY_NONE) →
        (analytics_process_metric sqrt now ctx metric).2.detected_anomalies
            = ctx.detected_anomalies
        ∧ (analytics_process_metric sqrt now ctx metric).2.anomaly_count = ctx.anomaly_count)
    ∧ ((history_push (ctx.history metric.type) metric).count ≥ 10
        ∧ (analytics_detect_anomaly now (detection_context sqrt ctx metric) metric).severity
            ≠ .ANOMALY_NONE
        ∧ (analytics_generate_recommendation now (detection_context sqrt ctx metric) metric
            (some (analytics_detect_anomaly now (detection_context sqrt ctx metric)
              metric))).type ≠ .RECOMMENDATION_NONE →
        (analytics_process_metric sqrt now ctx metric).2.generated_recommendations
            = (ctx.generated_recommendations + 1) % 2 ^ 64
        ∧ (ctx.generated_recommendations < 2 ^ 64 - 1 →
            (analytics_process_metric sqrt now ctx metric).2.generated_recommendations
              = ctx.generated_recommendations + 1)
        ∧ (analytics_process_metric sqrt now ctx metric).2.recommendation_count
            = ctx.recommendation_count + 1)
    ∧ (¬ ((history_push (ctx.history metric.type) metric).count ≥ 10
        ∧ (analytics_detect_anomaly now (detection_context sqrt ctx metric) metric).severity
            ≠ .ANOMALY_NONE
        ∧ (analytics_generate_recommendation now (detection_context sqrt ctx metric) metric
            (some (analytics_detect_anomaly now (detection_context sqrt ctx metric)
              metric))).type ≠ .RECOMMENDATION_NONE) →
        (analytics_process_metric sqrt now ctx metric).2.generated_recommendations
            = ctx.generated_recommendations
        ∧ (analytics_process_metric sqrt now ctx metric).2.recommendation_count
            = ctx.recommendation_count)
    ∧ (ctx.processed_metrics < 2 ^ 64 - 1 →
        ctx.processed_metrics
          ≤ (analytics_process_metric sqrt now ctx metric).2.processed_metrics)
    ∧ (ctx.detected_anomalies < 2 ^ 64 - 1 →
        ctx.detected_anomalies
          ≤ (analytics_process_metric sqrt now ctx metric).2.detected_anomalies)
    ∧ (ctx.generated_recommendations < 2 ^ 64 - 1 →
        ctx.generated_recommendations
          ≤ (analytics_process_metric sqrt now ctx metric).2.generated_recommendations)
    ∧ ctx.anomaly_count ≤ (analytics_process_metric sqrt now ctx metric).2.anomaly_count
    ∧ ctx.recommendation_count
        ≤ (analytics_process_metric sqrt now ctx metric).2.recommendation_count
    ∧ (ingest_all sqrt (analytics_init weights config_file) ms).processed_metrics
        = ms.length % 2 ^ 64
    ∧ (ms.length < 2 ^ 64 →
        (ingest_all sqrt (analytics_init weights config_file) ms).processed_metrics
          = ms.length) := by
  have hmod : ∀ x : Nat, x < 2 ^ 64 - 1 → (x + 1) % 2 ^ 64 = x + 1 :=
    fun x hx => Nat.mod_eq_of_lt (by omega)
  have hproc := process_metric_processed sqrt now ctx metric hk
  have hfresh := ingest_all_processed sqrt weights config_file ms hms
  have hfresh2 : ms.length < 2 ^ 64 →
      (ingest_all sqrt (analytics_init weights config_file) ms).processed_metrics
        = ms.length := fun hlen => by rw [hfresh]; exact Nat.mod_eq_of_lt hlen
  by_cases hc : (history_push (ctx.history metric.type) metric).count ≥ 10
  · obtain ⟨hfire, hquiet, hrec, hnorec⟩ :=
      record_findings_counters now (detection_context sqrt ctx metric) metric
    have hrun := process_metric_detect sqrt now ctx metric hk hc
    have hdc_d : (detection_context sqrt ctx metric).detected_anomalies
        = ctx.detected_anomalies := rfl
    have hdc_a : (detection_context sqrt ctx metric).anomaly_count = ctx.anomaly_count := rfl
    have hdc_g : (detection_context sqrt ctx metric).generated_recommendations
        = ctx.generated_recommendations := rfl
    have hdc_r : (detection_context sqrt ctx metric).recommendation_count
        = ctx.recommendation_count := rfl
    rw [hdc_d, hdc_a] at hfire
    rw [hdc_d, hdc_a, hdc_g, hdc_r] at hquiet
    rw [hdc_g, hdc_r] at hrec
    rw [hdc_g, hdc_r] at hnorec
    rw [hrun] at hproc ⊢
    dsimp only at hproc ⊢
    by_cases hs : (analytics_detect_anomaly now (detection_context sqrt ctx metric)
        metric).severity = .ANOMALY_NONE
    · obtain ⟨q1, q2, q3, q4⟩ := hquiet hs
      refine ⟨rfl, hproc, fun h => by rw [hproc, hmod _ h], ?_, ?_, ?_, ?_,
        fun h => by rw [hproc, hmod _ h]; omega, fun _ => by omega, fun _ => by omega,
        by omega, by omega, hfresh, hfresh2⟩
      · intro h; exact absurd hs h.2
      · intro _; exact ⟨q1, q2⟩
      · intro h; exact absurd hs h.2.1
      · intro _; exact ⟨q3, q4⟩
    · obtain ⟨f1, f2⟩ := hfire hs
      by_cases ht : (analytics_generate_recommendation now (detection_context sqrt ctx metric)
          metric (some (analytics_detect_anomaly now (detection_context sqrt ctx metric)
            metric))).type = .RECOMMENDATION_NONE
      · obtain ⟨n1, n2⟩ := hnorec hs ht
        refine ⟨rfl, hproc, fun h => by rw [hproc, hmod _ h], ?_, ?_, ?_, ?_,
          fun h => by rw [hproc, hmod _ h]; omega, fun h => by rw [f1, hmod _ h]; omega,
          fun _ => by omega, by omega, by omega, hfresh, hfresh2⟩
        · intro _; exact ⟨f1, fun h => by rw [f1, hmod _ h], f2⟩
        · intro h; exact absurd ⟨hc, hs⟩ h
        · intro h; exact absurd ht h.2.2
        · intro _; exact ⟨n1, n2⟩
      · obtain ⟨r1, r2⟩ := hrec hs ht
        refine ⟨rfl, hproc, fun h => by rw [hproc, hmod _ h], ?_, ?_, ?_, ?_,
          fun h => by rw [hproc, hmod _ h]; omega, fun h => by rw [f1, hmod _ h]; omega,
          fun h => by rw [r1, hmod _ h]; omega, by omega, by omega, hfresh, hfresh2⟩
        · intro _; exact ⟨f1, fun h => by rw [f1, hmod _ h], f2⟩
        · intro h; exact absurd ⟨hc, hs⟩ h
        · intro _; exact ⟨r1, fun h => by rw [r1, hmod _ h], r2⟩
        · intro h; exact absurd ⟨hc, hs, ht⟩ h
  · have hrun := process_metric_store sqrt now ctx metric hk hc
    rw [hrun] at hproc ⊢
    dsimp only at hproc ⊢
    refine ⟨rfl, hproc, fun h => hmod _ h, ?_, ?_, ?_, ?_,
      fun h => by rw [hmod _ h]; omega, fun _ => le_refl _, fun _ => le_refl _,
      le_refl _, le_refl _, hfresh, hfresh2⟩
    · intro h; exact absurd h.1 hc
    · intro _; exact ⟨rfl, rfl⟩
    · intro h; exact absurd h.1 hc
    · intro _; exact ⟨rfl, rfl⟩

theorem process_metric_counters_witness :
    (sample_throughput 60).type < METRIC_COUNT
    ∧ (∀ m ∈ [((0 : Nat), sample_throughput 60), (1, sample_throughput 70)],
        m.2.type < METRIC_COUNT)
    ∧ (analytics_process_metric (fun x : ℚ => |x|) 0 sample_ctx
        (sample_throughput 60)).2.processed_metrics = sample_ctx.processed_metrics + 1
    ∧ (ingest_all (fun x : ℚ => |x|) (analytics_init (fun _ => 0) none)
        [(0, sample_throughput 60), (1, sample_throughput 70)]).processed_metrics = 2 :=
  have hk : (sample_throughput 60).type < METRIC_COUNT := by decide
  have hp : sample_ctx.processed_metrics < 2 ^ 64 - 1 := by decide
  have hms : ∀ m ∈ [((0 : Nat), sample_throughput 60), (1, sample_throughput 70)],
      m.2.type < METRIC_COUNT := by
    intro m hm
    simp only [List.mem_cons, List.mem_singleton, List.not_mem_nil, or_false] at hm
    rcases hm with h | h <;> rw [h] <;> decide
  have h := process_metric_counters (fun x : ℚ => |x|) 0 sample_ctx (sample_throughput 60)
    hk (fun _ => 0) none [(0, sample_throughput 60), (1, sample_throughput 70)] hms
  ⟨hk, hms, h.2.2.1 hp, h.2.2.2.2.2.2.2.2.2.2.2.2.2 (by decide)⟩

/-- C11: `analytics_add_metric` and `analytics_process_metric` return -1 exactly when
the metric kind is not one of the 9 recognised kinds (`type >= METRIC_COUNT`), and
then the context is left as it was; for every recognised kind and every value they
return 0 (and the context changes). -/
theorem ingest_rejects_unknown_kind (sqrt : α → α) (now : Nat) (ctx : analytics_context_t α)
    (metric : metric_data_t α) (type : metric_type_t) (value : α) (node_id cell_id : Nat) :
    ((analytics_process_metric sqrt now ctx metric).1 = -1 ↔ metric.type ≥ METRIC_COUNT)
    ∧ (metric.type ≥ METRIC_COUNT →
        (analytics_process_metric sqrt now ctx metric).2 = ctx)
    ∧ (metric.type < METRIC_COUNT →
        (analytics_process_metric sqrt now ctx metric).1 = 0
        ∧ (analytics_process_metric sqrt now ctx metric).2 ≠ ctx)
    ∧ ((analytics_add_metric sqrt now ctx type value node_id cell_id).1 = -1
        ↔ type ≥ METRIC_COUNT)
    ∧ (type ≥ METRIC_COUNT →
        (analytics_add_metric sqrt now ctx type value node_id cell_id).2 = ctx)
    ∧ (type < METRIC_COUNT →
        (analytics_add_metric sqrt now ctx type value node_id cell_id).1 = 0
        ∧ (analytics_add_metric sqrt now ctx type value node_id cell_id).2 ≠ ctx
        ∧ analytics_add_metric sqrt now ctx type value node_id cell_id
            = analytics_process_metric sqrt now ctx
                { type := type, value := value, node_id := node_id, cell_id := cell_id,
                  timestamp := now }) := by
  have hchg : ∀ m : metric_data_t α, m.type < METRIC_COUNT →
      (analytics_process_metric sqrt now ctx m).2 ≠ ctx := by
    intro m hm heq
    have h := process_metric_processed sqrt now ctx m hm
    rw [heq] at h
    exact succ_mod_ne_self _ h.symm
  have hadd : type < METRIC_COUNT →
      analytics_add_metric sqrt now ctx type value node_id cell_id
        = analytics_process_metric sqrt now ctx
            { type := type, value := value, node_id := node_id, cell_id := cell_id,
              timestamp := now } := by
    intro hk
    unfold analytics_add_metric
    rw [if_neg (Nat.not_le.mpr hk)]
  refine ⟨?_, ?_, ?_, ?_, ?_, ?_⟩
  · constructor
    · intro h
      by_contra hk
      rw [process_metric_valid_code sqrt now ctx metric (Nat.not_le.mp hk)] at h
      exact absurd h (by decide)
    · intro hk
      rw [process_metric_invalid sqrt now ctx metric hk]
  · intro hk
    rw [process_metric_invalid sqrt now ctx metric hk]
  · intro hk
    exact ⟨process_metric_valid_code sqrt now ctx metric hk, hchg metric hk⟩
  · constructor
    · intro h
      by_contra hk
      rw [hadd (Nat.not_le.mp hk),
        process_metric_valid_code sqrt now ctx _ (Nat.not_le.mp hk)] at h
      exact absurd h (by decide)
    · intro hk
      unfold analytics_add_metric
      rw [if_pos hk]
  · intro hk
    unfold analytics_add_metric
    rw [if_pos hk]
  · intro hk
    refine ⟨?_, ?_, hadd hk⟩
    · rw [hadd hk]; exact process_metric_valid_code sqrt now ctx _ hk
    · rw [hadd hk]; exact hchg _ hk

/-- C15: on a window of `n >= 1` samples the median returned by
`analytics_calculate_stats` is read from the bubble-sorted copy of the window's
values, which is an ascending permutation of them: the element at position `n / 2`
when `n` is odd, the average of the elements at positions `n / 2 - 1` and `n / 2` when
`n` is even. -/
theorem calculate_stats_median (sqrt : α → α) (data : Nat → metric_data_t α) (n : Nat)
    (hn : 1 ≤ n) :
    (bubble_sort n ((List.range n).map (fun i => (data i).value))).length = n
    ∧ (bubble_sort n ((List.range n).map (fun i => (data i).value))).Perm
        ((List.range n).map (fun i => (data i).value))
    ∧ (bubble_sort n ((List.range n).map (fun i => (data i).value))).Sorted (· ≤ ·)
    ∧ (n % 2 = 1 →
        (analytics_calculate_stats sqrt data (n : Int)).median
          = (bubble_sort n ((List.range n).map (fun i => (data i).value))).getD (n / 2) 0)
    ∧ (n % 2 = 0 →
        (analytics_calculate_stats sqrt data (n : Int)).median
          = ((bubble_sort n ((List.range n).map (fun i => (data i).value))).getD (n / 2 - 1) 0
              + (bubble_sort n ((List.range n).map (fun i => (data i).value))).getD (n / 2) 0)
            / 2) := by
  have hlen : ((List.range n).map (fun i => (data i).value)).length = n := by simp
  have hb := bubble_sort_sorted_perm ((List.range n).map (fun i => (data i).value))
  rw [hlen] at hb
  have hpos : ¬ ((n : Int) ≤ 0) := by omega
  refine ⟨hb.1, hb.2.1, hb.2.2, ?_, ?_⟩
  · intro hodd
    have hne : ¬ ((n : Int) % 2 = 0) := by omega
    simp only [analytics_calculate_stats, if_neg hpos, Int.toNat_ofNat, if_neg hne]
  · intro heven
    have he : (n : Int) % 2 = 0 := by omega
    simp only [analytics_calculate_stats, if_neg hpos, Int.toNat_ofNat, if_pos he]
    norm_num

theorem calculate_stats_median_witness :
    (1 ≤ 4)
    ∧ (bubble_sort 4 ((List.range 4).map
        (fun i => ((fun j => sample_throughput (4 - (j : ℚ))) i).value))).Sorted (· ≤ ·)
    ∧ (analytics_calculate_stats (fun x : ℚ => |x|) (fun j => sample_throughput (4 - (j : ℚ)))
          ((4 : Nat) : Int)).median
        = ((bubble_sort 4 ((List.range 4).map
              (fun i => ((fun j => sample_throughput (4 - (j : ℚ))) i).value))).getD (4 / 2 - 1) 0
            + (bubble_sort 4 ((List.range 4).map
              (fun i => ((fun j => sample_throughput (4 - (j : ℚ))) i).value))).getD (4 / 2) 0)
          / 2 :=
  have h := calculate_stats_median (fun x : ℚ => |x|)
    (fun j => sample_throughput (4 - (j : ℚ))) 4 (by decide)
  ⟨by decide, h.2.2.1, h.2.2.2.2 (by decide)⟩

/-- C16: `analytics_calculate_z_score` returns `(value - mean) / std_dev` when
`std_dev > 0` and 0 when `std_dev <= 0`; `z_score(10.0, 5.0, 2.0) = 2.5`. -/
theorem calculate_z_score_spec (value mean std_dev : α) :
    (std_dev > 0 → analytics_calculate_z_score value mean std_dev = (value - mean) / std_dev)
    ∧ (std_dev ≤ 0 → analytics_calculate_z_score value mean std_dev = 0)
    ∧ analytics_calculate_z_score (10.0 : α) 5.0 2.0 = 2.5 := by
  refine ⟨?_, ?_, ?_⟩
  · intro h
    unfold analytics_calculate_z_score
    rw [if_neg (not_le.mpr h)]
  · intro h
    unfold analytics_calculate_z_score
    rw [if_pos h]
  · unfold analytics_calculate_z_score
    norm_num

/-- C17: `analytics_is_outlier z t` is true exactly when `|z| > t`, a strict
comparison that does not see the sign of `z`; `is_outlier(2.5, 2.0)` is true,
`is_outlier(1.5, 2.0)` and `is_outlier(2.0, 2.0)` are false. -/
theorem is_outlier_spec (z t : α) :
    (analytics_is_outlier z t = true ↔ |z| > t)
    ∧ analytics_is_outlier (-z) t = analytics_is_outlier z t
    ∧ analytics_is_outlier (2.5 : α) 2.0 = true
    ∧ analytics_is_outlier (1.5 : α) 2.0 = false
    ∧ analytics_is_outlier (2.0 : α) 2.0 = false := by
  refine ⟨?_, ?_, ?_, ?_, ?_⟩
  · simp [analytics_is_outlier]
  · simp [analytics_is_outlier]
  · simp only [analytics_is_outlier, decide_eq_true_eq]
    rw [abs_of_pos (by norm_num)]; norm_num
  · simp only [analytics_is_outlier, decide_eq_false_iff_not]
    rw [abs_of_pos (by norm_num)]; norm_num
  · simp only [analytics_is_outlier, decide_eq_false_iff_not]
    rw [abs_of_pos (by norm_num)]; norm_num

/-- C18 (as amended): in exact arithmetic, on a window of `n >= 1` samples the
`z_score` returned by `analytics_calculate_stats` is `analytics_calculate_z_score` of
the last sample of the window against the returned mean and standard deviation, that
is, with `mean` the arithmetic mean of the window and `std_dev` the square root of its
population variance, `(last - mean) / std_dev` when `std_dev > 0` and 0 otherwise;
`is_outlier` is true exactly when `|z_score| > 2.0`; the stored summaries do not
depend on the configured `outlier_threshold`; a window whose values are all equal has
`z_score = 0` and `is_outlier = false`. -/
theorem calculate_stats_z_score (sqrt : α → α) (data : Nat → metric_data_t α) (n : Nat)
    (hn : 1 ≤ n) :
    (analytics_calculate_stats sqrt data (n : Int)).z_score
        = analytics_calculate_z_score (data (n - 1)).value
            (analytics_calculate_stats sqrt data (n : Int)).mean
            (analytics_calculate_stats sqrt data (n : Int)).std_dev
    ∧ (analytics_calculate_stats sqrt data (n : Int)).mean
        = (∑ i in Finset.range n, (data i).value) / (n : α)
    ∧ (analytics_calculate_stats sqrt data (n : Int)).std_dev
        = sqrt ((∑ i in Finset.range n,
            ((data i).value - (∑ i in Finset.range n, (data i).value) / (n : α)) ^ 2) / (n : α))
    ∧ ((analytics_calculate_stats sqrt data (n : Int)).std_dev ≤ 0 →
        (analytics_calculate_stats sqrt data (n : Int)).z_score = 0)
    ∧ (0 < (analytics_calculate_stats sqrt data (n : Int)).std_dev →
        (analytics_calculate_stats sqrt data (n : Int)).z_score
          = ((data (n - 1)).value - (analytics_calculate_stats sqrt data (n : Int)).mean)
            / (analytics_calculate_stats sqrt data (n : Int)).std_dev)
    ∧ ((analytics_calculate_stats sqrt data (n : Int)).is_outlier = true
        ↔ |(analytics_calculate_stats sqrt data (n : Int)).z_score| > 2.0)
    ∧ (∀ (now : Nat) (ctx : analytics_context_t α) (m : metric_data_t α) (t : α) (k : Nat),
        ((analytics_process_metric sqrt now
            { ctx with config := { ctx.config with outlier_threshold := t } } m).2.history
              k).last_stats
          = ((analytics_process_metric sqrt now ctx m).2.history k).last_stats)
    ∧ (∀ c : α, (∀ i, i < n → (data i).value = c) →
        (analytics_calculate_stats sqrt data (n : Int)).z_score = 0
        ∧ (analytics_calculate_stats sqrt data (n : Int)).is_outlier = false) := by
  obtain ⟨hmean, hvar, hstd, _, _, hz, ho⟩ := calculate_stats_fields sqrt data n hn
  have hout : (analytics_calculate_stats sqrt data (n : Int)).is_outlier = true
      ↔ |(analytics_calculate_stats sqrt data (n : Int)).z_score| > 2.0 := by
    rw [ho]; simp [analytics_is_outlier]
  refine ⟨hz, hmean, ?_, ?_, ?_, hout, ?_, ?_⟩
  · rw [hstd, hvar, hmean]
  · intro hle
    rw [hz, analytics_calculate_z_score, if_pos hle]
  · intro hpos
    rw [hz, analytics_calculate_z_score, if_neg (not_le.mpr hpos)]
  · intro now ctx m t k
    rw [process_metric_history_outlier_threshold]
  · intro c hc
    have hn0 : (n : α) ≠ 0 := by
      have : (1 : α) ≤ (n : α) := by exact_mod_cast hn
      intro h0; rw [h0] at this; linarith
    have hm : (analytics_calculate_stats sqrt data (n : Int)).mean = c := by
      rw [hmean, Finset.sum_congr rfl (fun i hi => hc i (Finset.mem_range.mp hi))]
      simp only [Finset.sum_const, Finset.card_range, nsmul_eq_mul]
      field_simp
    have hlast : (data (n - 1)).value = c := hc (n - 1) (by omega)
    have hz0 : (analytics_calculate_stats sqrt data (n : Int)).z_score = 0 := by
      rw [hz, hm, hlast]
      unfold analytics_calculate_z_score
      split
      · rfl
      · simp
    refine ⟨hz0, ?_⟩
    have : ¬ ((analytics_calculate_stats sqrt data (n : Int)).is_outlier = true) := by
      rw [hout, hz0]; norm_num
    simpa using this

theorem calculate_stats_z_score_witness :
    (1 ≤ 3)
    ∧ (analytics_calculate_stats (fun x : ℚ => |x|) (fun _ => sample_throughput 50)
        ((3 : Nat) : Int)).z_score = 0 :=
  ⟨by decide,
    ((calculate_stats_z_score (fun x : ℚ => |x|) (fun _ => sample_throughput 50) 3
      (by decide)).2.2.2.2.2.2.2 50 (fun _ _ => rfl)).1⟩

/-- C18, counterexample: in double arithmetic the window of ten samples of the double
nearest to 0.1 has all its values equal, yet the ten rounded additions and the
division give a mean other than that value, the standard deviation is positive, and
`analytics_calculate_stats` returns `z_score = 1`, not 0. -/
theorem constant_window_z_score_double :
    (∀ i, i < 10 → ((fun _ => sample_throughput (round_double (1 / 10))) i).value
        = round_double (1 / 10))
    ∧ (analytics_calculate_stats_double (fun _ => sample_throughput (round_double (1 / 10)))
        ((10 : Nat) : Int)).mean ≠ round_double (1 / 10)
    ∧ 0 < (analytics_calculate_stats_double (fun _ => sample_throughput (round_double (1 / 10)))
        ((10 : Nat) : Int)).std_dev
    ∧ (analytics_calculate_stats_double (fun _ => sample_throughput (round_double (1 / 10)))
        ((10 : Nat) : Int)).z_score = 1 := by
  refine ⟨fun _ _ => rfl, ?_, ?_, ?_⟩
  · decide!
  · decide!
  · decide!

/-- C19: on a window of `n >= 2` samples the result of `analytics_calculate_trend` has
`is_increasing` iff `slope > 0.1`, `is_decreasing` iff `slope < -0.1` and `is_stable`
iff `|slope| <= 0.1`; exactly one of the three flags is true, and `is_stable` holds
exactly when neither of the other two does. -/
theorem calculate_trend_flags (sqrt : α → α) (data : Nat → metric_data_t α) (n : Nat)
    (hn : 2 ≤ n) :
    ((analytics_calculate_trend sqrt data (n : Int)).is_increasing = true
        ↔ (analytics_calculate_trend sqrt data (n : Int)).slope > 0.1)
    ∧ ((analytics_calculate_trend sqrt data (n : Int)).is_decreasing = true
        ↔ (analytics_calculate_trend sqrt data (n : Int)).slope < -0.1)
    ∧ ((analytics_calculate_trend sqrt data (n : Int)).is_stable = true
        ↔ |(analytics_calculate_trend sqrt data (n : Int)).slope| ≤ 0.1)
    ∧ (((analytics_calculate_trend sqrt data (n : Int)).is_increasing = true
          ∧ (analytics_calculate_trend sqrt data (n : Int)).is_decreasing = false
          ∧ (analytics_calculate_trend sqrt data (n : Int)).is_stable = false)
        ∨ ((analytics_calculate_trend sqrt data (n : Int)).is_increasing = false
          ∧ (analytics_calculate_trend sqrt data (n : Int)).is_decreasing = true
          ∧ (analytics_calculate_trend sqrt data (n : Int)).is_stable = false)
        ∨ ((analytics_calculate_trend sqrt data (n : Int)).is_increasing = false
          ∧ (analytics_calculate_trend sqrt data (n : Int)).is_decreasing = false
          ∧ (analytics_calculate_trend sqrt data (n : Int)).is_stable = true))
    ∧ ((analytics_calculate_trend sqrt data (n : Int)).is_stable = true
        ↔ (analytics_calculate_trend sqrt data (n : Int)).is_increasing = false
          ∧ (analytics_calculate_trend sqrt data (n : Int)).is_decreasing = false) := by
  obtain ⟨_, _, hinc, hdec, hst⟩ := calculate_trend_fields sqrt data n hn
  have h01 : (0 : α) < 0.1 := by norm_num
  have i1 : (analytics_calculate_trend sqrt data (n : Int)).is_increasing = true
      ↔ (analytics_calculate_trend sqrt data (n : Int)).slope > 0.1 := by
    rw [hinc]; simp
  have i2 : (analytics_calculate_trend sqrt data (n : Int)).is_decreasing = true
      ↔ (analytics_calculate_trend sqrt data (n : Int)).slope < -0.1 := by
    rw [hdec]; simp
  have i3 : (analytics_calculate_trend sqrt data (n : Int)).is_stable = true
      ↔ |(analytics_calculate_trend sqrt data (n : Int)).slope| ≤ 0.1 := by
    rw [hst]; simp
  have f1 : (analytics_calculate_trend sqrt data (n : Int)).is_increasing = false
      ↔ ¬ (analytics_calculate_trend sqrt data (n : Int)).slope > 0.1 := by
    rw [← i1]; simp
  have f2 : (analytics_calculate_trend sqrt data (n : Int)).is_decreasing = false
      ↔ ¬ (analytics_calculate_trend sqrt data (n : Int)).slope < -0.1 := by
    rw [← i2]; simp
  have f3 : (analytics_calculate_trend sqrt data (n : Int)).is_stable = false
      ↔ ¬ |(analytics_calculate_trend sqrt data (n : Int)).slope| ≤ 0.1 := by
    rw [← i3]; simp
  refine ⟨i1, i2, i3, ?_, ?_⟩
  · rw [i1, i2, i3, f1, f2, f3]
    simp only [abs_le, not_lt, not_le, not_and]
    rcases lt_trichotomy (analytics_calculate_trend sqrt data (n : Int)).slope (-0.1)
      with h | h | h
    · right; left
      exact ⟨by linarith, h, fun h2 => absurd h (not_lt.mpr h2)⟩
    · right; right
      exact ⟨by linarith, by linarith, by linarith, by linarith⟩
    · rcases le_or_lt (analytics_calculate_trend sqrt data (n : Int)).slope 0.1 with h2 | h2
      · right; right
        exact ⟨h2, le_of_lt h, le_of_lt h, h2⟩
      · left
        exact ⟨h2, by linarith, fun _ => h2⟩
  · rw [i3, f1, f2]
    simp only [abs_le, not_lt]
    constructor
    · rintro ⟨h1, h2⟩; exact ⟨h2, h1⟩
    · rintro ⟨h1, h2⟩; exact ⟨h2, h1⟩

theorem calculate_trend_flags_witness :
    (2 ≤ 10)
    ∧ ((analytics_calculate_trend (fun x : ℚ => |x|) (fun _ => sample_throughput 50)
          ((10 : Nat) : Int)).is_stable = true
        ↔ (analytics_calculate_trend (fun x : ℚ => |x|) (fun _ => sample_throughput 50)
            ((10 : Nat) : Int)).is_increasing = false
          ∧ (analytics_calculate_trend (fun x : ℚ => |x|) (fun _ => sample_throughput 50)
            ((10 : Nat) : Int)).is_decreasing = false) :=
  ⟨by decide,
    (calculate_trend_flags (fun x : ℚ => |x|) (fun _ => sample_throughput 50) 10
      (by decide)).2.2.2.2⟩

/-- C20: degenerate input gets a zero result: `analytics_calculate_stats` with
`count <= 0` returns the record with every numeric field 0 and `is_outlier` false, and
`analytics_calculate_trend` with `count <= 1` returns the record with slope, intercept
and correlation 0 and the three direction flags false. -/
theorem degenerate_input_zero (sqrt : α → α) (data : Nat → metric_data_t α) (count : Int) :
    (count ≤ 0 →
        analytics_calculate_stats sqrt data count
          = { mean := 0, variance := 0, std_dev := 0, min := 0, max := 0, median := 0,
              z_score := 0, is_outlier := false })
    ∧ (count ≤ 1 →
        analytics_calculate_trend sqrt data count
          = { slope := 0, intercept := 0, correlation := 0, is_increasing := false,
              is_decreasing := false, is_stable := false }) := by
  refine ⟨?_, ?_⟩
  · intro h
    unfold analytics_calculate_stats
    rw [if_pos h]
    rfl
  · intro h
    unfold analytics_calculate_trend
    rw [if_pos h]
    rfl

theorem degenerate_input_zero_witness :
    ((0 : Int) ≤ 0)
    ∧ (analytics_calculate_stats (fun x : ℚ => |x|) (fun _ => sample_throughput 50) 0).mean = 0
    ∧ (analytics_calculate_trend (fun x : ℚ => |x|) (fun _ => sample_throughput 50) 1).slope = 0 :=
  ⟨by decide,
    by rw [(degenerate_input_zero (fun x : ℚ => |x|) (fun _ => sample_throughput 50) 0).1
      (by decide)],
    by rw [(degenerate_input_zero (fun x : ℚ => |x|) (fun _ => sample_throughput 50) 1).2
      (by decide)]⟩

/-- C12 (as amended): after any ingestions into a fresh context, with `L` the list of
anomalies stored in the ring, `analytics_get_recent_anomalies` reports
`count = min (length L) 100` and the slot `j % 100` of the returned array holds the
`j`-th stored anomaly for each of the last 100 positions `j`; up to 100 stored
anomalies the items `0 .. count - 1` are `L` in arrival order, and after 101 the item 0
is the 101st anomaly while the items `1 .. 99` are the 2nd to the 100th. -/
theorem recent_anomalies_slots (sqrt : α → α) (weights : Nat → α)
    (config_file : Option (Option (Option (config_json α))))
    (ms : List (Nat × metric_data_t α)) :
    (analytics_get_recent_anomalies
        (ingest_all sqrt (analytics_init weights config_file) ms)).2
      = min (anomaly_log sqrt (analytics_init weights config_file) ms).length 100
    ∧ (∀ j, (anomaly_log sqrt (analytics_init weights config_file) ms).length - 100 ≤ j →
        j < (anomaly_log sqrt (analytics_init weights config_file) ms).length →
        (anomaly_log sqrt (analytics_init weights config_file) ms)[j]?
          = some ((analytics_get_recent_anomalies
              (ingest_all sqrt (analytics_init weights config_file) ms)).1 (j % 100)))
    ∧ ((anomaly_log sqrt (analytics_init weights config_file) ms).length ≤ 100 →
        (List.range (analytics_get_recent_anomalies
            (ingest_all sqrt (analytics_init weights config_file) ms)).2).map
          (analytics_get_recent_anomalies
            (ingest_all sqrt (analytics_init weights config_file) ms)).1
          = anomaly_log sqrt (analytics_init weights config_file) ms)
    ∧ ((anomaly_log sqrt (analytics_init weights config_file) ms).length = 101 →
        (analytics_get_recent_anomalies
            (ingest_all sqrt (analytics_init weights config_file) ms)).2 = 100
        ∧ (anomaly_log sqrt (analytics_init weights config_file) ms)[100]?
            = some ((analytics_get_recent_anomalies
                (ingest_all sqrt (analytics_init weights config_file) ms)).1 0)
        ∧ ∀ i, 1 ≤ i → i < 100 →
            (anomaly_log sqrt (analytics_init weights config_file) ms)[i]?
              = some ((analytics_get_recent_anomalies
                  (ingest_all sqrt (analytics_init weights config_file) ms)).1 i)) := by
  have hinv := ingest_all_anomaly_ring sqrt ms (analytics_init weights config_file) []
    (analytics_init_anomaly_ring weights config_file)
  rw [List.nil_append] at hinv
  obtain ⟨hcount, hslots⟩ := hinv
  have hget2 : (analytics_get_recent_anomalies
      (ingest_all sqrt (analytics_init weights config_file) ms)).2
      = min (anomaly_log sqrt (analytics_init weights config_file) ms).length 100 := by
    simp only [analytics_get_recent_anomalies, MIN_eq_min, hcount]
  have hget1 : (analytics_get_recent_anomalies
      (ingest_all sqrt (analytics_init weights config_file) ms)).1
      = (ingest_all sqrt (analytics_init weights config_file) ms).recent_anomalies := rfl
  refine ⟨hget2, ?_, ?_, ?_⟩
  · intro j hlo hj
    rw [hget1]; exact hslots j hlo hj
  · intro hle
    rw [hget2, hget1, min_eq_left hle]
    apply List.ext_getElem?
    intro i
    by_cases hi : i < (anomaly_log sqrt (analytics_init weights config_file) ms).length
    · rw [List.getElem?_map, List.getElem?_range hi, hslots i (by omega) hi]
      have : i % 100 = i := Nat.mod_eq_of_lt (by omega)
      simp [this]
    · rw [List.getElem?_eq_none (by simpa using Nat.le_of_not_lt hi),
        List.getElem?_eq_none (Nat.le_of_not_lt hi)]
  · intro h101
    refine ⟨by rw [hget2, h101]; rfl, ?_, ?_⟩
    · rw [hget1]; exact hslots 100 (by omega) (by omega)
    · intro i h1 h100
      rw [hget1]
      have := hslots i (by omega) (by omega)
      rwa [Nat.mod_eq_of_lt h100] at this

/-- C12, counterexample: after the 110 samples of `sample_hot_stream` are ingested
into a fresh context, 101 anomalies are stored, the reported count is 100, and the
items `0 .. 99` are not the last 100 stored anomalies in arrival order. -/
theorem recent_anomalies_not_in_arrival_order :
    (anomaly_log Real.sqrt (analytics_init (fun _ => (0 : ℝ)) none)
        (sample_hot_stream 110)).length = 101
    ∧ (analytics_get_recent_anomalies
        (ingest_all Real.sqrt (analytics_init (fun _ => (0 : ℝ)) none)
          (sample_hot_stream 110))).2 = 100
    ∧ (List.range 100).map
        (analytics_get_recent_anomalies
          (ingest_all Real.sqrt (analytics_init (fun _ => (0 : ℝ)) none)
            (sample_hot_stream 110))).1
      ≠ (anomaly_log Real.sqrt (analytics_init (fun _ => (0 : ℝ)) none)
            (sample_hot_stream 110)).drop
          ((anomaly_log Real.sqrt (analytics_init (fun _ => (0 : ℝ)) none)
            (sample_hot_stream 110)).length - 100) := by
  have hlen : (anomaly_log Real.sqrt (analytics_init (fun _ => (0 : ℝ)) none)
      (sample_hot_stream 110)).length = 101 := by
    rw [sample_hot_stream_log]
    simp [sample_hot_stream]
  have hinv := ingest_all_anomaly_ring Real.sqrt (sample_hot_stream 110)
    (analytics_init (fun _ => (0 : ℝ)) none) []
    (analytics_init_anomaly_ring (fun _ => 0) none)
  rw [List.nil_append] at hinv
  obtain ⟨hcount, hslots⟩ := hinv
  refine ⟨hlen, ?_, ?_⟩
  · rw [get_recent_anomalies_snd, hcount, hlen]
    rfl
  · intro heq
    have h0 := congrArg (fun l => l[0]?) heq
    simp only [hlen] at h0
    rw [List.getElem?_map, List.getElem?_range (by omega), List.getElem?_drop] at h0
    simp only [Option.map_some'] at h0
    have hs := hslots 100 (by omega) (by omega)
    have e100 : 100 % 100 = 0 := rfl
    rw [e100, sample_hot_stream_log_get _ _ 100 (by omega)] at hs
    rw [sample_hot_stream_log_get _ _ 1 (by omega)] at h0
    rw [get_recent_anomalies_fst, ← hs] at h0
    have hv := congrArg (fun o => o.map (fun a => a.detected_at)) h0
    simp at hv

/-- C13, at the failing input: after the 1001 throughput samples of
`sample_step_stream 1000 1000` (1000 samples of value 0, then one of value 1000) the
history holds 1000 samples with stored mean 1 and standard deviation `sqrt 999`; the
stored z-score is the one of a sample of value 0 (slot 999, the 1000th sample), it is
not the z-score of the sample just ingested, and the stored outlier flag is clear
although the sample just ingested lies more than 2 standard deviations off the mean. -/
theorem stored_z_score_stale_after_wrap :
    ((ingest_all Real.sqrt (analytics_init (fun _ => (0 : ℝ)) none)
        (sample_step_stream 1000 1000)).history METRIC_THROUGHPUT).count = 1000
    ∧ ((ingest_all Real.sqrt (analytics_init (fun _ => (0 : ℝ)) none)
        (sample_step_stream 1000 1000)).history METRIC_THROUGHPUT).last_stats.mean = 1
    ∧ ((ingest_all Real.sqrt (analytics_init (fun _ => (0 : ℝ)) none)
        (sample_step_stream 1000 1000)).history METRIC_THROUGHPUT).last_stats.std_dev
        = Real.sqrt 999
    ∧ ((ingest_all Real.sqrt (analytics_init (fun _ => (0 : ℝ)) none)
        (sample_step_stream 1000 1000)).history METRIC_THROUGHPUT).last_stats.z_score
        = analytics_calculate_z_score 0 1 (Real.sqrt 999)
    ∧ ((ingest_all Real.sqrt (analytics_init (fun _ => (0 : ℝ)) none)
        (sample_step_stream 1000 1000)).history METRIC_THROUGHPUT).last_stats.z_score
        ≠ analytics_calculate_z_score 1000 1 (Real.sqrt 999)
    ∧ ((ingest_all Real.sqrt (analytics_init (fun _ => (0 : ℝ)) none)
        (sample_step_stream 1000 1000)).history METRIC_THROUGHPUT).last_stats.is_outlier
        = false
    ∧ analytics_is_outlier (analytics_calculate_z_score (1000 : ℝ) 1 (Real.sqrt 999)) 2.0
        = true := by
  obtain ⟨hinv, hstats, _⟩ :=
    sample_step_stream_history Real.sqrt (fun _ => (0 : ℝ)) 1000 1000 (by omega)
  have hcount : ((ingest_all Real.sqrt (analytics_init (fun _ => (0 : ℝ)) none)
      (sample_step_stream 1000 1000)).history METRIC_THROUGHPUT).count = 1000 := by
    rw [hinv.2.1, List.length_map, sample_step_stream_length]; rfl
  have hdata := sample_step_wrap_data Real.sqrt (fun _ => (0 : ℝ)) 1000
  rw [hcount] at hstats
  obtain ⟨hmean, hvar, hsd, _, _, hz, ho⟩ := calculate_stats_fields Real.sqrt
    ((ingest_all Real.sqrt (analytics_init (fun _ => (0 : ℝ)) none)
      (sample_step_stream 1000 1000)).history METRIC_THROUGHPUT).data 1000 (by omega)
  rw [← hstats] at hmean hvar hsd hz ho
  have hsum : (∑ i in Finset.range 1000,
      (((ingest_all Real.sqrt (analytics_init (fun _ => (0 : ℝ)) none)
        (sample_step_stream 1000 1000)).history METRIC_THROUGHPUT).data i).value) = 1000 := by
    rw [Finset.sum_congr rfl (fun i hi => hdata i (Finset.mem_range.mp hi))]
    simp
  have hm : ((ingest_all Real.sqrt (analytics_init (fun _ => (0 : ℝ)) none)
      (sample_step_stream 1000 1000)).history METRIC_THROUGHPUT).last_stats.mean = 1 := by
    rw [hmean, hsum]; norm_num
  have hv : ((ingest_all Real.sqrt (analytics_init (fun _ => (0 : ℝ)) none)
      (sample_step_stream 1000 1000)).history METRIC_THROUGHPUT).last_stats.variance
      = 999 := by
    rw [hvar, hm, Finset.sum_congr rfl (fun i hi => by rw [hdata i (Finset.mem_range.mp hi)])]
    rw [show (1000 : ℕ) = 999 + 1 from rfl, Finset.sum_range_succ']
    simp
    norm_num
  have hs : ((ingest_all Real.sqrt (analytics_init (fun _ => (0 : ℝ)) none)
      (sample_step_stream 1000 1000)).history METRIC_THROUGHPUT).last_stats.std_dev
      = Real.sqrt 999 := by
    rw [hsd, hv]
  have hpos : (0 : ℝ) < Real.sqrt 999 := Real.sqrt_pos.mpr (by norm_num)
  have hlt : Real.sqrt 999 < 32 := by
    rw [Real.sqrt_lt' (by norm_num)]; norm_num
  have hgt : (31 : ℝ) < Real.sqrt 999 := by
    rw [Real.lt_sqrt (by norm_num)]; norm_num
  have hz0 : ((ingest_all Real.sqrt (analytics_init (fun _ => (0 : ℝ)) none)
      (sample_step_stream 1000 1000)).history METRIC_THROUGHPUT).last_stats.z_score
      = analytics_calculate_z_score 0 1 (Real.sqrt 999) := by
    have h999 := hdata 999 (by norm_num)
    rw [if_neg (by norm_num)] at h999
    have e : (1000 : ℕ) - 1 = 999 := by norm_num
    rw [hz, hm, hs, e, h999]
  have hzold : analytics_calculate_z_score (0 : ℝ) 1 (Real.sqrt 999) = -1 / Real.sqrt 999 := by
    unfold analytics_calculate_z_score
    rw [if_neg (not_le.mpr hpos)]; norm_num
  have hznew : analytics_calculate_z_score (1000 : ℝ) 1 (Real.sqrt 999)
      = 999 / Real.sqrt 999 := by
    unfold analytics_calculate_z_score
    rw [if_neg (not_le.mpr hpos)]; norm_num
  have hzold_neg : -1 / Real.sqrt 999 < 0 := div_neg_of_neg_of_pos (by norm_num) hpos
  have hznew_big : (2 : ℝ) < 999 / Real.sqrt 999 := by
    rw [lt_div_iff₀ hpos]; linarith
  have hzold_small : |(-1 : ℝ) / Real.sqrt 999| ≤ 2 := by
    rw [abs_le]
    constructor
    · rw [le_div_iff₀ hpos]; linarith
    · linarith
  refine ⟨hcount, hm, hs, hz0, ?_, ?_, ?_⟩
  · rw [hz0, hzold, hznew]
    intro h
    linarith
  · rw [ho, hz0, hzold]
    simp only [analytics_is_outlier, decide_eq_false_iff_not, not_lt]
    norm_num
    have := hzold_small
    norm_num at this
    exact this
  · rw [hznew]
    simp only [analytics_is_outlier, decide_eq_true_eq]
    rw [abs_of_pos (by linarith)]
    norm_num
    linarith

/-- C14, at the failing input: with the default trend window 50, after the 51
throughput samples of `sample_step_stream 50 1000` (50 samples of value 0, then one of
value 1000) the stored trend is the one of the slots `0 .. 49`, the 50 oldest samples:
slope 0, stable, not increasing; the least-squares trend of the 50 most recent samples
in arrival order has slope `40 / 17` and is increasing. -/
theorem stored_trend_not_trailing :
    ((ingest_all Real.sqrt (analytics_init (fun _ => (0 : ℝ)) none)
        (sample_step_stream 50 1000)).history METRIC_THROUGHPUT).count = 51
    ∧ (ingest_all Real.sqrt (analytics_init (fun _ => (0 : ℝ)) none)
        (sample_step_stream 50 1000)).config.trend_window = 50
    ∧ ((ingest_all Real.sqrt (analytics_init (fun _ => (0 : ℝ)) none)
        (sample_step_stream 50 1000)).history METRIC_THROUGHPUT).last_trend.slope = 0
    ∧ ((ingest_all Real.sqrt (analytics_init (fun _ => (0 : ℝ)) none)
        (sample_step_stream 50 1000)).history METRIC_THROUGHPUT).last_trend.is_increasing
        = false
    ∧ ((ingest_all Real.sqrt (analytics_init (fun _ => (0 : ℝ)) none)
        (sample_step_stream 50 1000)).history METRIC_THROUGHPUT).last_trend.is_stable = true
    ∧ (analytics_calculate_trend Real.sqrt
        (trailing_window ((sample_step_stream 50 (1000 : ℝ)).map Prod.snd) 50)
        50).slope = 40 / 17
    ∧ (analytics_calculate_trend Real.sqrt
        (trailing_window ((sample_step_stream 50 (1000 : ℝ)).map Prod.snd) 50)
        50).is_increasing = true := by
  obtain ⟨hinv, _, htrend⟩ :=
    sample_step_stream_history Real.sqrt (fun _ => (0 : ℝ)) 50 1000 (by norm_num)
  have htrend2 := htrend (by norm_num)
  have hcount : ((ingest_all Real.sqrt (analytics_init (fun _ => (0 : ℝ)) none)
      (sample_step_stream 50 1000)).history METRIC_THROUGHPUT).count = 51 := by
    rw [hinv.2.1, List.length_map, sample_step_stream_length]; rfl
  have hzero := calculate_trend_zero_window Real.sqrt
    ((ingest_all Real.sqrt (analytics_init (fun _ => (0 : ℝ)) none)
      (sample_step_stream 50 1000)).history METRIC_THROUGHPUT).data 50 (by norm_num)
    (fun i hi => sample_step_short_data Real.sqrt (fun _ => (0 : ℝ)) 1000 i hi)
  have hcast : ((50 : ℕ) : ℤ) = 50 := rfl
  rw [hcast, ← htrend2] at hzero
  obtain ⟨hs, _, hinc, _, _⟩ := calculate_trend_fields Real.sqrt
    (trailing_window ((sample_step_stream 50 (1000 : ℝ)).map Prod.snd) 50) 50 (by norm_num)
  rw [hcast] at hs hinc
  have hval := sample_step_trailing_value (1000 : ℝ)
  have hy : (∑ i in Finset.range 50,
      (trailing_window ((sample_step_stream 50 (1000 : ℝ)).map Prod.snd) 50 i).value)
      = 1000 := by
    rw [Finset.sum_congr rfl (fun i hi => hval i (Finset.mem_range.mp hi))]
    simp
  have hxy : (∑ i in Finset.range 50, (i : ℝ)
      * (trailing_window ((sample_step_stream 50 (1000 : ℝ)).map Prod.snd) 50 i).value)
      = 49000 := by
    rw [Finset.sum_congr rfl (fun i hi => by rw [hval i (Finset.mem_range.mp hi)])]
    simp
    norm_num
  have hslope : (analytics_calculate_trend Real.sqrt
      (trailing_window ((sample_step_stream 50 (1000 : ℝ)).map Prod.snd) 50) 50).slope
      = 40 / 17 := by
    rw [hs, hy, hxy, trend_denominator_eq, sum_range_cast]
    norm_num
  refine ⟨hcount, ?_, hzero.1, hzero.2.1, hzero.2.2, hslope, ?_⟩
  · rw [ingest_all_config, init_trend_window]
  · rw [hinc, hslope]
    simp only [decide_eq_true_eq]
    norm_num

/-- C21: in a context created with the default configuration, after `n >= 10`
throughput samples of value 50.0 have been ingested, `analytics_detect_anomaly` on a
throughput sample of value 200.0 returns a severity above none (critical, from the
threshold stage) and `actual_value = 200.0`. -/
theorem detect_anomaly_after_normal_samples (sqrt : α → α) (weights : Nat → α)
    (ms : List (Nat × metric_data_t α)) (now : Nat) (metric : metric_data_t α)
    (hn : 10 ≤ ms.length)
    (hms : ∀ x ∈ ms, x.2.type = METRIC_THROUGHPUT ∧ x.2.value = 50.0)
    (hk : metric.type = METRIC_THROUGHPUT) (hv : metric.value = 200.0) :
    (analytics_detect_anomaly now (ingest_all sqrt (analytics_init weights none) ms)
        metric).severity.toNat > anomaly_severity_t.ANOMALY_NONE.toNat
    ∧ (analytics_detect_anomaly now (ingest_all sqrt (analytics_init weights none) ms)
        metric).severity = .ANOMALY_CRITICAL
    ∧ (analytics_detect_anomaly now (ingest_all sqrt (analytics_init weights none) ms)
        metric).actual_value = 200.0 := by
  have hcfg := ingest_all_config sqrt ms (analytics_init weights none)
  have hth : (ingest_all sqrt (analytics_init weights none) ms).config.thresholds metric.type
      = { warning_threshold := 100.0, critical_threshold := 50.0, min_value := 0.0,
          max_value := 1000.0, enabled := true } := by
    rw [hcfg, hk, init_thresholds_throughput]
  have hthr := threshold_detection_critical now
    (ingest_all sqrt (analytics_init weights none) ms) metric (by rw [hth])
    (by rw [hth, hv]; norm_num)
  have hsev : (analytics_threshold_detection now
      (ingest_all sqrt (analytics_init weights none) ms) metric).severity.toNat
      > anomaly_severity_t.ANOMALY_NONE.toNat := by
    rw [hthr]; simp [anomaly_severity_t.toNat]
  rw [detect_anomaly_of_threshold now _ metric hsev, hthr]
  exact ⟨by simp [anomaly_severity_t.toNat], rfl, hv⟩

theorem detect_anomaly_after_normal_samples_witness :
    (10 ≤ ((List.range 15).map (fun i =>
        (i, ({ type := METRIC_THROUGHPUT, value := 50.0, node_id := 1, cell_id := 1,
               timestamp := i } : metric_data_t ℚ)))).length)
    ∧ (analytics_detect_anomaly 15
        (ingest_all (fun x : ℚ => |x|) (analytics_init (fun _ => 0) none)
          ((List.range 15).map (fun i =>
            (i, ({ type := METRIC_THROUGHPUT, value := 50.0, node_id := 1, cell_id := 1,
                   timestamp := i } : metric_data_t ℚ)))))
        (sample_throughput 200.0)).severity = .ANOMALY_CRITICAL :=
  ⟨by simp,
    (detect_anomaly_after_normal_samples (fun x : ℚ => |x|) (fun _ => 0)
      ((List.range 15).map (fun i =>
        (i, ({ type := METRIC_THROUGHPUT, value := 50.0, node_id := 1, cell_id := 1,
               timestamp := i } : metric_data_t ℚ))))
      15 (sample_throughput 200.0) (by simp)
      (by
        intro x hx
        simp only [List.mem_map, List.mem_range] at hx
        obtain ⟨i, _, rfl⟩ := hx
        exact ⟨rfl, rfl⟩)
      rfl rfl).2.1⟩

/-- C22: in every state reached from `analytics_init` by ingestions, the result of
`analytics_detect_anomaly`, whichever stage produced it and also the none result, has
its confidence in the closed interval `[0, 1]`. -/
theorem detect_anomaly_confidence_range (sqrt : α → α) (hsqrt : ∀ x, 0 ≤ sqrt x)
    (weights : Nat → α) (config_file : Option (Option (Option (config_json α))))
    (ms : List (Nat × metric_data_t α)) (now : Nat) (metric : metric_data_t α) :
    0 ≤ (analytics_detect_anomaly now (ingest_all sqrt (analytics_init weights config_file) ms)
        metric).confidence
    ∧ (analytics_detect_anomaly now (ingest_all sqrt (analytics_init weights config_file) ms)
        metric).confidence ≤ 1 := by
  obtain ⟨hinit, hsd⟩ := ingest_all_ml_inv sqrt hsqrt weights config_file ms
  have hml := ml_detection_none_of_uninitialized now
    (ingest_all sqrt (analytics_init weights config_file) ms) metric hinit (hsd _)
  rcases detect_anomaly_cases now (ingest_all sqrt (analytics_init weights config_file) ms)
    metric with h | h | h | h
  · rw [h]; exact threshold_detection_confidence_range now _ metric
  · rw [h]; exact statistical_detection_confidence_range now _ metric
  · exact absurd hml h.2
  · rw [h]; exact ⟨le_refl _, zero_le_one⟩

theorem detect_anomaly_confidence_range_witness :
    (∀ x : ℚ, 0 ≤ |x|)
    ∧ 0 ≤ (analytics_detect_anomaly 2
        (ingest_all (fun x : ℚ => |x|) (analytics_init (fun _ => 0) none) (sample_stream 20))
        (sample_throughput 70)).confidence
    ∧ (analytics_detect_anomaly 2
        (ingest_all (fun x : ℚ => |x|) (analytics_init (fun _ => 0) none) (sample_stream 20))
        (sample_throughput 70)).confidence ≤ 1 :=
  ⟨fun x => abs_nonneg x,
    detect_anomaly_confidence_range (fun x : ℚ => |x|) (fun x => abs_nonneg x) (fun _ => 0) none
      (sample_stream 20) 2 (sample_throughput 70)⟩

/-- C23: a context created by `analytics_init` without a configuration file has
`window_size = 100`, `trend_window = 50`, `outlier_threshold = 2.0`, model detection
and prediction enabled, and the threshold entry of each of the 9 metric kinds
enabled. -/
theorem init_defaults (weights : Nat → α) :
    (analytics_init weights none).config.window_size = 100
    ∧ (analytics_init weights none).config.trend_window = 50
    ∧ (analytics_init weights none).config.outlier_threshold = 2.0
    ∧ (analytics_init weights none).config.enable_ml_detection = true
    ∧ (analytics_init weights none).config.enable_prediction = true
    ∧ (∀ k, k < METRIC_COUNT →
        ((analytics_init weights none).config.thresholds k).enabled = true) :=
  ⟨rfl, rfl, rfl, rfl, rfl, fun k hk => init_thresholds_enabled weights k hk⟩

/-- C25: in a state reached by ingesting any samples `ms`, of whatever kinds and in
any interleaving, into a context whose ring of the valid kind `k` is empty, if the
model is marked initialised and the count of `k` is 10 or more, `analytics_predict_ml`
on a sample of kind `k` returns the bias plus the sum over `i = 0 .. 9` of
`weights[i]` times the value of the `(i+1)`-th most recently ingested sample of kind
`k`, whatever the number of ingestions (so also after the ring has wrapped). -/
theorem predict_ml_trailing_dot_product (sqrt : α → α) (ctx0 : analytics_context_t α)
    (k : Nat) (hk : k < METRIC_COUNT)
    (hhead : (ctx0.history k).head = 0) (htail : (ctx0.history k).tail = 0)
    (hcount0 : (ctx0.history k).count = 0)
    (ms : List (Nat × metric_data_t α))
    (hinit : (ingest_all sqrt ctx0 ms).ml_model.initialized = true)
    (hcount : ((ingest_all sqrt ctx0 ms).history k).count ≥ 10)
    (metric : metric_data_t α) (hmk : metric.type = k) :
    analytics_predict_ml (ingest_all sqrt ctx0 ms) metric
      = (ingest_all sqrt ctx0 ms).ml_model.bias
        + ∑ i in Finset.range 10,
            (ingest_all sqrt ctx0 ms).ml_model.weights i
              * ((samples_of_kind k ms).getD ((samples_of_kind k ms).length - 1 - i)
                  metric_data_zero).value := by
  have h0 : ring_inv (ctx0.history k) [] := by
    refine ⟨by simpa using hhead, by simpa using hcount0, by simpa using htail, ?_⟩
    intro i _ hi
    simp at hi
  have hinv := ingest_all_ring_inv_kind sqrt ctx0 k hk h0 ms
  subst hmk
  exact predict_ml_of_ring_inv (ingest_all sqrt ctx0 ms) metric _ hinv hinit hcount

theorem predict_ml_trailing_dot_product_witness :
    METRIC_THROUGHPUT < METRIC_COUNT
    ∧ (samples_of_kind METRIC_THROUGHPUT (sample_mixed_stream 120)).length = 12
    ∧ analytics_predict_ml (ingest_all (fun x : ℚ => |x|) sample_ctx_model (sample_mixed_stream 120))
        (sample_throughput 7)
      = (ingest_all (fun x : ℚ => |x|) sample_ctx_model (sample_mixed_stream 120)).ml_model.bias
        + ∑ i in Finset.range 10,
            (ingest_all (fun x : ℚ => |x|) sample_ctx_model
                (sample_mixed_stream 120)).ml_model.weights i
              * ((samples_of_kind METRIC_THROUGHPUT (sample_mixed_stream 120)).getD
                  ((samples_of_kind METRIC_THROUGHPUT (sample_mixed_stream 120)).length - 1 - i)
                  metric_data_zero).value
    ∧ (samples_of_kind METRIC_THROUGHPUT (sample_stream 1003)).length = 1003
    ∧ analytics_predict_ml (ingest_all (fun x : ℚ => |x|) sample_ctx_model (sample_stream 1003))
        (sample_throughput 7)
      = (ingest_all (fun x : ℚ => |x|) sample_ctx_model (sample_stream 1003)).ml_model.bias
        + ∑ i in Finset.range 10,
            (ingest_all (fun x : ℚ => |x|) sample_ctx_model
                (sample_stream 1003)).ml_model.weights i
              * ((samples_of_kind METRIC_THROUGHPUT (sample_stream 1003)).getD
                  ((samples_of_kind METRIC_THROUGHPUT (sample_stream 1003)).length - 1 - i)
                  metric_data_zero).value :=
  have hlen : (samples_of_kind METRIC_THROUGHPUT (sample_mixed_stream 120)).length = 12 := by
    decide
  have hlen2 : (samples_of_kind METRIC_THROUGHPUT (sample_stream 1003)).length = 1003 := by
    unfold samples_of_kind
    rw [List.filter_eq_self.mpr]
    · simp [sample_stream]
    · intro m hm
      simp only [sample_stream, List.map_map, List.mem_map, List.mem_range] at hm
      obtain ⟨i, _, rfl⟩ := hm
      rfl
  have h0 : ring_inv (sample_ctx_model.history METRIC_THROUGHPUT) [] := ring_inv_zero
  ⟨by decide, hlen,
    predict_ml_trailing_dot_product (fun x : ℚ => |x|) sample_ctx_model METRIC_THROUGHPUT
      (by decide) rfl rfl rfl (sample_mixed_stream 120)
      (by rw [ingest_all_ml_model]; rfl)
      (by
        have h := (ingest_all_ring_inv_kind (fun x : ℚ => |x|) sample_ctx_model
          METRIC_THROUGHPUT (by decide) h0 (sample_mixed_stream 120)).2.1
        rw [h, hlen]
        decide)
      (sample_throughput 7) rfl,
    hlen2,
    predict_ml_trailing_dot_product (fun x : ℚ => |x|) sample_ctx_model METRIC_THROUGHPUT
      (by decide) rfl rfl rfl (sample_stream 1003)
      (by rw [ingest_all_ml_model]; rfl)
      (by
        have h := (ingest_all_ring_inv_kind (fun x : ℚ => |x|) sample_ctx_model
          METRIC_THROUGHPUT (by decide) h0 (sample_stream 1003)).2.1
        rw [h, hlen2]
        decide)
      (sample_throughput 7) rfl⟩

/-- C26: the regression denominator `n * (sum of i^2) - (sum of i)^2` over
`i = 0 .. n-1`, which is the divisor formed from the loop's sums, is strictly positive
for every `n >= 2`; it is zero exactly for `n <= 1`, where `analytics_calculate_trend`
returns slope 0 without dividing. -/
theorem trend_denominator_positive (sqrt : α → α) (data : Nat → metric_data_t α) (n : Nat)
    (count : Int) :
    (2 ≤ n →
        0 < (n : α) * (∑ i in Finset.range n, (i : α) * (i : α))
            - (∑ i in Finset.range n, (i : α)) * (∑ i in Finset.range n, (i : α)))
    ∧ (2 ≤ n →
        0 < (n : α) * (trend_sums data n).2.2.2 - (trend_sums data n).1 * (trend_sums data n).1)
    ∧ ((n : α) * (∑ i in Finset.range n, (i : α) * (i : α))
            - (∑ i in Finset.range n, (i : α)) * (∑ i in Finset.range n, (i : α)) = 0
        ↔ n ≤ 1)
    ∧ (count ≤ 1 → (analytics_calculate_trend sqrt data count).slope = 0) := by
  refine ⟨fun hn => trend_denominator_pos n hn, ?_, ?_, ?_⟩
  · intro hn
    rw [trend_sums_eq]
    exact trend_denominator_pos n hn
  · constructor
    · intro h0
      by_contra hn
      have := trend_denominator_pos (α := α) n (by omega)
      rw [h0] at this
      exact lt_irrefl _ this
    · intro hn
      interval_cases n <;> simp
  · intro hc
    unfold analytics_calculate_trend
    rw [if_pos hc]
    rfl

/-- C27: in exact real arithmetic, for every window of `n >= 1` samples the z-score
returned by `analytics_calculate_stats` satisfies `z_score ^ 2 <= n - 1`; hence a
window of at most 5 samples never sets `is_outlier` and a window of exactly 10
samples never has `|z_score| > 3.0`. -/
theorem calculate_stats_z_score_bound (data : Nat → metric_data_t ℝ) (n : Nat) (hn : 1 ≤ n) :
    (analytics_calculate_stats Real.sqrt data (n : Int)).z_score ^ 2 ≤ (n : ℝ) - 1
    ∧ (n ≤ 5 → (analytics_calculate_stats Real.sqrt data (n : Int)).is_outlier = false)
    ∧ (n = 10 → ¬ |(analytics_calculate_stats Real.sqrt data (n : Int)).z_score| > 3.0) := by
  have hz := calculate_stats_z_score_sq_le data n hn
  refine ⟨hz, ?_, ?_⟩
  · intro h5
    have hn5 : (n : ℝ) ≤ 5 := by exact_mod_cast h5
    have h4 : (analytics_calculate_stats Real.sqrt data (n : Int)).z_score ^ 2 ≤ 2 ^ 2 := by
      linarith
    have habs := abs_le_of_sq_le_sq h4 (by norm_num)
    rw [(calculate_stats_fields Real.sqrt data n hn).2.2.2.2.2.2]
    unfold analytics_is_outlier
    rw [decide_eq_false_iff_not, not_lt]
    exact le_trans habs (by norm_num)
  · intro h10
    have hn10 : (n : ℝ) = 10 := by exact_mod_cast h10
    have h9 : (analytics_calculate_stats Real.sqrt data (n : Int)).z_score ^ 2 ≤ 3 ^ 2 := by
      linarith
    have habs := abs_le_of_sq_le_sq h9 (by norm_num)
    rw [not_lt]
    exact le_trans habs (by norm_num)

theorem calculate_stats_z_score_bound_witness :
    1 ≤ 10
    ∧ ¬ |(analytics_calculate_stats Real.sqrt
        (fun i => ({ type := METRIC_THROUGHPUT, value := if i = 9 then 1000 else 0,
                     node_id := 1, cell_id := 1, timestamp := i } : metric_data_t ℝ))
        ((10 : Nat) : Int)).z_score| > 3.0 :=
  ⟨by decide,
    (calculate_stats_z_score_bound
      (fun i => ({ type := METRIC_THROUGHPUT, value := if i = 9 then 1000 else 0,
                   node_id := 1, cell_id := 1, timestamp := i } : metric_data_t ℝ))
      10 (by decide)).2.2 rfl⟩

/-- C28: in exact real arithmetic, for every window of `n >= 2` samples the
correlation returned by `analytics_calculate_trend` lies in `[-1, 1]`; when all the
values of the window are equal the correlation is 0, the slope is 0 and `is_stable`
is true. -/
theorem calculate_trend_correlation_range (data : Nat → metric_data_t ℝ) (n : Nat)
    (hn : 2 ≤ n) :
    -1 ≤ (analytics_calculate_trend Real.sqrt data (n : Int)).correlation
    ∧ (analytics_calculate_trend Real.sqrt data (n : Int)).correlation ≤ 1
    ∧ (∀ c : ℝ, (∀ i, i < n → (data i).value = c) →
        (analytics_calculate_trend Real.sqrt data (n : Int)).correlation = 0
        ∧ (analytics_calculate_trend Real.sqrt data (n : Int)).slope = 0
        ∧ (analytics_calculate_trend Real.sqrt data (n : Int)).is_stable = true) := by
  have habs : |(analytics_calculate_trend Real.sqrt data (n : Int)).correlation| ≤ 1 := by
    rw [calculate_trend_correlation Real.sqrt data n hn]
    split
    · rename_i h
      apply abs_div_sqrt_le_one _ _ (mul_pos h.1 h.2)
      exact Finset.sum_mul_sq_le_sq_mul_sq _ _ _
    · simp
  exact ⟨(abs_le.mp habs).1, (abs_le.mp habs).2,
    fun c hc => calculate_trend_constant_window Real.sqrt data n hn c hc⟩

theorem calculate_trend_correlation_range_witness :
    2 ≤ 3
    ∧ -1 ≤ (analytics_calculate_trend Real.sqrt
        (fun i => ({ type := METRIC_THROUGHPUT, value := (i : ℝ) * (i : ℝ), node_id := 1,
                     cell_id := 1, timestamp := i } : metric_data_t ℝ))
        ((3 : Nat) : Int)).correlation
    ∧ (analytics_calculate_trend Real.sqrt
        (fun i => ({ type := METRIC_THROUGHPUT, value := (i : ℝ) * (i : ℝ), node_id := 1,
                     cell_id := 1, timestamp := i } : metric_data_t ℝ))
        ((3 : Nat) : Int)).correlation ≤ 1 :=
  ⟨by decide,
    (calculate_trend_correlation_range
      (fun i => ({ type := METRIC_THROUGHPUT, value := (i : ℝ) * (i : ℝ), node_id := 1,
                   cell_id := 1, timestamp := i } : metric_data_t ℝ)) 3 (by decide)).1,
    (calculate_trend_correlation_range
      (fun i => ({ type := METRIC_THROUGHPUT, value := (i : ℝ) * (i : ℝ), node_id := 1,
                   cell_id := 1, timestamp := i } : metric_data_t ℝ)) 3 (by decide)).2.1⟩

/-- C29: a successful ingestion of a sample of kind `k` leaves the history (samples,
head, tail, count, stored statistics and trend) of every other kind unchanged, and
leaves the configuration and the linear-model parameters unchanged. -/
theorem process_metric_frame (sqrt : α → α) (now : Nat) (ctx : analytics_context_t α)
    (metric : metric_data_t α) (hk : metric.type < METRIC_COUNT) :
    (∀ j, j ≠ metric.type →
        (analytics_process_metric sqrt now ctx metric).2.history j = ctx.history j)
    ∧ (analytics_process_metric sqrt now ctx metric).2.config = ctx.config
    ∧ (analytics_process_metric sqrt now ctx metric).2.ml_model = ctx.ml_model :=
  ⟨fun j hj => process_metric_history_other sqrt now ctx metric j hj,
    process_metric_config sqrt now ctx metric, process_metric_ml_model sqrt now ctx metric⟩

theorem process_metric_frame_witness :
    (sample_throughput 60).type < METRIC_COUNT
    ∧ (analytics_process_metric (fun x : ℚ => |x|) 0 sample_ctx_outlier
        (sample_throughput 60)).2.history METRIC_LATENCY
        = sample_ctx_outlier.history METRIC_LATENCY :=
  ⟨by decide,
    (process_metric_frame (fun x : ℚ => |x|) 0 sample_ctx_outlier (sample_throughput 60)
      (by decide)).1 METRIC_LATENCY (by decide)⟩

/-- C30: under the default configuration the throughput entry has its critical
threshold 50.0 below its warning threshold 100.0, so `analytics_threshold_detection`
on a throughput sample returns critical for every value `>= 50.0`, the warning rule
with confidence 0.8 never fires, and a warning is returned only as the minimum-value
violation for `value <= 0`. -/
theorem throughput_warning_rule_dead (sqrt : α → α) (weights : Nat → α)
    (ms : List (Nat × metric_data_t α)) (now : Nat) (metric : metric_data_t α)
    (hk : metric.type = METRIC_THROUGHPUT) :
    ((ingest_all sqrt (analytics_init weights none) ms).config.thresholds
        METRIC_THROUGHPUT).critical_threshold = 50.0
    ∧ ((ingest_all sqrt (analytics_init weights none) ms).config.thresholds
        METRIC_THROUGHPUT).warning_threshold = 100.0
    ∧ (metric.value ≥ 50.0 →
        (analytics_threshold_detection now (ingest_all sqrt (analytics_init weights none) ms)
          metric).severity = .ANOMALY_CRITICAL
        ∧ (analytics_threshold_detection now (ingest_all sqrt (analytics_init weights none) ms)
          metric).confidence = 1.0)
    ∧ (analytics_threshold_detection now (ingest_all sqrt (analytics_init weights none) ms)
        metric).confidence ≠ 0.8
    ∧ ((analytics_threshold_detection now (ingest_all sqrt (analytics_init weights none) ms)
          metric).severity = .ANOMALY_WARNING
        ↔ metric.value ≤ 0)
    ∧ ((analytics_threshold_detection now (ingest_all sqrt (analytics_init weights none) ms)
          metric).severity = .ANOMALY_WARNING →
        (analytics_threshold_detection now (ingest_all sqrt (analytics_init weights none) ms)
          metric).confidence = 0.7
        ∧ (analytics_threshold_detection now (ingest_all sqrt (analytics_init weights none) ms)
          metric).threshold_value = 0) := by
  have hth : (ingest_all sqrt (analytics_init weights none) ms).config.thresholds
      METRIC_THROUGHPUT
      = { warning_threshold := 100.0, critical_threshold := 50.0, min_value := 0.0,
          max_value := 1000.0, enabled := true } := by
    rw [ingest_all_config, init_thresholds_throughput]
  have z0 : (0.0 : α) = 0 := by norm_num
  refine ⟨by rw [hth], by rw [hth], ?_, ?_, ?_, ?_⟩
  all_goals
    simp only [analytics_threshold_detection, hk, hth, anomaly_zero, z0]
  · intro hv
    simp [hv]
  · by_cases h1 : metric.value ≥ 50.0
    · simp [h1]; norm_num
    · have h2 : ¬ metric.value ≥ 100.0 := fun h => h1 (le_trans (by norm_num) h)
      by_cases h3 : metric.value ≤ 0
      · simp [h1, h2, h3]; norm_num
      · simp [h1, h2, h3]; norm_num
  · by_cases h1 : metric.value ≥ 50.0
    · have h3 : ¬ metric.value ≤ 0 := fun h => by
        have : (0:α) < 50.0 := by norm_num
        exact absurd (le_trans h1 h) (not_le.mpr this)
      simp [h1, h3]
    · have h2 : ¬ metric.value ≥ 100.0 := fun h => h1 (le_trans (by norm_num) h)
      by_cases h3 : metric.value ≤ 0
      · simp [h1, h2, h3]
      · simp [h1, h2, h3]
  · by_cases h1 : metric.value ≥ 50.0
    · simp [h1]
    · have h2 : ¬ metric.value ≥ 100.0 := fun h => h1 (le_trans (by norm_num) h)
      by_cases h3 : metric.value ≤ 0
      · simp [h1, h2, h3]
      · simp [h1, h2, h3]

theorem throughput_warning_rule_dead_witness :
    (sample_throughput 150).type = METRIC_THROUGHPUT
    ∧ (sample_throughput 150).value ≥ 50.0
    ∧ (analytics_threshold_detection 0
        (ingest_all (fun x : ℚ => |x|) (analytics_init (fun _ => 0) none) (sample_stream 3))
        (sample_throughput 150)).severity = .ANOMALY_CRITICAL :=
  have hv : (sample_throughput 150).value ≥ 50.0 := by
    simp only [sample_throughput]; norm_num
  ⟨rfl, hv,
    ((throughput_warning_rule_dead (fun x : ℚ => |x|) (fun _ => 0) (sample_stream 3) 0
      (sample_throughput 150) rfl).2.2.1 hv).1⟩

end Claims

end Analytics
